import Mathlib

/-!
# Chessboard camera calibration: stereo and single-camera pipelines

A shallow embedding of `source/stereo_calib.cpp`, `source/camera_calib.cpp` and
`source/createChessboard.cpp`.

Conventions of the embedding

* `F` is the scalar type standing for C++ `float`/`double`.  It is kept abstract: the
  definitions only use the operations the source applies to it, so every theorem holds for
  any interpretation of floating point arithmetic.
* `std::vector<T>` is `List T`; `push_back` appends at the end, `v[n] = x` is `List.set`,
  `resize` is `vecResize`.  Counters and indices are natural numbers: list lengths are
  assumed to stay below `2^31`, so that the conversions between `size_t` and `int` in the
  source are exact.
* Calls into OpenCV, the file system, the display and the keyboard are the fields of `Env`;
  every such call is also recorded in a trace of `Event`s, in program order.
* The program catches no exception.  The one OpenCV assertion followed here is that of
  `cv::resize` on an image without pixels, in the `mergeImages` call of `findCorners`: when
  it fails, `findCorners` has no return value and the run ends there (`Run.thrown`).
-/

set_option autoImplicit false

/-! ## Basic data -/

/-- The class `cv::Size` (a width and a height, both `int`). -/
structure Size where
  width : Int
  height : Int
deriving DecidableEq, Repr

/-- The class `cv::Point3f`. -/
structure Point3f (F : Type) where
  x : F
  y : F
  z : F
deriving DecidableEq, Repr

/-- The class `cv::Point2f`. -/
structure Point2f (F : Type) where
  x : F
  y : F
deriving DecidableEq, Repr

/-- The call `v.resize(n)` on a vector whose elements default-construct to `fill`. -/
def vecResize {α : Type} (v : List α) (n : Nat) (fill : α) : List α :=
  v.take n ++ List.replicate (n - v.length) fill

/-! ## Pattern geometry -/

namespace StereoCalib

/-- The function `calcBoardCornerPositions` of `stereo_calib.cpp` (lines 153-161): for every
entry `n` of `corners`, push the `height * width` board points onto `corners[n]`. -/
def calcBoardCornerPositions {F : Type} [Mul F] [IntCast F] [Zero F]
    (boardSize : Size) (squareSize : F) (corners : List (List (Point3f F))) :
    List (List (Point3f F)) :=
  (List.range corners.length).foldl (fun cs n =>
    (List.range boardSize.height.toNat).foldl (fun cs (i : Nat) =>
      (List.range boardSize.width.toNat).foldl (fun cs (j : Nat) =>
        cs.set n (cs.getD n [] ++
          [Point3f.mk (((i : Int) : F) * squareSize) (((j : Int) : F) * squareSize) 0]))
        cs) cs) corners

/-- Lines 166 and 175-176 of `stereoCalib`: `objectPoints` starts empty, is resized to
`nimages` entries and filled by `calcBoardCornerPositions`. -/
def buildObjectPoints {F : Type} [Mul F] [IntCast F] [Zero F]
    (boardSize : Size) (squareSize : F) (nimages : Nat) : List (List (Point3f F)) :=
  let objectPoints : List (List (Point3f F)) := []
  let objectPoints := vecResize objectPoints nimages []
  calcBoardCornerPositions boardSize squareSize objectPoints

end StereoCalib

namespace CameraCalib

/-- The function `calcBoardCornerPositions` of `camera_calib.cpp` (lines 260-269): clear
`corners`, then push the `height * width` board points. -/
def calcBoardCornerPositions {F : Type} [Mul F] [IntCast F] [Zero F]
    (boardSize : Size) (squareSize : F) (corners : List (Point3f F)) : List (Point3f F) :=
  let corners : List (Point3f F) := (fun _ => []) corners
  (List.range boardSize.height.toNat).foldl (fun cs (i : Nat) =>
    (List.range boardSize.width.toNat).foldl (fun cs (j : Nat) =>
      cs ++ [Point3f.mk (((i : Int) : F) * squareSize) (((j : Int) : F) * squareSize) 0])
      cs) corners

end CameraCalib


/-! ## Images, matrices and stored artifacts -/

/-- The class `cv::Mat`, used by the source both for images and for numeric matrices. -/
structure Mat (F : Type) where
  rows : Int
  cols : Int
  data : List F
deriving DecidableEq, Repr

namespace Mat

/-- The default constructor `Mat()`. -/
def default {F : Type} : Mat F := ⟨0, 0, []⟩

/-- The method `Mat::size()`. -/
def size {F : Type} (m : Mat F) : Size := ⟨m.cols, m.rows⟩

/-- The method `Mat::empty()`: `data == 0 || total() == 0`. -/
def empty {F : Type} (m : Mat F) : Bool := m.data.isEmpty || m.rows * m.cols == 0

end Mat

/-- The default constructor `Size()`. -/
def Size.default : Size := ⟨0, 0⟩

/-- A value stored under a name in a `cv::FileStorage`. -/
inductive FSValue (F : Type) where
  | str (s : String)
  | int (n : Int)
  | real (x : F)
  | mat (m : Mat F)
deriving DecidableEq, Repr

/-- One item of a `cv::FileStorage` document: a named field, or a comment written by
`cvWriteComment`. -/
inductive FSEntry (F : Type) where
  | field (name : String) (value : FSValue F)
  | comment (text : String)
deriving DecidableEq, Repr

/-- The files of the calibration artifacts: the items of each existing file, in order. -/
abbrev FileSys (F : Type) := String → Option (List (FSEntry F))

/-- The file system after `filename` has been given the contents `doc`. -/
def FileSys.write {F : Type} (files : FileSys F) (filename : String) (doc : List (FSEntry F)) :
    FileSys F :=
  fun f => if f = filename then some doc else files f

/-- The node `fs[name]` of a document: the value of the first field called `name`. -/
def fsNode {F : Type} (doc : List (FSEntry F)) (name : String) : Option (FSValue F) :=
  doc.findSome? (fun e =>
    match e with
    | FSEntry.field n v => if n == name then some v else none
    | FSEntry.comment _ => none)

/-- The statement `node >> m` for a matrix `m`: a missing node yields the default value
`Mat()` (`cv::read(node, mat, Mat())`). Only matrix nodes are read by the source; any other
node is mapped to `Mat()` here. -/
def readMat {F : Type} (node : Option (FSValue F)) : Mat F :=
  match node with
  | some (FSValue.mat m) => m
  | _ => Mat.default

/-- A `FileStorage` opened for reading on `filename`: a file that cannot be opened behaves
as a document without nodes. -/
def openRead {F : Type} (files : FileSys F) (filename : String) : List (FSEntry F) :=
  (files filename).getD []

/-- The constants of OpenCV's `calib3d` that the source uses; the header is not part of the
repository, so they are parameters of the embedding. -/
structure CalibConsts where
  CV_CALIB_USE_INTRINSIC_GUESS : Nat
  CV_CALIB_FIX_ASPECT_RATIO : Nat
  CV_CALIB_FIX_PRINCIPAL_POINT : Nat
  CV_CALIB_ZERO_TANGENT_DIST : Nat
  CV_CALIB_FIX_K4 : Nat
  CV_CALIB_FIX_K5 : Nat
  CV_CALIB_FIX_INTRINSIC : Nat
deriving DecidableEq, Repr

/-- The values these constants have in OpenCV 2.4 (`calib3d.hpp`). -/
def opencvConsts : CalibConsts :=
  { CV_CALIB_USE_INTRINSIC_GUESS := 1
    CV_CALIB_FIX_ASPECT_RATIO := 2
    CV_CALIB_FIX_PRINCIPAL_POINT := 4
    CV_CALIB_ZERO_TANGENT_DIST := 8
    CV_CALIB_FIX_K4 := 2048
    CV_CALIB_FIX_K5 := 4096
    CV_CALIB_FIX_INTRINSIC := 256 }

/-! ## The environment and the trace of a run -/

/-- What `stereoCalibrate` returns and writes into its output arguments. -/
structure StereoSolution (F : Type) where
  rms : F
  cameraMatrix0 : Mat F
  distCoeffs0 : Mat F
  cameraMatrix1 : Mat F
  distCoeffs1 : Mat F
  R : Mat F
  T : Mat F
  E : Mat F
  Fm : Mat F
deriving DecidableEq, Repr

/-- The outputs of `stereoRectify`. -/
structure Rectification (F : Type) where
  R1 : Mat F
  R2 : Mat F
  P1 : Mat F
  P2 : Mat F
  Q : Mat F
deriving DecidableEq, Repr

/-- What `calibrateCamera` returns and writes into its output arguments. -/
structure CameraSolution (F : Type) where
  rms : F
  cameraMatrix : Mat F
  distCoeffs : Mat F
  rvecs : List (Mat F)
  tvecs : List (Mat F)
deriving DecidableEq, Repr

/-- The class `cv::Vec3f`: the coefficients of an epipolar line. -/
structure Vec3f (F : Type) where
  v0 : F
  v1 : F
  v2 : F
deriving DecidableEq, Repr

/-- The external collaborators of the programs: image files, the OpenCV primitives, the
clock, and the operator at the keyboard.  `waitKey n` is the value returned by the `n`-th
call (counted from 0) of `cv::waitKey` in the collection loop, `waitKeyDisplay n` the one
of the `n`-th call in the display loop that follows the calibration; `canWrite f` tells
whether `f` can be opened for writing, `timeString` is the formatted local time.

For the single-camera program and the quality figures: `findChessboardCornersFast` is the
detector called with `CV_CALIB_CB_FAST_CHECK` added; `norm a b` is `norm(a, b, NORM_L2)`;
`sqrt` is the square root of the C library; `undistortPoints pts cameraMatrix distCoeffs`
gives the undistorted points written to the destination and the contents of the vector
`pts` after the call (the destination is a matrix header over that vector);
`stringListFile f` is `none` when `f` cannot be opened for reading and otherwise tells
whether its first top-level node is a sequence, with the strings the iteration over that
node yields; `cinPrefix` and `cinImageNumber` are what the operator types when asked for
the image names; `dateString` is the local date formatted with `%m%d`. -/
structure Env (F : Type) where
  imread : String → Mat F
  findChessboardCorners : Mat F → Size → Bool × List (Point2f F)
  cvtColor : Mat F → Mat F
  cornerSubPix : Mat F → List (Point2f F) → List (Point2f F)
  drawChessboardCorners : Mat F → Size → List (Point2f F) → Bool → List F
  waitKey : Nat → Int
  waitKeyDisplay : Nat → Int
  stereoCalibrate : List (List (Point3f F)) → List (List (Point2f F)) →
    List (List (Point2f F)) → Mat F → Mat F → Mat F → Mat F → Size → Nat → StereoSolution F
  stereoRectify : Mat F → Mat F → Mat F → Mat F → Size → Mat F → Mat F → Rectification F
  initUndistortRectifyMap : Mat F → Mat F → Mat F → Mat F → Size → Mat F × Mat F
  remap : Mat F → Mat F → Mat F → Mat F
  rectangle : Mat F → List F
  canWrite : String → Bool
  timeString : String
  findChessboardCornersFast : Mat F → Size → Bool × List (Point2f F)
  calibrateCamera : List (List (Point3f F)) → List (List (Point2f F)) → Size → Mat F →
    Mat F → Nat → CameraSolution F
  checkRange : Mat F → Bool
  projectPoints : List (Point3f F) → Mat F → Mat F → Mat F → Mat F → List (Point2f F)
  norm : List (Point2f F) → List (Point2f F) → F
  sqrt : F → F
  undistortPoints : List (Point2f F) → Mat F → Mat F → List (Point2f F) × List (Point2f F)
  computeCorrespondEpilines : List (Point2f F) → Nat → Mat F → List (Vec3f F)
  getOptimalNewCameraMatrix : Mat F → Mat F → Size → Mat F
  stringListFile : String → Option (Bool × List String)
  cinPrefix : String
  cinImageNumber : Int
  dateString : String

/-- The externally visible actions of a run, in program order. -/
inductive Event (F : Type) where
  | cout (text : String)
  | imread (filename : String)
  | findChessboardCorners (img : Mat F)
  | cornerSubPix (imageGray : Mat F)
  | drawChessboardCorners (img : Mat F)
  | mergeImages (imageSize : Size) (imgL imgR : Mat F)
  | imshow (winname : String)
  | waitKey (delay : Int)
  | openRead (filename : String)
  | stereoCalibrate (objectPoints : List (List (Point3f F)))
      (imagePoints0 imagePoints1 : List (List (Point2f F)))
      (cameraMatrix0 distCoeffs0 cameraMatrix1 distCoeffs1 : Mat F)
      (imageSize : Size) (flag : Nat)
  | computeReprojectionError (imagePoints0 imagePoints1 : List (List (Point2f F)))
      (nimages : Nat) (cameraMatrix0 distCoeffs0 cameraMatrix1 distCoeffs1 Fm : Mat F)
  | writeFile (filename : String) (doc : List (FSEntry F))
  | coutReal (text : String) (value : F)
  | initUndistortRectifyMap (cameraMatrix distCoeffs R P : Mat F)
  | destroyAllWindows
  | namedWindow (winname : String)
  | destroyWindow (winname : String)
  | putText (text : String)
  | calibrateCamera (objectPoints : List (List (Point3f F)))
      (imagePoints : List (List (Point2f F))) (imageSize : Size) (flags : Nat)
  | saveCameraParams (outputFileName : String)
deriving DecidableEq, Repr

/-- The conversion of the `int` returned by `waitKey` to `char` (8 bits, signed). -/
def toChar (v : Int) : Int := (v + 128) % 256 - 128

/-- The macro `ESC_KEY`. -/
def ESC_KEY : Int := 27

/-- The test `key == ESC_KEY || key == 'q' || key == 'Q'` on `char key = waitKey(..)`. -/
def isQuitKey (v : Int) : Bool :=
  let key := toChar v
  key == ESC_KEY || key == 113 || key == 81

namespace StereoCalib

/-! ## Correspondence collection: `findCorners` -/

/-- The variables `findCorners` works on: its reference parameters `imagePoints[0]`,
`imagePoints[1]`, `imageSize` and `nimages`, the global `goodImageList`, its locals
`npairs`, `imgL` and `imgR`, and the trace of the run. -/
structure FCState (F : Type) where
  imagePoints0 : List (List (Point2f F))
  imagePoints1 : List (List (Point2f F))
  imageSize : Size
  nimages : Nat
  goodImageList : List String
  npairs : Nat
  imgL : Mat F
  imgR : Mat F
  trace : List (Event F)
deriving DecidableEq, Repr

/-- Append an event to the trace. -/
def FCState.emit {F : Type} (st : FCState F) (e : Event F) : FCState F :=
  { st with trace := st.trace ++ [e] }

/-- The assignment `imagePoints[k][n] = corners` (`k` is 0 or 1). -/
def FCState.setCorners {F : Type} (st : FCState F) (k n : Nat) (corners : List (Point2f F)) :
    FCState F :=
  if k == 0 then { st with imagePoints0 := st.imagePoints0.set n corners }
  else { st with imagePoints1 := st.imagePoints1.set n corners }

/-- The statements `if (k == 0) imgL = img; if (k == 1) imgR = img;`. -/
def FCState.setImg {F : Type} (st : FCState F) (k : Nat) (img : Mat F) : FCState F :=
  let st := if k == 0 then { st with imgL := img } else st
  if k == 1 then { st with imgR := img } else st

/-- Lines 264-291 of the loop over `k`: detection and refinement of the corners of `img`,
written to `imagePoints[k][npairs]`; the boolean is `true` when the loop is left by
`break`.  The detector overwrites its output array `corners` whether or not it succeeds. -/
def detectCorners {F : Type} (env : Env F) (boardSize : Size) (filename : String)
    (img : Mat F) (k : Nat) (st : FCState F) : Bool × FCState F :=
  let r := env.findChessboardCorners img boardSize
  let found := r.1
  let st := (st.emit (Event.findChessboardCorners img)).setCorners k st.npairs r.2
  if found then
    let imageGray := env.cvtColor img
    let corners := env.cornerSubPix imageGray r.2
    let st := (st.emit (Event.cornerSubPix imageGray)).setCorners k st.npairs corners
    let img : Mat F :=
      { img with data := env.drawChessboardCorners img boardSize corners found }
    let st := st.emit (Event.drawChessboardCorners img)
    let st := st.setImg k img
    (false, st)
  else
    (true, st.emit (Event.cout ("Failed to detect corners in " ++ filename)))

/-- The body of the loop over `k` (lines 247-291) for image `k` of pair `i`; the boolean is
`true` when the body leaves the loop by `break`. -/
def processImage {F : Type} (env : Env F) (boardSize : Size)
    (imageList : List String) (i k : Nat) (st : FCState F) : Bool × FCState F :=
  let filename := imageList.getD (i * 2 + k) ""
  let img := env.imread filename
  let st := st.emit (Event.imread filename)
  if img.empty then (true, st)
  else
    let st := st.setImg k img
    if st.imageSize = Size.default then
      detectCorners env boardSize filename img k { st with imageSize := img.size }
    else if img.size ≠ st.imageSize then
      (true, st.emit (Event.cout ("The image " ++ filename ++
        " has different size from the first image. Skipping the pair.")))
    else
      detectCorners env boardSize filename img k st

/-- The loop `for (k = 0; k < 2; k++)` of lines 245-293: the value of `k` when the loop is
left, and the state. -/
def processPair {F : Type} (env : Env F) (boardSize : Size)
    (imageList : List String) (i : Nat) (st : FCState F) : Nat × FCState F :=
  let r0 := processImage env boardSize imageList i 0 st
  if r0.1 then (0, r0.2)
  else
    let r1 := processImage env boardSize imageList i 1 r0.2
    if r1.1 then (1, r1.2) else (2, r1.2)

/-- The assertion `CV_Assert(ssize.area() > 0)` with which `cv::resize` starts: `true` when
the call throws, which it does for a source image without pixels.  (The rows and columns of
a `cv::Mat` are never negative.) -/
def resizeThrows {F : Type} (src : Mat F) : Bool := src.rows * src.cols == 0

/-- The call `mergeImages(canvas, imageSize, imgL, imgR)` as far as the control flow goes:
`true` when it throws.  Lines 341-342 hand `imgL` and `imgR` to `cv::resize`, which throws
for an image without pixels.  An image size still at `Size()` (lines 334-337 then divide
by `MAX(0, 0)` and round a NaN, so that `canvas.create` may throw before `cv::resize` is
reached) only occurs when no image has loaded yet, so together with an empty `imgL` and an
empty `imgR`: the call throws in that case too, at one place or the other.  The other
assertion of `cv::resize`, on a canvas half of width or height zero (an image more than
1200 times as wide as high, or as high as wide), is not modelled. -/
def mergeImagesThrows {F : Type} (imgL imgR : Mat F) : Bool :=
  resizeThrows imgL || resizeThrows imgR

/-- Lines 243-301 of the loop over `i`: fresh `imgL` and `imgR`, the loop over `k`, and the
acceptance of the pair when both images have passed. -/
def pairBody {F : Type} (env : Env F) (boardSize : Size)
    (imageList : List String) (i : Nat) (st : FCState F) : FCState F :=
  let st := { st with imgL := Mat.default, imgR := Mat.default }
  let r := processPair env boardSize imageList i st
  let k := r.1
  let st := r.2
  if k == 2 then
    { st with
      goodImageList := st.goodImageList ++
        [imageList.getD (i * 2) "", imageList.getD (i * 2 + 1) ""]
      npairs := st.npairs + 1 }
  else st

/-- One pass through the body of the loop over `i` (lines 243-308), up to and including the
call of `waitKey`.  The call of `mergeImages` in line 305 is not guarded: when it throws,
the pass ends there, with `imgL` and `imgR` as they were handed to it. -/
def pairStep {F : Type} (env : Env F) (boardSize : Size) (delay_ms : Int)
    (imageList : List String) (i : Nat) (st : FCState F) : FCState F :=
  let st := pairBody env boardSize imageList i st
  let st := st.emit (Event.mergeImages st.imageSize st.imgL st.imgR)
  if mergeImagesThrows st.imgL st.imgR then st
  else
    let st := st.emit (Event.imshow "searching for corners...")
    st.emit (Event.waitKey delay_ms)

/-- The loop `for (int i = 0; i < nimages; i++)` of lines 241-312, entered at index `i` with
`rem` iterations to go.  It is left early when the operator presses `q`, `Q` or ESC, and
by the exception of a pass in which `mergeImages` throws: the boolean is `true` in that
case, and nothing catches the exception. -/
def pairLoop {F : Type} (env : Env F) (boardSize : Size) (delay_ms : Int)
    (imageList : List String) : Nat → Nat → FCState F → Bool × FCState F
  | 0, _, st => (false, st)
  | rem + 1, i, st =>
    let st := pairStep env boardSize delay_ms imageList i st
    if mergeImagesThrows st.imgL st.imgR then (true, st)
    else if isQuitKey (env.waitKey i) then (false, st)
    else pairLoop env boardSize delay_ms imageList rem (i + 1) st

/-- Lines 236-240 of `findCorners`: `nimages` is half the list length, both corner lists are
resized to it, and `npairs` starts at 0. -/
def collectInit {F : Type} (imageList : List String) (st : FCState F) : FCState F :=
  let nimages := imageList.length / 2
  { st with
    nimages := nimages
    imagePoints0 := vecResize st.imagePoints0 nimages []
    imagePoints1 := vecResize st.imagePoints1 nimages []
    npairs := 0 }

/-- Lines 314-326 of `findCorners`: report the number of pairs, fail below two pairs,
otherwise cut both corner lists down to the accepted pairs. -/
def collectFinish {F : Type} (st : FCState F) : Int × FCState F :=
  let st := st.emit (Event.cout (toString st.npairs ++ " pairs have been successfully detected."))
  let st := { st with nimages := st.npairs }
  if st.nimages < 2 then
    (-1, st.emit (Event.cout "Error: too little pairs to run the calibration. Exiting."))
  else
    let st := { st with
      imagePoints0 := vecResize st.imagePoints0 st.nimages []
      imagePoints1 := vecResize st.imagePoints1 st.nimages [] }
    (0, st)

/-- The function `findCorners` (lines 226-327).  The integer is its return value; there is
none when the function is left by the exception thrown in `mergeImages`. -/
def findCorners {F : Type} (env : Env F) (boardSize : Size) (delay_ms : Int)
    (imageList : List String) (st : FCState F) : Option Int × FCState F :=
  if imageList.length % 2 ≠ 0 then
    (some (-1), st.emit (Event.cout "Error: the image list contains odd number of elements!"))
  else
    let st := collectInit imageList st
    let r := pairLoop env boardSize delay_ms imageList st.nimages 0 st
    if r.1 then (none, r.2)
    else
      let f := collectFinish r.2
      (some f.1, f.2)

end StereoCalib

namespace StereoCalib

/-! ## The stereo pipeline: `stereoCalib`, the artifact writers and `rectify` -/

/-- The parameters and global variables of `stereo_calib.cpp` (lines 27-42) that do not
change during `stereoCalib`. -/
structure Params (F : Type) where
  boardSize : Size
  squareSize : F
  delay_ms : Int
  useIndividualCalibResult : Bool
  calibResultLFn : String
  calibResultRFn : String
  outputFn : String

/-- The state a run of the stereo program works on: the artifact files, the global
`goodImageList`, the trace, whether the run has made an out-of-range vector access
(undefined behaviour), after which nothing more is modelled, and whether it has been ended
by an exception that nothing catches. -/
structure Run (F : Type) where
  files : FileSys F
  goodImageList : List String
  trace : List (Event F)
  ub : Bool
  thrown : Bool

/-- Append an event to the trace. -/
def Run.emit {F : Type} (run : Run F) (e : Event F) : Run F :=
  { run with trace := run.trace ++ [e] }

/-- The solver flag composed in lines 185-190 of `stereoCalib`. -/
def stereoFlag (c : CalibConsts) (useIndividualCalibResult : Bool) : Nat :=
  let flag := 0
  let flag := (fun _ => c.CV_CALIB_FIX_ASPECT_RATIO + c.CV_CALIB_ZERO_TANGENT_DIST) flag
  if useIndividualCalibResult then c.CV_CALIB_FIX_INTRINSIC else flag

/-- The matrix `Mat::eye(3, 3, CV_64F)`. -/
def eye3 {F : Type} [Zero F] [One F] : Mat F := ⟨3, 3, [1, 0, 0, 0, 1, 0, 0, 0, 1]⟩

/-- Lines 192-195 (and 197-200): open a per-camera calibration result for reading and take
`cameraMatrix` and `distCoeffs` from it. -/
def loadIntrinsics {F : Type} (files : FileSys F) (filename : String) : Mat F × Mat F :=
  let fs := openRead files filename
  (readMat (fsNode fs "cameraMatrix"), readMat (fsNode fs "distCoeffs"))

/-- The items `saveStereoCalibResult` writes (lines 394-401). -/
def stereoCalibDoc {F : Type} (buf : String) (cameraMatrix0 distCoeffs0 cameraMatrix1
    distCoeffs1 R T E Fm : Mat F) (rms : F) : List (FSEntry F) :=
  [ FSEntry.field "calibration_Time" (FSValue.str buf),
    FSEntry.comment "Intrinsic params:\n",
    FSEntry.field "cameraMatrix1" (FSValue.mat cameraMatrix0),
    FSEntry.field "distCoeffs1" (FSValue.mat distCoeffs0),
    FSEntry.field "cameraMatrix2" (FSValue.mat cameraMatrix1),
    FSEntry.field "distCoeffs2" (FSValue.mat distCoeffs1),
    FSEntry.comment "Extrinsic params:\n",
    FSEntry.field "R" (FSValue.mat R),
    FSEntry.field "T" (FSValue.mat T),
    FSEntry.field "E" (FSValue.mat E),
    FSEntry.field "F" (FSValue.mat Fm),
    FSEntry.field "RMS" (FSValue.real rms) ]

/-- The function `saveStereoCalibResult` (lines 381-406). -/
def saveStereoCalibResult {F : Type} (env : Env F) (outputFn : String)
    (cameraMatrix0 distCoeffs0 cameraMatrix1 distCoeffs1 R T E Fm : Mat F) (rms : F)
    (run : Run F) : Run F :=
  if env.canWrite outputFn then
    let doc := stereoCalibDoc env.timeString cameraMatrix0 distCoeffs0 cameraMatrix1
      distCoeffs1 R T E Fm rms
    { run with
      files := run.files.write outputFn doc
      trace := run.trace ++ [Event.writeFile outputFn doc] }
  else
    run.emit (Event.cout "Failed to save stereo calibration result to file.")

/-- The items `saveRectificationResult` appends (lines 413-415). -/
def rectificationDoc {F : Type} (r : Rectification F) : List (FSEntry F) :=
  [ FSEntry.comment "\nRectification params:\n",
    FSEntry.field "R1" (FSValue.mat r.R1),
    FSEntry.field "R2" (FSValue.mat r.R2),
    FSEntry.field "P1" (FSValue.mat r.P1),
    FSEntry.field "P2" (FSValue.mat r.P2),
    FSEntry.field "Q" (FSValue.mat r.Q) ]

/-- The function `saveRectificationResult` (lines 408-420): the file is opened in append
mode, so the items already in it stay. -/
def saveRectificationResult {F : Type} (env : Env F) (outputFn : String)
    (r : Rectification F) (run : Run F) : Run F :=
  if env.canWrite outputFn then
    let doc := (run.files outputFn).getD [] ++ rectificationDoc r
    { run with
      files := run.files.write outputFn doc
      trace := run.trace ++ [Event.writeFile outputFn doc] }
  else
    run.emit (Event.cout "Failed to save rectification result to file.")

/-- The locals of one pass of the display loop of `rectify`. -/
structure DisplayState (F : Type) where
  imgL : Mat F
  imgR : Mat F
  run : Run F

/-- The body of the loop over `k` in `rectify` (lines 454-463) for image `k` of pass `i`:
`goodImageList[i*2+k]` is read without a range check. -/
def rectifyImage {F : Type} (env : Env F) (map1 map2 : Mat F) (i k : Nat)
    (d : DisplayState F) : DisplayState F :=
  if d.run.ub then d
  else if d.run.goodImageList.length ≤ i * 2 + k then
    { d with run := { d.run with ub := true } }
  else
    let filename := d.run.goodImageList.getD (i * 2 + k) ""
    let img := env.imread filename
    let run := d.run.emit (Event.imread filename)
    let imgRectified := env.remap img map1 map2
    let imgRectified : Mat F := { imgRectified with data := env.rectangle imgRectified }
    let d := { d with run := run }
    let d := if k == 0 then { d with imgL := imgRectified } else d
    if k == 1 then { d with imgR := imgRectified } else d

/-- The display loop of `rectify` (lines 448-477), entered at index `i` with `rem`
iterations to go. -/
def displayLoop {F : Type} (env : Env F) (imageSize : Size) (mapL mapR : Mat F × Mat F) :
    Nat → Nat → Run F → Run F
  | 0, _, run => run
  | rem + 1, i, run =>
    let d : DisplayState F := ⟨Mat.default, Mat.default, run⟩
    let d := rectifyImage env mapL.1 mapL.2 i 0 d
    let d := rectifyImage env mapR.1 mapR.2 i 1 d
    if d.run.ub then d.run
    else
      let run := d.run.emit (Event.mergeImages imageSize d.imgL d.imgR)
      let run := run.emit (Event.imshow "rectified")
      let run := run.emit (Event.waitKey 0)
      if isQuitKey (env.waitKeyDisplay i) then run
      else displayLoop env imageSize mapL mapR rem (i + 1) run

/-- The function `rectify` (lines 423-478). -/
def rectify {F : Type} (env : Env F) (cameraMatrix0 distCoeffs0 cameraMatrix1 distCoeffs1 :
    Mat F) (imageSize : Size) (R T : Mat F) (outputFn : String) (run : Run F) : Run F :=
  let r := env.stereoRectify cameraMatrix0 distCoeffs0 cameraMatrix1 distCoeffs1 imageSize R T
  let run := run.emit (Event.cout ("Saving rectification result to " ++ outputFn ++ "..."))
  let run := saveRectificationResult env outputFn r run
  let run := run.emit (Event.cout " Done.")
  let mapL := env.initUndistortRectifyMap cameraMatrix0 distCoeffs0 r.R1 r.P1 imageSize
  let run := run.emit (Event.initUndistortRectifyMap cameraMatrix0 distCoeffs0 r.R1 r.P1)
  let mapR := env.initUndistortRectifyMap cameraMatrix1 distCoeffs1 r.R2 r.P2 imageSize
  let run := run.emit (Event.initUndistortRectifyMap cameraMatrix1 distCoeffs1 r.R2 r.P2)
  displayLoop env imageSize mapL mapR run.goodImageList.length 0 run

/-- The state in which `stereoCalib` calls `findCorners`: fresh locals `imagePoints`,
`imageSize` (`Size()`) and `nimages` (not initialised in the source; `findCorners` assigns
it before any use). -/
def initialFCState {F : Type} (run : Run F) : FCState F :=
  { imagePoints0 := []
    imagePoints1 := []
    imageSize := Size.default
    nimages := 0
    goodImageList := run.goodImageList
    npairs := 0
    imgL := Mat.default
    imgR := Mat.default
    trace := run.trace }

/-- The arrays `cameraMatrix[2]` and `distCoeffs[2]` of `stereoCalib`. -/
structure Intrinsics (F : Type) where
  cameraMatrix0 : Mat F
  distCoeffs0 : Mat F
  cameraMatrix1 : Mat F
  distCoeffs1 : Mat F

/-- The function `stereoCalib` (lines 163-224). -/
def stereoCalib {F : Type} [Mul F] [IntCast F] [Zero F] [One F] (c : CalibConsts) (env : Env F)
    (p : Params F) (imageList : List String) (boardSize : Size) (showRectified : Bool)
    (run : Run F) : Run F :=
  let r := findCorners env p.boardSize p.delay_ms imageList (initialFCState run)
  let ret := r.1
  let st := r.2
  let run := { run with goodImageList := st.goodImageList, trace := st.trace }
  if ret = none then { run with thrown := true }
  else if ret ≠ some 0 then run
  else
    let nimages := st.nimages
    let objectPoints := buildObjectPoints boardSize p.squareSize nimages
    let run := run.emit (Event.cout "Running stereo calibration...")
    let cameraMatrix0 : Mat F := eye3
    let cameraMatrix1 : Mat F := eye3
    let distCoeffs0 : Mat F := Mat.default
    let distCoeffs1 : Mat F := Mat.default
    let flag := stereoFlag c p.useIndividualCalibResult
    let intr : Intrinsics F × Run F :=
      if p.useIndividualCalibResult then
        let l := loadIntrinsics run.files p.calibResultLFn
        let run := run.emit (Event.openRead p.calibResultLFn)
        let r := loadIntrinsics run.files p.calibResultRFn
        let run := run.emit (Event.openRead p.calibResultRFn)
        (⟨l.1, l.2, r.1, r.2⟩, run)
      else (⟨cameraMatrix0, distCoeffs0, cameraMatrix1, distCoeffs1⟩, run)
    let cameraMatrix0 := intr.1.cameraMatrix0
    let distCoeffs0 := intr.1.distCoeffs0
    let cameraMatrix1 := intr.1.cameraMatrix1
    let distCoeffs1 := intr.1.distCoeffs1
    let run := intr.2
    let sol := env.stereoCalibrate objectPoints st.imagePoints0 st.imagePoints1
      cameraMatrix0 distCoeffs0 cameraMatrix1 distCoeffs1 st.imageSize flag
    let run := run.emit (Event.stereoCalibrate objectPoints st.imagePoints0 st.imagePoints1
      cameraMatrix0 distCoeffs0 cameraMatrix1 distCoeffs1 st.imageSize flag)
    let run := run.emit (Event.coutReal "Finished, with RMS error = " sol.rms)
    let run := run.emit (Event.computeReprojectionError st.imagePoints0 st.imagePoints1
      nimages sol.cameraMatrix0 sol.distCoeffs0 sol.cameraMatrix1 sol.distCoeffs1 sol.Fm)
    let run := run.emit
      (Event.cout ("Saving stereo calibration result to " ++ p.outputFn ++ "..."))
    let run := saveStereoCalibResult env p.outputFn sol.cameraMatrix0 sol.distCoeffs0
      sol.cameraMatrix1 sol.distCoeffs1 sol.R sol.T sol.E sol.Fm sol.rms run
    let run := run.emit (Event.cout " Done.")
    let run := run.emit Event.destroyAllWindows
    if showRectified then
      rectify env sol.cameraMatrix0 sol.distCoeffs0 sol.cameraMatrix1 sol.distCoeffs1
        st.imageSize sol.R sol.T p.outputFn run
    else run

/-! ## The stereo quality figure: `computeReprojectionError` -/

/-- The accumulators `err` and `npoints` of `computeReprojectionError`. -/
structure EpiAcc (F : Type) where
  err : F
  npoints : Nat

/-- The summand `errij` of lines 370-373: the point `p0` of the left view against the line
`l1` derived from the right view, plus the point `p1` of the right view against the line
`l0` derived from the left view. -/
def errij {F : Type} [LinearOrderedRing F] (p0 p1 : Point2f F) (l0 l1 : Vec3f F) : F :=
  |p0.x * l1.v0 + p0.y * l1.v1 + l1.v2| + |p1.x * l0.v0 + p1.y * l0.v1 + l0.v2|

/-- One pass of the loop over `i` of `computeReprojectionError` (lines 360-376).  The
matrices `imgpt[k]` are headers over the vectors `imagePoints[k][i]`, so the points read in
lines 370-373 are the contents of these vectors after `undistortPoints`. -/
def epiStep {F : Type} [LinearOrderedRing F] (env : Env F)
    (imagePoints0 imagePoints1 : List (List (Point2f F)))
    (cameraMatrix0 distCoeffs0 cameraMatrix1 distCoeffs1 Fm : Mat F)
    (acc : EpiAcc F) (i : Nat) : EpiAcc F :=
  let npt := (imagePoints0.getD i []).length
  let u0 := env.undistortPoints (imagePoints0.getD i []) cameraMatrix0 distCoeffs0
  let lines0 := env.computeCorrespondEpilines u0.1 1 Fm
  let u1 := env.undistortPoints (imagePoints1.getD i []) cameraMatrix1 distCoeffs1
  let lines1 := env.computeCorrespondEpilines u1.1 2 Fm
  let err := (List.range npt).foldl (fun (err : F) (j : Nat) =>
    err + errij (u0.2.getD j ⟨0, 0⟩) (u1.2.getD j ⟨0, 0⟩)
      (lines0.getD j ⟨0, 0, 0⟩) (lines1.getD j ⟨0, 0, 0⟩)) acc.err
  { err := err, npoints := acc.npoints + npt }

/-- The function `computeReprojectionError` (lines 348-379); the result is the value it
prints, `err/npoints`. -/
def computeReprojectionError {F : Type} [LinearOrderedRing F] [Div F] (env : Env F)
    (imagePoints0 imagePoints1 : List (List (Point2f F))) (nimages : Nat)
    (cameraMatrix0 distCoeffs0 cameraMatrix1 distCoeffs1 Fm : Mat F) : F :=
  let acc := (List.range nimages).foldl
    (epiStep env imagePoints0 imagePoints1 cameraMatrix0 distCoeffs0 cameraMatrix1
      distCoeffs1 Fm) ⟨0, 0⟩
  acc.err / ((acc.npoints : Int) : F)

/-! ## The stereo program: `argParsing`, `readStringList` and `main` -/

/-- The conversion `%d` of `sscanf` on a string: optional white space (the six characters
of `isspace` in the C locale), an optional sign and at least one decimal digit; what follows
the digits is ignored.  `none` when nothing is converted.  For digits that denote a value
outside the range of `int` the C standard leaves the behaviour undefined; the function
then returns the value denoted, and nothing below depends on it there. -/
def sscanfInt (s : String) : Option Int :=
  let cs := s.toList.dropWhile (fun ch =>
    ch == ' ' || ch == '\t' || ch == '\n' || ch == '\x0b' || ch == '\x0c' || ch == '\r')
  let body := match cs with
    | '-' :: rest => (true, rest)
    | '+' :: rest => (false, rest)
    | _ => (false, cs)
  let digits := body.2.takeWhile Char.isDigit
  if digits.isEmpty then none
  else
    let v : Nat := digits.foldl (fun acc ch => acc * 10 + (ch.toNat - '0'.toNat)) 0
    some (if body.1 then -(v : Int) else (v : Int))

/-- The global variables `argParsing` works on, what it prints, whether it has left by
`return usage()`, and whether it has read `argv[argc]` (a null pointer) or beyond as a
string, which is undefined behaviour. -/
structure ArgState where
  boardSize : Size
  showRectified : Bool
  imageListFn : String
  out : List String
  returned : Bool
  ub : Bool
deriving DecidableEq, Repr

/-- The lines printed by `usage` (lines 88-93). -/
def usageLines : List String :=
  [ "Usage:",
    "\t./stereo_calib -w board_witdh -h board_height <image list XML/YML file>",
    "\tdefault: ./stereo_calib -w 6 -h 5 stereo_calib.xml" ]

/-- The body of the loop of `argParsing` (lines 99-125) at index `i < argc`: the index after
the body and the new state.  Every `argv[++i]` advances `i` before the string is read. -/
def argStep (argv : List String) (i : Nat) (st : ArgState) : Nat × ArgState :=
  if argv.getD i "" == "-w" then
    match argv.get? (i + 1) with
    | none => (i + 1, { st with ub := true })
    | some s =>
      let st := match sscanfInt s with
        | some v => { st with boardSize := { st.boardSize with width := v } }
        | none => st
      if (sscanfInt s).isNone || st.boardSize.width ≤ 0 then
        (i + 1, { st with out := st.out ++ ["Invalid board width!"] ++ usageLines,
                          returned := true })
      else (i + 1, st)
  else
    match argv.get? (i + 1) with
    | none => (i + 1, { st with ub := true })
    | some b =>
      if b == "-h" then
        match argv.get? (i + 2) with
        | none => (i + 2, { st with ub := true })
        | some s =>
          let st := match sscanfInt s with
            | some v => { st with boardSize := { st.boardSize with height := v } }
            | none => st
          if (sscanfInt s).isNone || st.boardSize.height ≤ 0 then
            (i + 2, { st with out := st.out ++ ["Invalid board height!"] ++ usageLines,
                              returned := true })
          else (i + 2, st)
      else if b == "-nr" then (i + 1, { st with showRectified := false })
      else if b.toList.head? = some '-' then
        (i + 1, { st with out := st.out ++ ["Invalid option " ++ b] ++ usageLines,
                          returned := true })
      else (i + 1, { st with imageListFn := b })

/-- The loop `for (int i = 1; i < argc; i++)` of `argParsing`, entered at index `i`; `fuel`
bounds the number of passes (the index grows in every pass, so `argc` passes suffice). -/
def argLoop (argv : List String) : Nat → Nat → ArgState → ArgState
  | 0, _, st => st
  | fuel + 1, i, st =>
    if i < argv.length then
      let r := argStep argv i st
      if r.2.ub || r.2.returned then r.2
      else argLoop argv fuel (r.1 + 1) r.2
    else st

/-- The function `argParsing` (lines 95-130) on the globals `boardSize`, `showRectified`
and `imageListFn`. -/
def argParsing (argv : List String) (boardSize : Size) (showRectified : Bool)
    (imageListFn : String) : ArgState :=
  let st := argLoop argv argv.length 1
    { boardSize := boardSize, showRectified := showRectified, imageListFn := imageListFn,
      out := [], returned := false, ub := false }
  if st.ub || st.returned then st
  else if st.imageListFn.isEmpty then { st with imageListFn := "stereo_calib.xml" }
  else st

/-- The function `readStringList` (lines 132-150): whether it succeeds, the list read, and
what it prints.  A first node that is not a sequence is reported but still iterated. -/
def readStringList {F : Type} (env : Env F) (filename : String) :
    Bool × List String × List String :=
  match env.stringListFile filename with
  | none => (false, [], ["Failed to open file " ++ filename])
  | some (isSeq, items) =>
    (true, items, if isSeq then [] else ["File content is not a sequence! FAIL"])

/-- The function `main` of `stereo_calib.cpp` (lines 71-86), started with the globals as
compiled (`p`, `showRectified`, an empty `imageListFn`): the exit code, `none` when the run
has met undefined behaviour or has been ended by an exception, and the final state. -/
def main {F : Type} [Mul F] [IntCast F] [Zero F] [One F] (c : CalibConsts) (env : Env F)
    (p : Params F) (showRectified : Bool) (argv : List String) (run : Run F) :
    Option Int × Run F :=
  let a := argParsing argv p.boardSize showRectified ""
  let run := { run with trace := run.trace ++ a.out.map Event.cout }
  if a.ub then (none, { run with ub := true })
  else
    let r := readStringList env a.imageListFn
    let ok := r.1
    let imageList := r.2.1
    let run := { run with trace := run.trace ++ r.2.2.map Event.cout }
    if !ok || imageList.isEmpty then
      (some (-1), run.emit (Event.cout ("Cannot open " ++ a.imageListFn ++
        " or the string is empty. Exiting.")))
    else
      let run := stereoCalib c env { p with boardSize := a.boardSize } imageList a.boardSize
        a.showRectified run
      (if run.ub || run.thrown then none else some 0, run)

end StereoCalib

namespace CameraCalib

/-! ## The single-camera program: the artifact writer -/

/-- The constant `boardWidth` of `camera_calib.cpp`. -/
def boardWidth : Int := 6

/-- The constant `boardHeight` of `camera_calib.cpp`. -/
def boardHeight : Int := 5

/-- The constant `squareSize` of `camera_calib.cpp`. -/
def squareSize {F : Type} [IntCast F] : F := ((30 : Int) : F)

/-- The comment line composed by `sprintf` in lines 346-350 of `saveCameraParams`. -/
def flagsComment (c : CalibConsts) (flag : Nat) : String :=
  "flags: " ++
    (if flag &&& c.CV_CALIB_USE_INTRINSIC_GUESS ≠ 0 then "+use_intrinsic_guess" else "") ++
    (if flag &&& c.CV_CALIB_FIX_ASPECT_RATIO ≠ 0 then "+fix_aspectRatio" else "") ++
    (if flag &&& c.CV_CALIB_FIX_PRINCIPAL_POINT ≠ 0 then "+fix_principal_point" else "") ++
    (if flag &&& c.CV_CALIB_ZERO_TANGENT_DIST ≠ 0 then "+zero_tagent_dist" else "")

/-- The items `saveCameraParams` writes (lines 336-357), for the global `flag`. -/
def cameraParamsDoc {F : Type} [IntCast F] (c : CalibConsts) (flag : Nat) (buf : String)
    (imageSize : Size) (cameraMatrix distCoeffs : Mat F) (rvecs : List (Mat F))
    (totalAvgErr : F) : List (FSEntry F) :=
  [ FSEntry.field "calibration_Time" (FSValue.str buf),
    FSEntry.field "numberOfGoodFrames" (FSValue.int rvecs.length),
    FSEntry.field "image_Width" (FSValue.int imageSize.width),
    FSEntry.field "image_Height" (FSValue.int imageSize.height),
    FSEntry.field "board_Width" (FSValue.int boardWidth),
    FSEntry.field "board_Height" (FSValue.int boardHeight),
    FSEntry.field "square_Size" (FSValue.real squareSize) ] ++
  (if flag ≠ 0 then [FSEntry.comment (flagsComment c flag)] else []) ++
  [ FSEntry.field "flagValue" (FSValue.int flag),
    FSEntry.field "camera_Matrix" (FSValue.mat cameraMatrix),
    FSEntry.field "Distortion_Coefficients" (FSValue.mat distCoeffs),
    FSEntry.field "Avg_Reprojection_Errors" (FSValue.real totalAvgErr) ]

/-- The function `saveCameraParams` (lines 324-358), writing to the global
`outputFileName`; nothing is stored when the file cannot be opened. -/
def saveCameraParams {F : Type} [IntCast F] (c : CalibConsts) (env : Env F)
    (outputFileName : String) (flag : Nat) (imageSize : Size) (cameraMatrix distCoeffs : Mat F)
    (rvecs tvecs : List (Mat F)) (reprojErrs : List F) (totalAvgErr : F) (files : FileSys F) :
    FileSys F :=
  let _unused := (tvecs, reprojErrs)
  if env.canWrite outputFileName then
    files.write outputFileName
      (cameraParamsDoc c flag env.timeString imageSize cameraMatrix distCoeffs rvecs totalAvgErr)
  else files

/-! ## The single-camera program: collection, calibration and `main` -/

/-- The constant `frameNumber` of `camera_calib.cpp`. -/
def frameNumber : Nat := 15

/-- The constant `imageWidth` of `camera_calib.cpp`. -/
def imageWidth : Int := 640

/-- The constant `imageHeight` of `camera_calib.cpp`. -/
def imageHeight : Int := 480

/-- The constant `boardSize` of `camera_calib.cpp`. -/
def boardSize : Size := ⟨boardWidth, boardHeight⟩

/-- The constant `imageSize` of `camera_calib.cpp`. -/
def imageSize : Size := ⟨imageWidth, imageHeight⟩

/-- The global `delay_ms` of `camera_calib.cpp`. -/
def delay_ms : Int := 800

/-- The test `key == 'q' || key == ESC_KEY` on `char key = waitKey(..)`. -/
def isQuitKey (v : Int) : Bool :=
  let key := toChar v
  key == 113 || key == ESC_KEY

/-- The accumulators of `computeReprojectionErrors`. -/
structure ReprojAcc (F : Type) where
  totalPoints : Nat
  totalErr : F
  perViewErrors : List F

/-- One pass of the loop of `computeReprojectionErrors` (lines 309-317).  The conversion of
the per-view error to `float` is not modelled. -/
def reprojStep {F : Type} [Add F] [Mul F] [Div F] [IntCast F] (env : Env F)
    (objectPoints : List (List (Point3f F))) (imagePoints : List (List (Point2f F)))
    (rvecs tvecs : List (Mat F)) (cameraMatrix distCoeffs : Mat F)
    (acc : ReprojAcc F) (i : Nat) : ReprojAcc F :=
  let imagePointsProjected := env.projectPoints (objectPoints.getD i [])
    (rvecs.getD i Mat.default) (tvecs.getD i Mat.default) cameraMatrix distCoeffs
  let err := env.norm (imagePoints.getD i []) imagePointsProjected
  let n := objectPoints.length
  { perViewErrors := acc.perViewErrors.set i (env.sqrt (err * err / (((n : Nat) : Int) : F)))
    totalErr := acc.totalErr + err * err
    totalPoints := acc.totalPoints + n }

/-- The loop of `computeReprojectionErrors` (lines 303-318) with its accumulators. -/
def reprojLoop {F : Type} [Add F] [Mul F] [Div F] [IntCast F] [Zero F] (env : Env F)
    (objectPoints : List (List (Point3f F))) (imagePoints : List (List (Point2f F)))
    (rvecs tvecs : List (Mat F)) (cameraMatrix distCoeffs : Mat F)
    (perViewErrors : List F) : ReprojAcc F :=
  (List.range objectPoints.length).foldl
    (reprojStep env objectPoints imagePoints rvecs tvecs cameraMatrix distCoeffs)
    { totalPoints := 0, totalErr := 0,
      perViewErrors := vecResize perViewErrors objectPoints.length 0 }

/-- The function `computeReprojectionErrors` (lines 296-321): its return value and the
final `perViewErrors`. -/
def computeReprojectionErrors {F : Type} [Add F] [Mul F] [Div F] [IntCast F] [Zero F]
    (env : Env F) (objectPoints : List (List (Point3f F)))
    (imagePoints : List (List (Point2f F))) (rvecs tvecs : List (Mat F))
    (cameraMatrix distCoeffs : Mat F) (perViewErrors : List F) : F × List F :=
  let acc := reprojLoop env objectPoints imagePoints rvecs tvecs cameraMatrix distCoeffs
    perViewErrors
  (env.sqrt (acc.totalErr / (((acc.totalPoints : Nat) : Int) : F)), acc.perViewErrors)

/-- What `runCalibration` returns and leaves in its reference parameters. -/
structure CalibOutcome (F : Type) where
  ok : Bool
  cameraMatrix : Mat F
  distCoeffs : Mat F
  rvecs : List (Mat F)
  tvecs : List (Mat F)
  reprojErrs : List F
  totalAvgErr : F

/-- The flags `runCalibration` passes to `calibrateCamera` (line 284), for the global
`flag`. -/
def solverFlag (c : CalibConsts) (flag : Nat) : Nat :=
  flag ||| c.CV_CALIB_FIX_K4 ||| c.CV_CALIB_FIX_K5

/-- The function `runCalibration` (lines 271-294), for the global `flag`: its outcome and
the events of the call. -/
def runCalibration {F : Type} [Add F] [Mul F] [Div F] [IntCast F] [Zero F] [One F]
    (c : CalibConsts) (env : Env F) (flag : Nat) (imageSize : Size)
    (imagePoints : List (List (Point2f F))) (objectPoints : List (List (Point3f F)))
    (reprojErrs : List F) : CalibOutcome F × List (Event F) :=
  let cameraMatrix : Mat F := StereoCalib.eye3
  let cameraMatrix : Mat F :=
    if flag &&& c.CV_CALIB_FIX_ASPECT_RATIO ≠ 0 then
      { cameraMatrix with data := cameraMatrix.data.set 0 1 }
    else cameraMatrix
  let distCoeffs : Mat F := ⟨8, 1, List.replicate 8 0⟩
  let sol := env.calibrateCamera objectPoints imagePoints imageSize cameraMatrix distCoeffs
    (solverFlag c flag)
  let ok := env.checkRange sol.cameraMatrix && env.checkRange sol.distCoeffs
  let e := computeReprojectionErrors env objectPoints imagePoints sol.rvecs sol.tvecs
    sol.cameraMatrix sol.distCoeffs reprojErrs
  ({ ok := ok, cameraMatrix := sol.cameraMatrix, distCoeffs := sol.distCoeffs,
     rvecs := sol.rvecs, tvecs := sol.tvecs, reprojErrs := e.2, totalAvgErr := e.1 },
   [Event.calibrateCamera objectPoints imagePoints imageSize (solverFlag c flag),
    Event.coutReal "Re-projection error reported by calibrateCamera(): " sol.rms])

/-- The global variables of `camera_calib.cpp`, the locals `goodFrameCnt` and
`currentIndex` of `main`, the artifact files, the trace, and whether the run has met
undefined behaviour. -/
structure State (F : Type) where
  imageList : List String
  outputFileName : String
  flag : Nat
  cameraMatrix : Mat F
  distCoeffs : Mat F
  cornerBuf : List (Point2f F)
  imagePoints : List (List (Point2f F))
  objectPoints : List (List (Point3f F))
  goodFrameCnt : Nat
  currentIndex : Nat
  files : FileSys F
  trace : List (Event F)
  ub : Bool

/-- Append an event to the trace. -/
def State.emit {F : Type} (st : State F) (e : Event F) : State F :=
  { st with trace := st.trace ++ [e] }

/-- The state at program start: empty globals, `flag = 0`. -/
def initialState {F : Type} (files : FileSys F) : State F :=
  { imageList := [], outputFileName := "", flag := 0, cameraMatrix := Mat.default,
    distCoeffs := Mat.default, cornerBuf := [], imagePoints := [], objectPoints := [],
    goodFrameCnt := 0, currentIndex := 0, files := files, trace := [], ub := false }

/-- The function `readImageListFile` (lines 208-227): whether it succeeds, the list read,
and what it prints. -/
def readImageListFile {F : Type} (env : Env F) (filename : String) :
    Bool × List String × List String :=
  match env.stringListFile filename with
  | none => (false, [], ["Failed to open the file " ++ filename])
  | some (isSeq, items) =>
    if isSeq then (true, items, []) else (false, [], ["File content is not a sequence! FAIL"])

/-- The conversion `%02d` of `sprintf` for a positive number. -/
def pad2 (i : Nat) : String :=
  if i < 10 then "0" ++ toString i else toString i

/-- The function `createImageList` (lines 229-246): the names `prefix01.jpg`, .. typed in at
the keyboard.  The buffer `idx[5]` overflows from the number 10000 on. -/
def createImageList {F : Type} (env : Env F) (st : State F) : State F :=
  let st := st.emit
    (Event.cout "Input the relative path and prefix of images, e.g. 'images/left':")
  let st := st.emit (Event.cout "Input the number of images:")
  let imageNumber := env.cinImageNumber.toNat
  let st := { st with
    imageList := (List.range imageNumber).foldl
      (fun (l : List String) (k : Nat) => l ++ [env.cinPrefix ++ pad2 (k + 1) ++ ".jpg"])
      st.imageList }
  if 9999 < imageNumber then { st with ub := true } else st

/-- The body of the argument loop of `main` (lines 81-84) at index `i < argc`: the index
after the body and the new state.  Reading `argv[argc]` as a string is undefined. -/
def argStep {F : Type} (env : Env F) (argv : List String) (i : Nat) (st : State F) :
    Nat × State F :=
  let r : Nat × State F :=
    if argv.getD i "" == "-i" then
      match argv.get? (i + 1) with
      | none => (i + 1, { st with ub := true })
      | some fn =>
        let l := readImageListFile env fn
        (i + 1, { st with imageList := l.2.1, trace := st.trace ++ l.2.2.map Event.cout })
    else (i, st)
  if r.2.ub then r
  else
    match argv.get? r.1 with
    | none => (r.1, { r.2 with ub := true })
    | some b =>
      if b == "-o" then
        match argv.get? (r.1 + 1) with
        | none => (r.1 + 1, { r.2 with ub := true })
        | some o => (r.1 + 1, { r.2 with outputFileName := o })
      else r

/-- The loop `for (int i = 1; i < argc; i++)` of `main`, entered at index `i`; `fuel`
bounds the number of passes. -/
def argLoop {F : Type} (env : Env F) (argv : List String) : Nat → Nat → State F → State F
  | 0, _, st => st
  | fuel + 1, i, st =>
    if i < argv.length then
      let r := argStep env argv i st
      if r.2.ub then r.2 else argLoop env argv fuel (r.1 + 1) r.2
    else st

/-- The function `getImage` (lines 248-257): the image and what the call does. -/
def getImage {F : Type} (env : Env F) (imageList : List String) (currentIndex : Nat) :
    Mat F × Event F :=
  if currentIndex < imageList.length then
    (env.imread (imageList.getD currentIndex ""),
      Event.imread (imageList.getD currentIndex ""))
  else (Mat.default, Event.cout "There are no more images in the list!")

/-- The body of the collection loop of `main` (lines 112-153); the boolean is `true` when
the loop is left by `break`.  The pass that calls `waitKey` for the `n`-th time is the one
with `currentIndex = n`. -/
def collectStep {F : Type} (env : Env F) (st : State F) : Bool × State F :=
  let g := getImage env st.imageList st.currentIndex
  let image := g.1
  let st := st.emit g.2
  if image.empty then (true, st)
  else
    let r := env.findChessboardCornersFast image boardSize
    let found := r.1
    let st := { st with cornerBuf := r.2 }
    let st := st.emit (Event.findChessboardCorners image)
    let st :=
      if found then
        let imageGray := env.cvtColor image
        let corners := env.cornerSubPix imageGray st.cornerBuf
        let st := { st with cornerBuf := corners, imagePoints := st.imagePoints ++ [corners] }
        let st := st.emit (Event.cornerSubPix imageGray)
        let st := st.emit (Event.drawChessboardCorners
          { image with data := env.drawChessboardCorners image boardSize corners found })
        let st := { st with goodFrameCnt := st.goodFrameCnt + 1 }
        st.emit (Event.cout
          ("Detected corners in " ++ st.imageList.getD st.currentIndex ""))
      else
        st.emit (Event.cout
          ("Failed to detect corners in" ++ st.imageList.getD st.currentIndex ""))
    let msg := toString st.imagePoints.length ++ "/" ++ toString frameNumber
    let st := st.emit (Event.putText msg)
    let st := st.emit (Event.imshow "Camera Calibration")
    let key := env.waitKey st.currentIndex
    let st := { st with currentIndex := st.currentIndex + 1 }
    let st := st.emit (Event.waitKey delay_ms)
    (isQuitKey key, st)

/-- The loop `while (goodFrameCnt < frameNumber)` of `main` (lines 110-154); `fuel` bounds
the number of passes (`imageList.size() + 1` passes suffice, see `collectLoop_fuel`). -/
def collectLoop {F : Type} (env : Env F) : Nat → State F → State F
  | 0, st => st
  | fuel + 1, st =>
    if st.goodFrameCnt < frameNumber then
      let r := collectStep env st
      if r.1 then r.2 else collectLoop env fuel r.2
    else st

/-- The loop of `displayUndistortedImage` (lines 387-399), entered at index `i` after
`keys` calls of `waitKey`. -/
def displayLoop {F : Type} (env : Env F) (imageList : List String) (map1 map2 : Mat F) :
    Nat → Nat → Nat → List (Event F) → List (Event F)
  | 0, _, _, tr => tr
  | rem + 1, i, keys, tr =>
    let view := env.imread (imageList.getD i "")
    let tr := tr ++ [Event.imread (imageList.getD i "")]
    if view.empty then displayLoop env imageList map1 map2 rem (i + 1) keys tr
    else
      let tr := tr ++ [Event.imshow "Original Image", Event.imshow "Undistorted Image",
        Event.waitKey 0]
      if isQuitKey (env.waitKeyDisplay keys) then tr
      else displayLoop env imageList map1 map2 rem (i + 1) (keys + 1) tr

/-- The function `displayUndistortedImage` (lines 360-401). -/
def displayUndistortedImage {F : Type} (env : Env F) (imageList : List String)
    (cameraMatrix distCoeffs : Mat F) (tr : List (Event F)) : List (Event F) :=
  let newCameraMatrix := env.getOptimalNewCameraMatrix cameraMatrix distCoeffs imageSize
  let maps := env.initUndistortRectifyMap cameraMatrix distCoeffs Mat.default
    newCameraMatrix imageSize
  let tr := tr ++
    [Event.initUndistortRectifyMap cameraMatrix distCoeffs Mat.default newCameraMatrix]
  displayLoop env imageList maps.1 maps.2 imageList.length 0 0 tr

/-- Lines 76-109 of `main`: usage, arguments, image list, output name, flags, the two
counters and the window; the state on entry to the collection loop, or the state in which
undefined behaviour has been met. -/
def mainSetup {F : Type} (c : CalibConsts) (env : Env F) (argv : List String)
    (files : FileSys F) : State F :=
  let st : State F := initialState files
  let st := { st with
    trace := st.trace ++
      [ Event.cout "Usage:",
        Event.cout "\t-i: xml/yaml file containing image list;",
        Event.cout "\t    (if omitted, program will prompt to input from keyboard)",
        Event.cout
          "\t-o: output filename to save calibration result, default is 'result_TIME.xml'." ] }
  let st := argLoop env argv argv.length 1 st
  if st.ub then st
  else
    let st := if st.imageList.length = 0 then createImageList env st else st
    if st.ub then st
    else
      let st :=
        if st.outputFileName.isEmpty then
          { st with outputFileName := "calib_result_" ++ env.dateString ++ ".xml" }
        else st
      let st := { st with flag := st.flag ||| c.CV_CALIB_FIX_PRINCIPAL_POINT }
      let st := { st with flag := st.flag ||| c.CV_CALIB_ZERO_TANGENT_DIST }
      let st := { st with flag := st.flag ||| c.CV_CALIB_FIX_ASPECT_RATIO }
      let st := { st with goodFrameCnt := 0, currentIndex := 0 }
      st.emit (Event.namedWindow "Camera Calibration")

/-- Lines 76-154 of `main`: the set-up followed by the collection of the corners. -/
def mainCollect {F : Type} (c : CalibConsts) (env : Env F) (argv : List String)
    (files : FileSys F) : State F :=
  let st := mainSetup c env argv files
  if st.ub then st else collectLoop env (st.imageList.length + 1) st

/-- Lines 160-163 of `main`: one board computed by `calcBoardCornerPositions`, pushed
`goodFrameCnt` times. -/
def replicateBoard {F : Type} [Mul F] [IntCast F] [Zero F] (goodFrameCnt : Nat)
    (objectPoints : List (List (Point3f F))) : List (List (Point3f F)) :=
  let temp : List (Point3f F) := []
  let temp := calcBoardCornerPositions boardSize squareSize temp
  (List.range goodFrameCnt).foldl (fun ops _ => ops ++ [temp]) objectPoints

/-- The call of `runCalibration` in `main` (lines 178-183) on the state `st` reached by the
collection. -/
def mainCalibration {F : Type} [Add F] [Mul F] [Div F] [IntCast F] [Zero F] [One F]
    (c : CalibConsts) (env : Env F) (st : State F) : CalibOutcome F × List (Event F) :=
  runCalibration c env st.flag imageSize st.imagePoints
    (replicateBoard st.goodFrameCnt st.objectPoints) []

/-- The function `main` of `camera_calib.cpp` (lines 73-198): the exit code, `none` when
the run has met undefined behaviour, and the final state. -/
def main {F : Type} [Add F] [Mul F] [Div F] [IntCast F] [Zero F] [One F]
    (c : CalibConsts) (env : Env F) (argv : List String) (files : FileSys F) :
    Option Int × State F :=
  let st := mainCollect c env argv files
  if st.ub then (none, st)
  else
    let st := { st with objectPoints := replicateBoard st.goodFrameCnt st.objectPoints }
    let r := runCalibration c env st.flag imageSize st.imagePoints st.objectPoints []
    let o := r.1
    let st := { st with
      cameraMatrix := o.cameraMatrix
      distCoeffs := o.distCoeffs
      trace := st.trace ++ r.2 }
    let st := st.emit (Event.coutReal
      ((if o.ok then "Calibration succeeded" else "Calibration failed") ++
        ". avg re-projection error = ") o.totalAvgErr)
    let st :=
      if o.ok then
        let st := st.emit (Event.saveCameraParams st.outputFileName)
        { st with
          files := saveCameraParams c env st.outputFileName st.flag imageSize
            st.cameraMatrix st.distCoeffs o.rvecs o.tvecs o.reprojErrs o.totalAvgErr
            st.files }
      else st
    let st := st.emit (Event.destroyWindow "Camera Calibration")
    let st := { st with
      trace := displayUndistortedImage env st.imageList st.cameraMatrix st.distCoeffs
        st.trace }
    (some 0, st)

end CameraCalib

/-! ## The display canvas: `mergeImages` -/

/-- The class `cv::Rect`: the top-left corner, the width and the height. -/
structure Rect where
  x : Int
  y : Int
  width : Int
  height : Int
deriving DecidableEq, Repr

/-- The macro `MAX(a, b)` of OpenCV, `((a) < (b) ? (b) : (a))`. -/
def MAX (a b : Int) : Int := if a < b then b else a

/-- The function `cvRound` of OpenCV in exact arithmetic: the nearest integer, a tie going
to the even neighbour (the rounding of `lrint` and of the SSE2 conversion). -/
def cvRound {F : Type} [LinearOrderedField F] [FloorRing F] (value : F) : Int :=
  let f := Int.floor value
  if value - ((f : Int) : F) < 1 / 2 then f
  else if 1 / 2 < value - ((f : Int) : F) then f + 1
  else if f % 2 = 0 then f else f + 1

namespace StereoCalib

/-- What `mergeImages` sets up: the canvas made by `canvas.create(h, w*2, CV_8UC3)` and the
two regions `canvasL` and `canvasR` of it that `resize` fills with `imgL` and `imgR`. -/
structure Canvas where
  rows : Int
  cols : Int
  canvasL : Rect
  canvasR : Rect
deriving DecidableEq, Repr

/-- The function `mergeImages` (lines 330-346) in exact arithmetic over the field `F`: the
canvas and its two regions.  The pixels written by `resize` are not modelled. -/
def mergeImages (F : Type) [LinearOrderedField F] [FloorRing F] (imageSize : Size) : Canvas :=
  let sf : F := 600 / ((MAX imageSize.width imageSize.height : Int) : F)
  let w := cvRound (((imageSize.width : Int) : F) * sf)
  let h := cvRound (((imageSize.height : Int) : F) * sf)
  { rows := h
    cols := w * 2
    canvasL := ⟨0, 0, w, h⟩
    canvasR := ⟨w, 0, w, h⟩ }

end StereoCalib

/-! ## The chessboard generator: `createChessboard.cpp` -/

namespace CreateChessboard

/-- The constant `a4_width` of `createChessboard.cpp`. -/
def a4_width : Nat := 210 * 3

/-- The constant `a4_height` of `createChessboard.cpp`. -/
def a4_height : Nat := 297 * 3

/-- The constant `board_width`: the number of inner corners per row. -/
def board_width : Nat := 6

/-- The constant `board_height`: the number of inner corners per column. -/
def board_height : Nat := 9

/-- The constant `square_size` of `createChessboard.cpp`. -/
def square_size : Nat := a4_width / (board_width + 1)

/-- The loop over `j` of `main` (lines 29-33) on the row `data` of index `i`. -/
def paintRow (i : Nat) (data : List Nat) : List Nat :=
  (List.range a4_width).foldl (fun (data : List Nat) (j : Nat) =>
    if (i / square_size + j / square_size) % 2 ≠ 0 then data.set j 255 else data) data

/-- Lines 24-34 of `main`: the image `a4`, a list of rows of 8-bit pixels, created black
and then painted row by row. -/
def a4 : List (List Nat) :=
  let a4 : List (List Nat) := List.replicate a4_height (List.replicate a4_width 0)
  (List.range a4_height).foldl (fun (a4 : List (List Nat)) (i : Nat) =>
    a4.set i (paintRow i (a4.getD i []))) a4

/-- What a run of `main` does: the image shown, the file written with its contents, the
line printed, and the exit code. -/
structure Output where
  shown : List (List Nat)
  writtenFile : String
  written : List (List Nat)
  printed : String
  exitCode : Int

/-- The function `main` of `createChessboard.cpp` (lines 21-47). -/
def main : Output :=
  { shown := a4
    writtenFile := "chessboard.jpg"
    written := a4
    printed := "The generated image has been written to chessboard.jpg, " ++
      "board_width =" ++ toString board_width ++ ", board_height = " ++ toString board_height
    exitCode := 0 }

end CreateChessboard

/-! ## Reference definitions for the statements

These definitions follow the wording of the specification, not the control flow of the
source; the theorems below relate the embedded code to them. -/

/-- The board points in closed form: rows `i < height`, columns `j < width`. -/
def boardGrid {F : Type} [Mul F] [IntCast F] [Zero F]
    (boardSize : Size) (squareSize : F) : List (Point3f F) :=
  (List.range boardSize.height.toNat).flatMap (fun (i : Nat) =>
    (List.range boardSize.width.toNat).map (fun (j : Nat) =>
      Point3f.mk (((i : Int) : F) * squareSize) (((j : Int) : F) * squareSize) 0))

/-- Events that invoke the stereo solver or write an artifact file. -/
def Event.isSolveOrWrite {F : Type} : Event F → Bool
  | Event.stereoCalibrate .. => true
  | Event.writeFile .. => true
  | _ => false

/-- Events that print a line on the console. -/
def Event.isCout {F : Type} : Event F → Bool
  | Event.cout _ => true
  | Event.coutReal .. => true
  | _ => false

/-- The flags of the solver calls recorded in a trace. -/
def solverFlags {F : Type} (trace : List (Event F)) : List Nat :=
  trace.filterMap (fun e =>
    match e with
    | Event.stereoCalibrate _ _ _ _ _ _ _ _ flag => some flag
    | _ => none)

/-- The name of the left image of pair `i`. -/
def leftFile (imageList : List String) (i : Nat) : String := imageList.getD (i * 2) ""

/-- The name of the right image of pair `i`. -/
def rightFile (imageList : List String) (i : Nat) : String := imageList.getD (i * 2 + 1) ""

/-- The image file `f` loads. -/
def loads {F : Type} (env : Env F) (f : String) : Bool := !(env.imread f).empty

/-- The corner detector reports success on the image file `f`. -/
def detects {F : Type} (env : Env F) (boardSize : Size) (f : String) : Bool :=
  (env.findChessboardCorners (env.imread f) boardSize).1

/-- The corners detected in the image file `f`, refined to sub-pixel accuracy. -/
def refinedCorners {F : Type} (env : Env F) (boardSize : Size) (f : String) :
    List (Point2f F) :=
  env.cornerSubPix (env.cvtColor (env.imread f))
    (env.findChessboardCorners (env.imread f) boardSize).2

/-- The image size of the run once pair `i` has been loaded, when it was `sz` before: an
unassigned size (`Size()`) is fixed by the left image if that one loads. -/
def runSize {F : Type} (env : Env F) (imageList : List String) (sz : Size) (i : Nat) : Size :=
  if sz = Size.default ∧ loads env (leftFile imageList i) = true then
    (env.imread (leftFile imageList i)).size
  else sz

/-- Both images of pair `i` load, both have the size `sz`, and the detector succeeds on
both. -/
def pairGood {F : Type} (env : Env F) (boardSize : Size) (imageList : List String) (sz : Size)
    (i : Nat) : Bool :=
  loads env (leftFile imageList i) && loads env (rightFile imageList i) &&
  decide ((env.imread (leftFile imageList i)).size = sz) &&
  decide ((env.imread (rightFile imageList i)).size = sz) &&
  detects env boardSize (leftFile imageList i) && detects env boardSize (rightFile imageList i)

/-- Both images of pair `i` reach the display with pixels in them, for the image size `sz`
of the run: the left image loads, has the size `sz` and is detected, so that the right image
is read at all, and the right image loads.  For every other pair `mergeImages` is handed an
image without pixels. -/
def pairShown {F : Type} (env : Env F) (boardSize : Size) (imageList : List String) (sz : Size)
    (i : Nat) : Bool :=
  loads env (leftFile imageList i) &&
  decide ((env.imread (leftFile imageList i)).size = sz) &&
  detects env boardSize (leftFile imageList i) && loads env (rightFile imageList i)

/-- The indices of the accepted pairs, in list order: the pairs `i, i+1, ..` (at most `rem`
of them) are examined until the operator ends the collection or a pair cannot be shown, which
ends the run; a pair is accepted when it is good for the image size of the run. -/
def acceptedFrom {F : Type} (env : Env F) (boardSize : Size) (imageList : List String) :
    Nat → Nat → Size → List Nat
  | 0, _, _ => []
  | rem + 1, i, sz =>
    let sz1 := runSize env imageList sz i
    (if pairGood env boardSize imageList sz1 i then [i] else []) ++
      (if !pairShown env boardSize imageList sz1 i || isQuitKey (env.waitKey i) then []
       else acceptedFrom env boardSize imageList rem (i + 1) sz1)

/-- The collection over the pairs `i, i+1, ..` (at most `rem` of them) ends at a pair that
cannot be shown, before the operator has ended it. -/
def throwsFrom {F : Type} (env : Env F) (boardSize : Size) (imageList : List String) :
    Nat → Nat → Size → Bool
  | 0, _, _ => false
  | rem + 1, i, sz =>
    let sz1 := runSize env imageList sz i
    if !pairShown env boardSize imageList sz1 i then true
    else if isQuitKey (env.waitKey i) then false
    else throwsFrom env boardSize imageList rem (i + 1) sz1

/-- The collection over a whole image list ends at a pair that cannot be shown, for a run
whose image size is `sz` at the start. -/
def collectionThrows {F : Type} (env : Env F) (boardSize : Size) (imageList : List String)
    (sz : Size) : Bool :=
  throwsFrom env boardSize imageList (imageList.length / 2) 0 sz

/-- The accepted pairs of a whole image list, for a run whose image size is `sz` at the
start (`Size()` in `stereoCalib`). -/
def acceptedPairs {F : Type} (env : Env F) (boardSize : Size) (imageList : List String)
    (sz : Size) : List Nat :=
  acceptedFrom env boardSize imageList (imageList.length / 2) 0 sz

/-- The file names of the accepted pairs `acc`: left, right, left, right, .. -/
def acceptedFiles (imageList : List String) (acc : List Nat) : List String :=
  acc.flatMap (fun j => [leftFile imageList j, rightFile imageList j])

/-- What the detection step leaves in the slot it writes for `img`: the refined corners on
success, the raw output of the detector otherwise. -/
def slotCorners {F : Type} (env : Env F) (boardSize : Size) (img : Mat F) : List (Point2f F) :=
  if (env.findChessboardCorners img boardSize).1 = true
  then env.cornerSubPix (env.cvtColor img) (env.findChessboardCorners img boardSize).2
  else (env.findChessboardCorners img boardSize).2

/-- Image `img` reaches the detector when the image size of the run is `sz`. -/
def imageSeen {F : Type} (sz : Size) (img : Mat F) : Bool :=
  !img.empty && decide (sz = Size.default ∨ img.size = sz)

/-- Image `img` passes all checks of the loop over `k` when the image size of the run is
`sz`. -/
def imageOk {F : Type} (env : Env F) (boardSize : Size) (sz : Size) (img : Mat F) : Bool :=
  !img.empty && decide (sz = Size.default ∨ img.size = sz) &&
    (env.findChessboardCorners img boardSize).1

/-- The named fields of a document, in order, comments left out. -/
def fsFields {F : Type} (doc : List (FSEntry F)) : List (String × FSValue F) :=
  doc.filterMap (fun e =>
    match e with
    | FSEntry.field n v => some (n, v)
    | FSEntry.comment _ => none)

/-- Events of the user interface and of image handling: console output, image loading,
detection, drawing and display. -/
def Event.isUi {F : Type} : Event F → Bool
  | Event.cout _ => true
  | Event.coutReal .. => true
  | Event.imread _ => true
  | Event.findChessboardCorners _ => true
  | Event.cornerSubPix _ => true
  | Event.drawChessboardCorners _ => true
  | Event.imshow _ => true
  | Event.waitKey _ => true
  | Event.putText _ => true
  | Event.namedWindow _ => true
  | Event.destroyWindow _ => true
  | Event.initUndistortRectifyMap .. => true
  | _ => false

/-- The output files of the calls of `saveCameraParams` recorded in a trace. -/
def saveCalls {F : Type} (trace : List (Event F)) : List String :=
  trace.filterMap (fun e =>
    match e with
    | Event.saveCameraParams f => some f
    | _ => none)

/-- The flags of the calls of `calibrateCamera` recorded in a trace. -/
def calibFlags {F : Type} (trace : List (Event F)) : List Nat :=
  trace.filterMap (fun e =>
    match e with
    | Event.calibrateCamera _ _ _ flags => some flags
    | _ => none)

/-- The number of points of pair `i`. -/
def pairPoints {F : Type} (imagePoints0 : List (List (Point2f F))) (i : Nat) : Nat :=
  (imagePoints0.getD i []).length

/-- The contribution of point `j` of pair `i` to the epipolar error:
`|a1*x0 + b1*y0 + c1| + |a0*x1 + b0*y1 + c0|`, where `(x0, y0)` and `(x1, y1)` are the
`j`-th left and right points of the pair as they stand after the undistortion,
`(a1, b1, c1)` is the `j`-th of the epipolar lines computed from the right points and
`(a0, b0, c0)` the `j`-th of those computed from the left points. -/
def epipolarTerm {F : Type} [LinearOrderedCommRing F] (env : Env F)
    (imagePoints0 imagePoints1 : List (List (Point2f F)))
    (cameraMatrix0 distCoeffs0 cameraMatrix1 distCoeffs1 Fm : Mat F) (i j : Nat) : F :=
  let left := env.undistortPoints (imagePoints0.getD i []) cameraMatrix0 distCoeffs0
  let right := env.undistortPoints (imagePoints1.getD i []) cameraMatrix1 distCoeffs1
  let p0 := left.2.getD j ⟨0, 0⟩
  let p1 := right.2.getD j ⟨0, 0⟩
  let l0 := (env.computeCorrespondEpilines left.1 1 Fm).getD j ⟨0, 0, 0⟩
  let l1 := (env.computeCorrespondEpilines right.1 2 Fm).getD j ⟨0, 0, 0⟩
  |l1.v0 * p0.x + l1.v1 * p0.y + l1.v2| + |l0.v0 * p1.x + l0.v1 * p1.y + l0.v2|

/-- The epipolar error as the specification words it: the sum of the contributions of all
points of all pairs, divided by the total number of points. -/
def epipolarErrorSpec {F : Type} [LinearOrderedCommRing F] [Div F] (env : Env F)
    (imagePoints0 imagePoints1 : List (List (Point2f F))) (nimages : Nat)
    (cameraMatrix0 distCoeffs0 cameraMatrix1 distCoeffs1 Fm : Mat F) : F :=
  ((List.range nimages).map (fun i =>
    ((List.range (pairPoints imagePoints0 i)).map (fun j =>
      epipolarTerm env imagePoints0 imagePoints1 cameraMatrix0 distCoeffs0 cameraMatrix1
        distCoeffs1 Fm i j)).sum)).sum /
  (((((List.range nimages).map (pairPoints imagePoints0)).sum : Nat) : Int) : F)

/-- The L2 error `err_i` of frame `i`: the norm of the difference between the observed
corners and the projected board points. -/
def frameErr {F : Type} (env : Env F) (objectPoints : List (List (Point3f F)))
    (imagePoints : List (List (Point2f F))) (rvecs tvecs : List (Mat F))
    (cameraMatrix distCoeffs : Mat F) (i : Nat) : F :=
  env.norm (imagePoints.getD i [])
    (env.projectPoints (objectPoints.getD i []) (rvecs.getD i Mat.default)
      (tvecs.getD i Mat.default) cameraMatrix distCoeffs)

/-- The reprojection error as the specification words it: the RMS over all points of all
frames, `sqrt((sum of err_i^2) / N)` with `N` the total number of points, and for frame `i`
the value `sqrt(err_i^2 / number of points of frame i)`. -/
def reprojectionRmsSpec {F : Type} [Add F] [Mul F] [Div F] [IntCast F] [Zero F] (env : Env F)
    (objectPoints : List (List (Point3f F))) (imagePoints : List (List (Point2f F)))
    (rvecs tvecs : List (Mat F)) (cameraMatrix distCoeffs : Mat F) : F × List F :=
  let err := frameErr env objectPoints imagePoints rvecs tvecs cameraMatrix distCoeffs
  let total := (List.range objectPoints.length).foldl (fun (s : F) (i : Nat) =>
    s + err i * err i) 0
  let N : Nat := (objectPoints.map List.length).sum
  (env.sqrt (total / (((N : Nat) : Int) : F)),
    (List.range objectPoints.length).map (fun (i : Nat) =>
      env.sqrt (err i * err i / ((((objectPoints.getD i []).length : Nat) : Int) : F))))

/-- The point lists handed to the stereo solver by the calls recorded in a trace:
`objectPoints`, `imagePoints[0]` and `imagePoints[1]`. -/
def solverCalls {F : Type} (trace : List (Event F)) :
    List (List (List (Point3f F)) × List (List (Point2f F)) × List (List (Point2f F))) :=
  trace.filterMap (fun e =>
    match e with
    | Event.stereoCalibrate o i0 i1 _ _ _ _ _ _ => some (o, i0, i1)
    | _ => none)

/-- The arguments of the calls of `mergeImages` recorded in a trace. -/
def mergeCalls {F : Type} (trace : List (Event F)) : List (Size × Mat F × Mat F) :=
  trace.filterMap (fun e =>
    match e with
    | Event.mergeImages sz imgL imgR => some (sz, imgL, imgR)
    | _ => none)

/-- The numbers of frames in `objectPoints` and `imagePoints` at the calls of
`calibrateCamera` recorded in a trace. -/
def calibFrames {F : Type} (trace : List (Event F)) : List (Nat × Nat) :=
  trace.filterMap (fun e =>
    match e with
    | Event.calibrateCamera o i _ _ => some (o.length, i.length)
    | _ => none)

/-- The pixel in column `px` and row `py` lies in the rectangle `r`
(`Rect::contains`). -/
def Rect.contains (r : Rect) (px py : Int) : Prop :=
  r.x ≤ px ∧ px < r.x + r.width ∧ r.y ≤ py ∧ py < r.y + r.height

/-- The pixel of row `i` and column `j` of an image given as a list of rows. -/
def pixelAt (img : List (List Nat)) (i j : Nat) : Nat := (img.getD i []).getD j 0

/-- The number of places in row `i` of `img` where the colour changes from one of the first
`width` columns to the next. -/
def verticalBoundaries (img : List (List Nat)) (width i : Nat) : Nat :=
  ((List.range (width - 1)).filter (fun j => pixelAt img i j != pixelAt img i (j + 1))).length

/-- The number of places in column `j` of `img` where the colour changes from one of the
first `height` rows to the next. -/
def horizontalBoundaries (img : List (List Nat)) (height j : Nat) : Nat :=
  ((List.range (height - 1)).filter (fun i => pixelAt img i j != pixelAt img (i + 1) j)).length

/-! ## Fixtures for the concrete instances -/

namespace Demo

/-- A 640 x 480 image. -/
def imgA : Mat Int := ⟨480, 640, [1]⟩

/-- A 320 x 240 image. -/
def imgB : Mat Int := ⟨240, 320, [2]⟩

/-- The integer that stands for a non-finite value in the fixtures. -/
def nan : Int := -2147483648

/-- An environment with image files `l1`, `r1`, `l2`, `l3`, `r3` (640 x 480) and `r2`, `lB`
(320 x 240); no other file loads.  The detector succeeds on every image, and no key is
pressed.  The
range check fails on matrices holding `nan`; every frame has the L2 error 8; `sqrt` is given
on the two values it is applied to; the list file `stereo_calib.xml` holds three names and
`list.xml` six. -/
def env : Env Int :=
  { imread := fun f =>
      if f = "l1" ∨ f = "r1" ∨ f = "l2" ∨ f = "l3" ∨ f = "r3" then imgA
      else if f = "r2" ∨ f = "lB" then imgB
      else Mat.default
    findChessboardCorners := fun m _ => (true, [⟨m.rows, m.cols⟩])
    cvtColor := fun m => m
    cornerSubPix := fun _ c => c
    drawChessboardCorners := fun m _ _ _ => m.data
    waitKey := fun _ => -1
    waitKeyDisplay := fun _ => 113
    stereoCalibrate := fun _ _ _ a b c d _ _ =>
      ⟨0, a, b, c, d, Mat.default, Mat.default, Mat.default, Mat.default⟩
    stereoRectify := fun _ _ _ _ _ _ _ =>
      ⟨Mat.default, Mat.default, Mat.default, Mat.default, Mat.default⟩
    initUndistortRectifyMap := fun _ _ _ _ _ => (Mat.default, Mat.default)
    remap := fun m _ _ => m
    rectangle := fun m => m.data
    canWrite := fun _ => true
    timeString := "Sun Nov  1 12:00:00 2026"
    findChessboardCornersFast := fun m _ => (true, [⟨m.rows, m.cols⟩])
    calibrateCamera := fun o _ _ a b _ =>
      ⟨0, a, b, List.replicate o.length Mat.default, List.replicate o.length Mat.default⟩
    checkRange := fun m => !m.data.contains nan
    projectPoints := fun _ _ _ _ _ => []
    norm := fun _ _ => 8
    sqrt := fun x => if x = 16 then 4 else if x = 4 then 2 else 0
    undistortPoints := fun pts _ _ => (pts, pts)
    computeCorrespondEpilines := fun pts _ _ => pts.map (fun q => ⟨q.x, q.y, 1⟩)
    getOptimalNewCameraMatrix := fun a _ _ => a
    stringListFile := fun f =>
      if f = "stereo_calib.xml" then some (true, ["l1", "r1", "l3"])
      else if f = "list.xml" then some (true, ["l1", "r1", "l2", "r2", "l3", "r3"])
      else none
    cinPrefix := "l"
    cinImageNumber := 3
    dateString := "1101" }

/-- The same environment with an operator who presses `q` at the first pair. -/
def envQuit : Env Int := { env with waitKey := fun _ => 113 }

/-- Three pairs: the right image of the second one has another size. -/
def imageList : List String := ["l1", "r1", "l2", "r2", "l3", "r3"]

/-- Three pairs: the left image of the second one has another size. -/
def listLeftSize : List String := ["l1", "r1", "lB", "r1", "l3", "r3"]

/-- Three pairs: the left image of the second one does not load. -/
def listLeftMissing : List String := ["l1", "r1", "nofile", "r1", "l3", "r3"]

/-- Three pairs: the right image of the second one does not load. -/
def listRightMissing : List String := ["l1", "r1", "l2", "nofile", "l3", "r3"]

/-- The state of a fresh call of `findCorners`. -/
def st0 : StereoCalib.FCState Int :=
  ⟨[], [], Size.default, 0, [], 0, Mat.default, Mat.default, []⟩

/-- The parameters of `stereo_calib.cpp` as compiled (lines 27-42). -/
def params : StereoCalib.Params Int :=
  { boardSize := ⟨6, 5⟩
    squareSize := 30
    delay_ms := 300
    useIndividualCalibResult := true
    calibResultLFn := "calib_result_l.xml"
    calibResultRFn := "calib_result_r.xml"
    outputFn := "stereo_params.xml" }

/-- A fresh run: no artifact file exists, `goodImageList` is empty. -/
def run0 : StereoCalib.Run Int := ⟨fun _ => none, [], [], false, false⟩

/-- A camera matrix with focal length 800 and principal point (320, 240). -/
def cameraMatrix : Mat Int := ⟨3, 3, [800, 0, 320, 0, 800, 240, 0, 0, 1]⟩

/-- A vector of eight distortion coefficients. -/
def distCoeffs : Mat Int := ⟨8, 1, [-1, 2, 0, 0, 1, 0, 0, 0]⟩

/-- A solver output whose left camera matrix holds non-finite entries. -/
def badSolution : StereoSolution Int :=
  ⟨0, ⟨3, 3, [nan, 0, 320, 0, nan, 240, 0, 0, 1]⟩, distCoeffs, cameraMatrix, distCoeffs,
    Mat.default, Mat.default, Mat.default, Mat.default⟩

/-- The demo environment with a stereo solver that returns `badSolution`. -/
def envBad : Env Int :=
  { env with stereoCalibrate := fun _ _ _ _ _ _ _ _ _ => badSolution }

/-- Four frames of sixteen board points each. -/
def objectPoints4 : List (List (Point3f Int)) :=
  List.replicate 4 (List.replicate 16 ⟨0, 0, 0⟩)

/-- Four frames of sixteen observed corners each. -/
def imagePoints4 : List (List (Point2f Int)) :=
  List.replicate 4 (List.replicate 16 ⟨0, 0⟩)

/-- One pair of two corresponding points. -/
def leftPoints : List (List (Point2f Int)) := [[⟨1, 2⟩, ⟨3, 4⟩]]

/-- The right points of the pair. -/
def rightPoints : List (List (Point2f Int)) := [[⟨5, 6⟩, ⟨7, 8⟩]]

/-- The demo environment with a single-camera solver whose camera matrix holds a non-finite
entry. -/
def envBadMono : Env Int :=
  { env with
    calibrateCamera := fun o _ _ _ b _ =>
      ⟨0, ⟨3, 3, [nan, 0, 320, 0, 1, 240, 0, 0, 1]⟩, b,
        List.replicate o.length Mat.default, List.replicate o.length Mat.default⟩ }

/-- The demo environment with a list file of twenty names, each of which loads. -/
def envMany : Env Int :=
  { env with
    imread := fun _ => imgA
    stringListFile := fun _ => some (true, List.replicate 20 "a") }

/-- The command line `camera_calib -i list.xml`. -/
def monoArgs : List String := ["camera_calib", "-i", "list.xml"]

/-- The demo environment with a detector that returns `width * height` corners. -/
def envBoard : Env Int :=
  { env with
    findChessboardCorners := fun m bs =>
      (true, List.replicate (bs.width * bs.height).toNat ⟨m.rows, m.cols⟩) }

/-- The demo environment with an operator who presses the space bar at every rectified
pair. -/
def envKeep : Env Int := { env with waitKeyDisplay := fun _ => 32 }

/-- A run whose `goodImageList` holds the two accepted pairs of the demo list. -/
def runGood : StereoCalib.Run Int :=
  ⟨fun _ => none, ["l1", "r1", "l3", "r3"], [], false, false⟩

end Demo

/-! ## Lemmas on the pattern geometry -/

section GridLemmas

variable {α : Type}

theorem getD_set_self (cs : List α) (n : Nat) (x d : α) (h : n < cs.length) :
    (cs.set n x).getD n d = x := by
  simp [List.getD, h]

theorem set_getD_self (cs : List α) (n : Nat) (d : α) (h : n < cs.length) :
    cs.set n (cs.getD n d) = cs := by
  apply List.ext_getElem
  · simp
  · intro m h1 h2
    rw [List.getElem_set]
    split
    · next hm => subst hm; exact List.getD_eq_getElem _ _ h
    · rfl

theorem foldl_push_slot {β : Type} (g : β → α) (n : Nat) (js : List β) :
    ∀ cs : List (List α), n < cs.length →
      js.foldl (fun cs j => cs.set n (cs.getD n [] ++ [g j])) cs
        = cs.set n (cs.getD n [] ++ js.map g) := by
  induction js with
  | nil =>
    intro cs hn
    simp only [List.foldl_nil, List.map_nil, List.append_nil]
    exact (set_getD_self cs n [] hn).symm
  | cons j js ih =>
    intro cs hn
    have hlen : n < (cs.set n (cs.getD n [] ++ [g j])).length := by simpa using hn
    rw [List.foldl_cons, ih _ hlen, getD_set_self _ _ _ _ hn, List.set_set]
    simp

theorem foldl_push_rows {β γ : Type} (g : β → γ → α) (n : Nat) (js : List γ) (is : List β) :
    ∀ cs : List (List α), n < cs.length →
      is.foldl (fun cs i => js.foldl (fun cs j => cs.set n (cs.getD n [] ++ [g i j])) cs) cs
        = cs.set n (cs.getD n [] ++ is.flatMap (fun i => js.map (g i))) := by
  induction is with
  | nil =>
    intro cs hn
    simp only [List.foldl_nil, List.flatMap_nil, List.append_nil]
    exact (set_getD_self cs n [] hn).symm
  | cons i is ih =>
    intro cs hn
    rw [List.foldl_cons, foldl_push_slot (g i) n js cs hn]
    have hlen : n < (cs.set n (cs.getD n [] ++ js.map (g i))).length := by simpa using hn
    rw [ih _ hlen, getD_set_self _ _ _ _ hn, List.set_set]
    simp

theorem foldl_slots_upto (pts : List α) (upd : List (List α) → Nat → List (List α))
    (hupd : ∀ cs n, n < cs.length → upd cs n = cs.set n (cs.getD n [] ++ pts)) :
    ∀ (k : Nat) (cs : List (List α)), k ≤ cs.length →
      (List.range k).foldl upd cs = (cs.take k).map (· ++ pts) ++ cs.drop k := by
  intro k
  induction k with
  | zero => intro cs _; simp
  | succ k ih =>
    intro cs hk
    have hk1 : k < cs.length := hk
    rw [List.range_succ, List.foldl_append, ih cs (Nat.le_of_lt hk1)]
    simp only [List.foldl_cons, List.foldl_nil]
    have hlen : k < ((cs.take k).map (· ++ pts) ++ cs.drop k).length := by
      simp; omega
    rw [hupd _ _ hlen]
    have hk' : ((cs.take k).map (· ++ pts)).length = k := by simp; omega
    have hget : ((cs.take k).map (· ++ pts) ++ cs.drop k).getD k [] = cs[k] := by
      rw [List.getD_eq_getElem _ _ hlen, List.getElem_append_right (by omega)]
      simp only [hk', Nat.sub_self, List.getElem_drop, Nat.add_zero]
    rw [hget, List.set_append_right _ _ (by omega), hk', Nat.sub_self]
    rw [List.take_succ, List.getElem?_eq_getElem hk1]
    simp only [Option.toList_some, List.map_append, List.map_cons, List.map_nil,
      List.append_assoc, List.singleton_append]
    congr 1
    rw [List.drop_eq_getElem_cons hk1]
    rfl

end GridLemmas

/-! ## Lemmas on the correspondence collector -/

namespace StereoCalib
section CollectorLemmas
variable {F : Type}


theorem take_set_self {α : Type} (l : List α) (n : Nat) (x : α) :
    (l.set n x).take n = l.take n := by
  apply List.ext_getElem
  · simp
  · intro m h1 h2
    simp only [List.length_take, List.length_set] at h1
    rw [List.getElem_take, List.getElem_take, List.getElem_set]
    have : n ≠ m := by omega
    simp [this]

@[simp]
theorem emit_imagePoints0 (st : FCState F) (e : Event F) :
    (st.emit e).imagePoints0 = st.imagePoints0 := rfl

@[simp]
theorem setImg_imagePoints0 (st : FCState F) (k : Nat) (img : Mat F) :
    (st.setImg k img).imagePoints0 = st.imagePoints0 := by
  unfold FCState.setImg; split_ifs <;> rfl

@[simp]
theorem emit_imagePoints1 (st : FCState F) (e : Event F) :
    (st.emit e).imagePoints1 = st.imagePoints1 := rfl

@[simp]
theorem setImg_imagePoints1 (st : FCState F) (k : Nat) (img : Mat F) :
    (st.setImg k img).imagePoints1 = st.imagePoints1 := by
  unfold FCState.setImg; split_ifs <;> rfl

@[simp]
theorem emit_imageSize (st : FCState F) (e : Event F) :
    (st.emit e).imageSize = st.imageSize := rfl

@[simp]
theorem setImg_imageSize (st : FCState F) (k : Nat) (img : Mat F) :
    (st.setImg k img).imageSize = st.imageSize := by
  unfold FCState.setImg; split_ifs <;> rfl

@[simp]
theorem setCorners_imageSize (st : FCState F) (k n : Nat) (c : List (Point2f F)) :
    (st.setCorners k n c).imageSize = st.imageSize := by
  unfold FCState.setCorners; split_ifs <;> rfl

@[simp]
theorem emit_nimages (st : FCState F) (e : Event F) :
    (st.emit e).nimages = st.nimages := rfl

@[simp]
theorem setImg_nimages (st : FCState F) (k : Nat) (img : Mat F) :
    (st.setImg k img).nimages = st.nimages := by
  unfold FCState.setImg; split_ifs <;> rfl

@[simp]
theorem setCorners_nimages (st : FCState F) (k n : Nat) (c : List (Point2f F)) :
    (st.setCorners k n c).nimages = st.nimages := by
  unfold FCState.setCorners; split_ifs <;> rfl

@[simp]
theorem emit_goodImageList (st : FCState F) (e : Event F) :
    (st.emit e).goodImageList = st.goodImageList := rfl

@[simp]
theorem setImg_goodImageList (st : FCState F) (k : Nat) (img : Mat F) :
    (st.setImg k img).goodImageList = st.goodImageList := by
  unfold FCState.setImg; split_ifs <;> rfl

@[simp]
theorem setCorners_goodImageList (st : FCState F) (k n : Nat) (c : List (Point2f F)) :
    (st.setCorners k n c).goodImageList = st.goodImageList := by
  unfold FCState.setCorners; split_ifs <;> rfl

@[simp]
theorem emit_npairs (st : FCState F) (e : Event F) :
    (st.emit e).npairs = st.npairs := rfl

@[simp]
theorem setImg_npairs (st : FCState F) (k : Nat) (img : Mat F) :
    (st.setImg k img).npairs = st.npairs := by
  unfold FCState.setImg; split_ifs <;> rfl

@[simp]
theorem setCorners_npairs (st : FCState F) (k n : Nat) (c : List (Point2f F)) :
    (st.setCorners k n c).npairs = st.npairs := by
  unfold FCState.setCorners; split_ifs <;> rfl

@[simp]
theorem emit_trace (st : FCState F) (e : Event F) :
    (st.emit e).trace = st.trace ++ [e] := rfl
@[simp]
theorem setImg_trace (st : FCState F) (k : Nat) (img : Mat F) :
    (st.setImg k img).trace = st.trace := by
  unfold FCState.setImg; split_ifs <;> rfl
@[simp]
theorem setCorners_trace (st : FCState F) (k n : Nat) (c : List (Point2f F)) :
    (st.setCorners k n c).trace = st.trace := by
  unfold FCState.setCorners; split_ifs <;> rfl
@[simp]
theorem setCorners_zero_imagePoints0 (st : FCState F) (n : Nat) (c : List (Point2f F)) :
    (st.setCorners 0 n c).imagePoints0 = st.imagePoints0.set n c := rfl
@[simp]
theorem setCorners_zero_imagePoints1 (st : FCState F) (n : Nat) (c : List (Point2f F)) :
    (st.setCorners 0 n c).imagePoints1 = st.imagePoints1 := rfl
@[simp]
theorem setCorners_one_imagePoints0 (st : FCState F) (n : Nat) (c : List (Point2f F)) :
    (st.setCorners 1 n c).imagePoints0 = st.imagePoints0 := rfl
@[simp]
theorem setCorners_one_imagePoints1 (st : FCState F) (n : Nat) (c : List (Point2f F)) :
    (st.setCorners 1 n c).imagePoints1 = st.imagePoints1.set n c := rfl

theorem detectCorners_fst (env : Env F) (bs : Size) (f : String) (img : Mat F) (k : Nat)
    (st : FCState F) :
    (detectCorners env bs f img k st).1 = !(env.findChessboardCorners img bs).1 := by
  unfold detectCorners
  cases h : (env.findChessboardCorners img bs).1 <;> simp [h]

@[simp]
theorem detectCorners_imageSize (env : Env F) (bs : Size) (f : String) (img : Mat F)
    (k : Nat) (st : FCState F) :
    (detectCorners env bs f img k st).2.imageSize = st.imageSize := by
  unfold detectCorners
  cases h : (env.findChessboardCorners img bs).1 <;> simp [h]

@[simp]
theorem detectCorners_nimages (env : Env F) (bs : Size) (f : String) (img : Mat F)
    (k : Nat) (st : FCState F) :
    (detectCorners env bs f img k st).2.nimages = st.nimages := by
  unfold detectCorners
  cases h : (env.findChessboardCorners img bs).1 <;> simp [h]

@[simp]
theorem detectCorners_goodImageList (env : Env F) (bs : Size) (f : String) (img : Mat F)
    (k : Nat) (st : FCState F) :
    (detectCorners env bs f img k st).2.goodImageList = st.goodImageList := by
  unfold detectCorners
  cases h : (env.findChessboardCorners img bs).1 <;> simp [h]

@[simp]
theorem detectCorners_npairs (env : Env F) (bs : Size) (f : String) (img : Mat F)
    (k : Nat) (st : FCState F) :
    (detectCorners env bs f img k st).2.npairs = st.npairs := by
  unfold detectCorners
  cases h : (env.findChessboardCorners img bs).1 <;> simp [h]


theorem detectCorners_zero_imagePoints0 (env : Env F) (bs : Size) (f : String) (img : Mat F)
    (st : FCState F) :
    (detectCorners env bs f img 0 st).2.imagePoints0
      = st.imagePoints0.set st.npairs (slotCorners env bs img) := by
  unfold detectCorners slotCorners
  cases h : (env.findChessboardCorners img bs).1 <;> simp [h]

theorem detectCorners_zero_imagePoints1 (env : Env F) (bs : Size) (f : String) (img : Mat F)
    (st : FCState F) :
    (detectCorners env bs f img 0 st).2.imagePoints1 = st.imagePoints1 := by
  unfold detectCorners
  cases h : (env.findChessboardCorners img bs).1 <;> simp [h]

theorem detectCorners_one_imagePoints1 (env : Env F) (bs : Size) (f : String) (img : Mat F)
    (st : FCState F) :
    (detectCorners env bs f img 1 st).2.imagePoints1
      = st.imagePoints1.set st.npairs (slotCorners env bs img) := by
  unfold detectCorners slotCorners
  cases h : (env.findChessboardCorners img bs).1 <;> simp [h]

theorem detectCorners_one_imagePoints0 (env : Env F) (bs : Size) (f : String) (img : Mat F)
    (st : FCState F) :
    (detectCorners env bs f img 1 st).2.imagePoints0 = st.imagePoints0 := by
  unfold detectCorners
  cases h : (env.findChessboardCorners img bs).1 <;> simp [h]

theorem processImage_fst (env : Env F) (bs : Size) (l : List String) (i k : Nat)
    (st : FCState F) :
    (processImage env bs l i k st).1 =
      !imageOk env bs st.imageSize (env.imread (l.getD (i * 2 + k) "")) := by
  unfold processImage imageOk
  dsimp only
  generalize l.getD (i * 2 + k) "" = f
  generalize env.imread f = img
  by_cases h1 : img.empty = true
  · simp [h1]
  · by_cases h2 : st.imageSize = Size.default
    · simp [h1, h2, detectCorners_fst]
    · by_cases h3 : img.size = st.imageSize
      · simp [h1, h2, h3, detectCorners_fst]
      · simp [h1, h2, h3, detectCorners_fst]

theorem processImage_imageSize (env : Env F) (bs : Size) (l : List String) (i k : Nat)
    (st : FCState F) :
    (processImage env bs l i k st).2.imageSize =
      if st.imageSize = Size.default ∧ (env.imread (l.getD (i * 2 + k) "")).empty = false
      then (env.imread (l.getD (i * 2 + k) "")).size else st.imageSize := by
  unfold processImage
  dsimp only
  generalize l.getD (i * 2 + k) "" = f
  generalize env.imread f = img
  by_cases h1 : img.empty = true
  · simp [h1]
  · by_cases h2 : st.imageSize = Size.default
    · simp [h1, h2]
    · by_cases h3 : img.size = st.imageSize
      · simp [h1, h2, h3]
      · simp [h1, h2, h3]

@[simp]
theorem processImage_nimages (env : Env F) (bs : Size) (l : List String) (i k : Nat)
    (st : FCState F) :
    (processImage env bs l i k st).2.nimages = st.nimages := by
  unfold processImage
  dsimp only
  generalize l.getD (i * 2 + k) "" = f
  generalize env.imread f = img
  by_cases h1 : img.empty = true
  · simp [h1]
  · by_cases h2 : st.imageSize = Size.default
    · simp [h1, h2]
    · by_cases h3 : img.size = st.imageSize
      · simp [h1, h2, h3]
      · simp [h1, h2, h3]

@[simp]
theorem processImage_goodImageList (env : Env F) (bs : Size) (l : List String) (i k : Nat)
    (st : FCState F) :
    (processImage env bs l i k st).2.goodImageList = st.goodImageList := by
  unfold processImage
  dsimp only
  generalize l.getD (i * 2 + k) "" = f
  generalize env.imread f = img
  by_cases h1 : img.empty = true
  · simp [h1]
  · by_cases h2 : st.imageSize = Size.default
    · simp [h1, h2]
    · by_cases h3 : img.size = st.imageSize
      · simp [h1, h2, h3]
      · simp [h1, h2, h3]

@[simp]
theorem processImage_npairs (env : Env F) (bs : Size) (l : List String) (i k : Nat)
    (st : FCState F) :
    (processImage env bs l i k st).2.npairs = st.npairs := by
  unfold processImage
  dsimp only
  generalize l.getD (i * 2 + k) "" = f
  generalize env.imread f = img
  by_cases h1 : img.empty = true
  · simp [h1]
  · by_cases h2 : st.imageSize = Size.default
    · simp [h1, h2]
    · by_cases h3 : img.size = st.imageSize
      · simp [h1, h2, h3]
      · simp [h1, h2, h3]


theorem processImage_zero_imagePoints0 (env : Env F) (bs : Size) (l : List String) (i : Nat)
    (st : FCState F) :
    (processImage env bs l i 0 st).2.imagePoints0 =
      if imageSeen st.imageSize (env.imread (l.getD (i * 2 + 0) "")) = true
      then st.imagePoints0.set st.npairs (slotCorners env bs (env.imread (l.getD (i * 2 + 0) "")))
      else st.imagePoints0 := by
  unfold processImage imageSeen
  dsimp only
  generalize l.getD (i * 2 + 0) "" = f
  generalize env.imread f = img
  by_cases h1 : img.empty = true
  · simp [h1]
  · by_cases h2 : st.imageSize = Size.default
    · simp [h1, h2, detectCorners_zero_imagePoints0]
    · by_cases h3 : img.size = st.imageSize
      · simp [h1, h2, h3, detectCorners_zero_imagePoints0]
      · simp [h1, h2, h3]

theorem processImage_zero_imagePoints1 (env : Env F) (bs : Size) (l : List String) (i : Nat)
    (st : FCState F) :
    (processImage env bs l i 0 st).2.imagePoints1 = st.imagePoints1 := by
  unfold processImage
  dsimp only
  generalize l.getD (i * 2 + 0) "" = f
  generalize env.imread f = img
  by_cases h1 : img.empty = true
  · simp [h1]
  · by_cases h2 : st.imageSize = Size.default
    · simp [h1, h2, detectCorners_zero_imagePoints1]
    · by_cases h3 : img.size = st.imageSize
      · simp [h1, h2, h3, detectCorners_zero_imagePoints1]
      · simp [h1, h2, h3]

theorem processImage_one_imagePoints1 (env : Env F) (bs : Size) (l : List String) (i : Nat)
    (st : FCState F) :
    (processImage env bs l i 1 st).2.imagePoints1 =
      if imageSeen st.imageSize (env.imread (l.getD (i * 2 + 1) "")) = true
      then st.imagePoints1.set st.npairs (slotCorners env bs (env.imread (l.getD (i * 2 + 1) "")))
      else st.imagePoints1 := by
  unfold processImage imageSeen
  dsimp only
  generalize l.getD (i * 2 + 1) "" = f
  generalize env.imread f = img
  by_cases h1 : img.empty = true
  · simp [h1]
  · by_cases h2 : st.imageSize = Size.default
    · simp [h1, h2, detectCorners_one_imagePoints1]
    · by_cases h3 : img.size = st.imageSize
      · simp [h1, h2, h3, detectCorners_one_imagePoints1]
      · simp [h1, h2, h3]

theorem processImage_one_imagePoints0 (env : Env F) (bs : Size) (l : List String) (i : Nat)
    (st : FCState F) :
    (processImage env bs l i 1 st).2.imagePoints0 = st.imagePoints0 := by
  unfold processImage
  dsimp only
  generalize l.getD (i * 2 + 1) "" = f
  generalize env.imread f = img
  by_cases h1 : img.empty = true
  · simp [h1]
  · by_cases h2 : st.imageSize = Size.default
    · simp [h1, h2, detectCorners_one_imagePoints0]
    · by_cases h3 : img.size = st.imageSize
      · simp [h1, h2, h3, detectCorners_one_imagePoints0]
      · simp [h1, h2, h3]

theorem size_ne_default_of_not_empty (img : Mat F) (h : img.empty = false) :
    img.size ≠ Size.default := by
  unfold Mat.empty at h
  unfold Mat.size Size.default
  intro hs
  simp only [Size.mk.injEq] at hs
  simp [hs.1, hs.2] at h

theorem imageOk_pair_iff (env : Env F) (bs : Size) (sz : Size) (L R : Mat F) :
    (imageOk env bs sz L = true ∧
      imageOk env bs (if sz = Size.default ∧ L.empty = false then L.size else sz) R = true) ↔
    (!L.empty && !R.empty &&
      decide (L.size = if sz = Size.default ∧ (!L.empty) = true then L.size else sz) &&
      decide (R.size = if sz = Size.default ∧ (!L.empty) = true then L.size else sz) &&
      (env.findChessboardCorners L bs).1 && (env.findChessboardCorners R bs).1) = true := by
  unfold imageOk
  cases hL : L.empty
  · have hLs := size_ne_default_of_not_empty L hL
    by_cases hs : sz = Size.default
    · cases hfL : (env.findChessboardCorners L bs).1 <;>
        cases hR : R.empty <;>
        cases hfR : (env.findChessboardCorners R bs).1 <;>
        by_cases hRs : R.size = L.size <;>
        simp [hs, hRs, hLs]
    · by_cases hLz : L.size = sz <;>
        cases hfL : (env.findChessboardCorners L bs).1 <;>
        cases hR : R.empty <;>
        cases hfR : (env.findChessboardCorners R bs).1 <;>
        by_cases hRs : R.size = sz <;>
        simp [hs, hRs, hLz]
  · simp

/-- The decision of the loop over `k`, in terms of the two images of the pair. -/
theorem processPair_fst (env : Env F) (bs : Size) (l : List String) (i : Nat)
    (st : FCState F) :
    ((processPair env bs l i st).1 = 2) ↔
      pairGood env bs l (runSize env l st.imageSize i) i = true := by
  have key := imageOk_pair_iff env bs st.imageSize (env.imread (l.getD (i * 2 + 0) ""))
    (env.imread (l.getD (i * 2 + 1) ""))
  unfold pairGood runSize loads detects leftFile rightFile
  refine Iff.trans ?_ key
  unfold processPair
  dsimp only
  rw [processImage_fst, processImage_fst, processImage_imageSize]
  by_cases h0 : imageOk env bs st.imageSize (env.imread (l.getD (i * 2 + 0) "")) = true
  · by_cases h1 : imageOk env bs (if st.imageSize = Size.default ∧
        (env.imread (l.getD (i * 2 + 0) "")).empty = false
        then (env.imread (l.getD (i * 2 + 0) "")).size else st.imageSize)
        (env.imread (l.getD (i * 2 + 1) "")) = true
    · rw [h0, h1]; simp
    · rw [h0]
      simp only [Bool.not_eq_true] at h1
      rw [h1]; simp
  · simp only [Bool.not_eq_true] at h0
    rw [h0]; simp

theorem processPair_snd (env : Env F) (bs : Size) (l : List String) (i : Nat)
    (st : FCState F) :
    (processPair env bs l i st).2 =
      if (processImage env bs l i 0 st).1 = true then (processImage env bs l i 0 st).2
      else (processImage env bs l i 1 (processImage env bs l i 0 st).2).2 := by
  unfold processPair
  dsimp only
  split_ifs <;> rfl

theorem processPair_npairs (env : Env F) (bs : Size) (l : List String) (i : Nat)
    (st : FCState F) : (processPair env bs l i st).2.npairs = st.npairs := by
  rw [processPair_snd]; split_ifs <;> simp

theorem processPair_nimages (env : Env F) (bs : Size) (l : List String) (i : Nat)
    (st : FCState F) : (processPair env bs l i st).2.nimages = st.nimages := by
  rw [processPair_snd]; split_ifs <;> simp

theorem processPair_goodImageList (env : Env F) (bs : Size) (l : List String) (i : Nat)
    (st : FCState F) : (processPair env bs l i st).2.goodImageList = st.goodImageList := by
  rw [processPair_snd]; split_ifs <;> simp

theorem imageOk_not_empty (env : Env F) (bs sz : Size) (img : Mat F)
    (h : imageOk env bs sz img = true) : img.empty = false := by
  unfold imageOk at h
  cases he : img.empty
  · rfl
  · simp [he] at h

theorem imageOk_seen (env : Env F) (bs sz : Size) (img : Mat F)
    (h : imageOk env bs sz img = true) : imageSeen sz img = true := by
  unfold imageOk at h
  unfold imageSeen
  simp only [Bool.and_eq_true] at h ⊢
  exact h.1

theorem imageOk_slot (env : Env F) (bs sz : Size) (img : Mat F)
    (h : imageOk env bs sz img = true) :
    slotCorners env bs img
      = env.cornerSubPix (env.cvtColor img) (env.findChessboardCorners img bs).2 := by
  unfold imageOk at h
  unfold slotCorners
  simp only [Bool.and_eq_true] at h
  simp [h.2]

theorem processPair_imageSize (env : Env F) (bs : Size) (l : List String) (i : Nat)
    (st : FCState F) :
    (processPair env bs l i st).2.imageSize = runSize env l st.imageSize i := by
  have hrs : runSize env l st.imageSize i = (processImage env bs l i 0 st).2.imageSize := by
    rw [processImage_imageSize]
    unfold runSize loads leftFile
    simp only [Nat.add_zero, Bool.not_eq_true']
  rw [processPair_snd, hrs]
  by_cases h0 : (processImage env bs l i 0 st).1 = true
  · simp [h0]
  · simp only [h0, if_false, Bool.false_eq_true]
    rw [processImage_imageSize env bs l i 1]
    have hok : imageOk env bs st.imageSize (env.imread (l.getD (i * 2 + 0) "")) = true := by
      rw [processImage_fst] at h0
      simpa using h0
    have hne := imageOk_not_empty env bs _ _ hok
    have hnd : (processImage env bs l i 0 st).2.imageSize ≠ Size.default := by
      rw [processImage_imageSize]
      by_cases hs : st.imageSize = Size.default
      · simp only [hs, hne, and_self, if_true]
        exact size_ne_default_of_not_empty _ hne
      · simp only [hs, false_and, if_false]
        exact hs
    simp only [hnd, false_and, if_false]

theorem processPair_imagePoints0 (env : Env F) (bs : Size) (l : List String) (i : Nat)
    (st : FCState F) :
    (processPair env bs l i st).2.imagePoints0 =
      if imageSeen st.imageSize (env.imread (l.getD (i * 2 + 0) "")) = true
      then st.imagePoints0.set st.npairs (slotCorners env bs (env.imread (l.getD (i * 2 + 0) "")))
      else st.imagePoints0 := by
  rw [processPair_snd]
  by_cases h0 : (processImage env bs l i 0 st).1 = true
  · simp only [h0, if_true]
    exact processImage_zero_imagePoints0 env bs l i st
  · simp only [h0, if_false, Bool.false_eq_true]
    rw [processImage_one_imagePoints0]
    exact processImage_zero_imagePoints0 env bs l i st

theorem processPair_imagePoints1 (env : Env F) (bs : Size) (l : List String) (i : Nat)
    (st : FCState F) :
    (processPair env bs l i st).2.imagePoints1 = st.imagePoints1 ∨
    (processPair env bs l i st).2.imagePoints1 =
      st.imagePoints1.set st.npairs (slotCorners env bs (env.imread (l.getD (i * 2 + 1) ""))) := by
  rw [processPair_snd]
  by_cases h0 : (processImage env bs l i 0 st).1 = true
  · simp only [h0, if_true]
    left
    exact processImage_zero_imagePoints1 env bs l i st
  · simp only [h0, if_false, Bool.false_eq_true]
    rw [processImage_one_imagePoints1, processImage_zero_imagePoints1, processImage_npairs]
    split_ifs
    · right; rfl
    · left; rfl

theorem processPair_good (env : Env F) (bs : Size) (l : List String) (i : Nat)
    (st : FCState F) (h : pairGood env bs l (runSize env l st.imageSize i) i = true) :
    (processPair env bs l i st).2.imagePoints0
        = st.imagePoints0.set st.npairs (refinedCorners env bs (leftFile l i)) ∧
    (processPair env bs l i st).2.imagePoints1
        = st.imagePoints1.set st.npairs (refinedCorners env bs (rightFile l i)) := by
  have h2 := (processPair_fst env bs l i st).mpr h
  have hsnd := processPair_snd env bs l i st
  have hfst : (processImage env bs l i 0 st).1 = false ∧
      (processImage env bs l i 1 (processImage env bs l i 0 st).2).1 = false := by
    unfold processPair at h2
    dsimp only at h2
    by_cases h0 : (processImage env bs l i 0 st).1 = true
    · simp [h0] at h2
    · by_cases h1 : (processImage env bs l i 1 (processImage env bs l i 0 st).2).1 = true
      · simp [h0, h1] at h2
      · simp only [Bool.not_eq_true] at h0 h1
        exact ⟨h0, h1⟩
  have hok0 : imageOk env bs st.imageSize (env.imread (l.getD (i * 2 + 0) "")) = true := by
    have := hfst.1
    rw [processImage_fst] at this
    simpa using this
  have hok1 : imageOk env bs (processImage env bs l i 0 st).2.imageSize
      (env.imread (l.getD (i * 2 + 1) "")) = true := by
    have := hfst.2
    rw [processImage_fst] at this
    simpa using this
  rw [hsnd]
  simp only [hfst.1, Bool.false_eq_true, if_false]
  constructor
  · rw [processImage_one_imagePoints0, processImage_zero_imagePoints0,
      imageOk_seen env bs _ _ hok0, imageOk_slot env bs _ _ hok0]
    rfl
  · rw [processImage_one_imagePoints1, processImage_zero_imagePoints1, processImage_npairs,
      imageOk_seen env bs _ _ hok1, imageOk_slot env bs _ _ hok1]
    rfl

theorem take_succ_set {α : Type} (l : List α) (n : Nat) (x : α) (h : n < l.length) :
    (l.set n x).take (n + 1) = l.take n ++ [x] := by
  rw [List.take_succ, take_set_self]
  simp [h]

/-! ### The images handed to `mergeImages` -/

theorem resizeThrows_default : resizeThrows (Mat.default : Mat F) = true := by
  simp [resizeThrows, Mat.default]

theorem resizeThrows_of_not_empty (img : Mat F) (h : img.empty = false) :
    resizeThrows img = false := by
  unfold Mat.empty at h
  unfold resizeThrows
  simp only [Bool.or_eq_false_iff] at h
  exact h.2

@[simp]
theorem emit_imgL (st : FCState F) (e : Event F) : (st.emit e).imgL = st.imgL := rfl

@[simp]
theorem emit_imgR (st : FCState F) (e : Event F) : (st.emit e).imgR = st.imgR := rfl

@[simp]
theorem setCorners_imgL (st : FCState F) (k n : Nat) (c : List (Point2f F)) :
    (st.setCorners k n c).imgL = st.imgL := by
  unfold FCState.setCorners; split_ifs <;> rfl

@[simp]
theorem setCorners_imgR (st : FCState F) (k n : Nat) (c : List (Point2f F)) :
    (st.setCorners k n c).imgR = st.imgR := by
  unfold FCState.setCorners; split_ifs <;> rfl

@[simp]
theorem setImg_zero_imgL (st : FCState F) (img : Mat F) : (st.setImg 0 img).imgL = img := rfl

@[simp]
theorem setImg_zero_imgR (st : FCState F) (img : Mat F) : (st.setImg 0 img).imgR = st.imgR :=
  rfl

@[simp]
theorem setImg_one_imgL (st : FCState F) (img : Mat F) : (st.setImg 1 img).imgL = st.imgL :=
  rfl

@[simp]
theorem setImg_one_imgR (st : FCState F) (img : Mat F) : (st.setImg 1 img).imgR = img := rfl

theorem detectCorners_zero_imgL (env : Env F) (bs : Size) (f : String) (img : Mat F)
    (st : FCState F) :
    resizeThrows (detectCorners env bs f img 0 st).2.imgL
        = (if (env.findChessboardCorners img bs).1 = true then resizeThrows img
           else resizeThrows st.imgL) := by
  unfold detectCorners
  cases h : (env.findChessboardCorners img bs).1 <;> simp [h, resizeThrows]

theorem detectCorners_zero_imgR (env : Env F) (bs : Size) (f : String) (img : Mat F)
    (st : FCState F) : (detectCorners env bs f img 0 st).2.imgR = st.imgR := by
  unfold detectCorners
  cases h : (env.findChessboardCorners img bs).1 <;> simp [h]

theorem detectCorners_one_imgL (env : Env F) (bs : Size) (f : String) (img : Mat F)
    (st : FCState F) : (detectCorners env bs f img 1 st).2.imgL = st.imgL := by
  unfold detectCorners
  cases h : (env.findChessboardCorners img bs).1 <;> simp [h]

theorem detectCorners_one_imgR (env : Env F) (bs : Size) (f : String) (img : Mat F)
    (st : FCState F) :
    resizeThrows (detectCorners env bs f img 1 st).2.imgR
        = (if (env.findChessboardCorners img bs).1 = true then resizeThrows img
           else resizeThrows st.imgR) := by
  unfold detectCorners
  cases h : (env.findChessboardCorners img bs).1 <;> simp [h, resizeThrows]

theorem processImage_zero_imgs (env : Env F) (bs : Size) (l : List String) (i : Nat)
    (st : FCState F) :
    resizeThrows (processImage env bs l i 0 st).2.imgL
        = (if (env.imread (l.getD (i * 2 + 0) "")).empty = true then resizeThrows st.imgL
           else false) ∧
      (processImage env bs l i 0 st).2.imgR = st.imgR := by
  unfold processImage
  dsimp only
  generalize l.getD (i * 2 + 0) "" = f
  generalize env.imread f = img
  by_cases h1 : img.empty = true
  · simp [h1]
  · have hr := resizeThrows_of_not_empty img (by simpa using h1)
    by_cases h2 : st.imageSize = Size.default
    · simp [h1, h2, hr, detectCorners_zero_imgL, detectCorners_zero_imgR]
    · by_cases h3 : img.size = st.imageSize
      · simp [h1, h2, h3, hr, detectCorners_zero_imgL, detectCorners_zero_imgR]
      · simp [h1, h2, h3, hr]

theorem processImage_one_imgs (env : Env F) (bs : Size) (l : List String) (i : Nat)
    (st : FCState F) :
    (processImage env bs l i 1 st).2.imgL = st.imgL ∧
      resizeThrows (processImage env bs l i 1 st).2.imgR
        = (if (env.imread (l.getD (i * 2 + 1) "")).empty = true then resizeThrows st.imgR
           else false) := by
  unfold processImage
  dsimp only
  generalize l.getD (i * 2 + 1) "" = f
  generalize env.imread f = img
  by_cases h1 : img.empty = true
  · simp [h1]
  · have hr := resizeThrows_of_not_empty img (by simpa using h1)
    by_cases h2 : st.imageSize = Size.default
    · simp [h1, h2, hr, detectCorners_one_imgL, detectCorners_one_imgR]
    · by_cases h3 : img.size = st.imageSize
      · simp [h1, h2, h3, hr, detectCorners_one_imgL, detectCorners_one_imgR]
      · simp [h1, h2, h3, hr]

theorem imageOk_left (env : Env F) (bs : Size) (l : List String) (sz : Size) (i : Nat) :
    imageOk env bs sz (env.imread (l.getD (i * 2 + 0) ""))
      = (loads env (leftFile l i) &&
          decide ((env.imread (leftFile l i)).size = runSize env l sz i) &&
          detects env bs (leftFile l i)) := by
  unfold imageOk runSize loads detects leftFile
  simp only [Nat.add_zero]
  by_cases hs : sz = Size.default <;>
    cases hL : (env.imread (l.getD (i * 2) "")).empty <;> simp [hs, hL]

theorem processPair_threw (env : Env F) (bs : Size) (l : List String) (i : Nat)
    (st : FCState F) (hR : st.imgR = Mat.default) :
    mergeImagesThrows (processPair env bs l i st).2.imgL (processPair env bs l i st).2.imgR
      = !pairShown env bs l (runSize env l st.imageSize i) i := by
  have hok := imageOk_left env bs l st.imageSize i
  unfold pairShown mergeImagesThrows
  rw [processPair_snd]
  by_cases h0 : (processImage env bs l i 0 st).1 = true
  · simp only [h0, if_true]
    rw [(processImage_zero_imgs env bs l i st).2, hR, resizeThrows_default]
    rw [processImage_fst] at h0
    have : imageOk env bs st.imageSize (env.imread (l.getD (i * 2 + 0) "")) = false := by
      simpa using h0
    rw [hok] at this
    rw [this]
    simp
  · simp only [h0, if_false, Bool.false_eq_true]
    have hok0 : imageOk env bs st.imageSize (env.imread (l.getD (i * 2 + 0) "")) = true := by
      rw [processImage_fst] at h0
      simpa using h0
    have hne := imageOk_not_empty env bs _ _ hok0
    rw [(processImage_one_imgs env bs l i _).1, (processImage_one_imgs env bs l i _).2,
      (processImage_zero_imgs env bs l i st).1, (processImage_zero_imgs env bs l i st).2,
      hR, resizeThrows_default]
    rw [hok] at hok0
    rw [hok0]
    unfold loads rightFile
    simp only [hne, Bool.false_eq_true, if_false, Bool.false_or, Bool.true_and]
    cases hr : (env.imread (l.getD (i * 2 + 1) "")).empty <;> simp

theorem pairBody_threw (env : Env F) (bs : Size) (l : List String) (i : Nat)
    (st : FCState F) :
    mergeImagesThrows (pairBody env bs l i st).imgL (pairBody env bs l i st).imgR
      = !pairShown env bs l (runSize env l st.imageSize i) i := by
  have h := processPair_threw env bs l i { st with imgL := Mat.default, imgR := Mat.default }
    rfl
  unfold pairBody
  dsimp only
  split_ifs <;> exact h

theorem pairShown_of_good (env : Env F) (bs : Size) (l : List String) (sz : Size) (i : Nat)
    (h : pairGood env bs l sz i = true) : pairShown env bs l sz i = true := by
  unfold pairGood at h
  unfold pairShown
  simp only [Bool.and_eq_true, decide_eq_true_eq] at h ⊢
  tauto

/-! ### One pass of the loop -/

theorem pairBody_good (env : Env F) (bs : Size) (l : List String) (i : Nat)
    (st : FCState F) (h : pairGood env bs l (runSize env l st.imageSize i) i = true) :
    (pairBody env bs l i st).npairs = st.npairs + 1 ∧
    (pairBody env bs l i st).goodImageList
      = st.goodImageList ++ [leftFile l i, rightFile l i] ∧
    (pairBody env bs l i st).imagePoints0
      = st.imagePoints0.set st.npairs (refinedCorners env bs (leftFile l i)) ∧
    (pairBody env bs l i st).imagePoints1
      = st.imagePoints1.set st.npairs (refinedCorners env bs (rightFile l i)) := by
  have h2 := (processPair_fst env bs l i
    { st with imgL := Mat.default, imgR := Mat.default }).mpr h
  have hg := processPair_good env bs l i { st with imgL := Mat.default, imgR := Mat.default } h
  unfold pairBody
  dsimp only
  simp only [h2, beq_self_eq_true, if_true, processPair_npairs, processPair_goodImageList]
  exact ⟨trivial, rfl, hg.1, hg.2⟩

theorem pairBody_bad (env : Env F) (bs : Size) (l : List String) (i : Nat)
    (st : FCState F) (h : pairGood env bs l (runSize env l st.imageSize i) i = false) :
    (pairBody env bs l i st).npairs = st.npairs ∧
    (pairBody env bs l i st).goodImageList = st.goodImageList := by
  have h2 : ¬ (processPair env bs l i
      { st with imgL := Mat.default, imgR := Mat.default }).1 = 2 := by
    intro hh
    have := (processPair_fst env bs l i
      { st with imgL := Mat.default, imgR := Mat.default }).mp hh
    rw [h] at this
    exact Bool.false_ne_true this
  unfold pairBody
  dsimp only
  have h3 : ((processPair env bs l i
      { st with imgL := Mat.default, imgR := Mat.default }).1 == 2) = false := by
    simpa using h2
  simp only [h3, Bool.false_eq_true, if_false, processPair_npairs, processPair_goodImageList]
  exact ⟨trivial, trivial⟩

theorem pairBody_frame (env : Env F) (bs : Size) (l : List String) (i : Nat)
    (st : FCState F) :
    (pairBody env bs l i st).imageSize = runSize env l st.imageSize i ∧
    (pairBody env bs l i st).nimages = st.nimages ∧
    (pairBody env bs l i st).imagePoints0.length = st.imagePoints0.length ∧
    (pairBody env bs l i st).imagePoints1.length = st.imagePoints1.length ∧
    (pairBody env bs l i st).imagePoints0.take st.npairs = st.imagePoints0.take st.npairs ∧
    (pairBody env bs l i st).imagePoints1.take st.npairs
      = st.imagePoints1.take st.npairs := by
  have hsz := processPair_imageSize env bs l i
    { st with imgL := Mat.default, imgR := Mat.default }
  have hn := processPair_nimages env bs l i
    { st with imgL := Mat.default, imgR := Mat.default }
  have h0 := processPair_imagePoints0 env bs l i
    { st with imgL := Mat.default, imgR := Mat.default }
  have h1 := processPair_imagePoints1 env bs l i
    { st with imgL := Mat.default, imgR := Mat.default }
  have e0 : (pairBody env bs l i st).imagePoints0 = (processPair env bs l i
      { st with imgL := Mat.default, imgR := Mat.default }).2.imagePoints0 := by
    unfold pairBody; dsimp only; split_ifs <;> rfl
  have e1 : (pairBody env bs l i st).imagePoints1 = (processPair env bs l i
      { st with imgL := Mat.default, imgR := Mat.default }).2.imagePoints1 := by
    unfold pairBody; dsimp only; split_ifs <;> rfl
  have es : (pairBody env bs l i st).imageSize = (processPair env bs l i
      { st with imgL := Mat.default, imgR := Mat.default }).2.imageSize := by
    unfold pairBody; dsimp only; split_ifs <;> rfl
  have en : (pairBody env bs l i st).nimages = (processPair env bs l i
      { st with imgL := Mat.default, imgR := Mat.default }).2.nimages := by
    unfold pairBody; dsimp only; split_ifs <;> rfl
  rw [e0, e1, es, en, hsz, hn]
  refine ⟨rfl, rfl, ?_, ?_, ?_, ?_⟩
  · rw [h0]; split_ifs <;> simp
  · rcases h1 with h1 | h1 <;> rw [h1]
    simp
  · rw [h0]; split_ifs
    · exact take_set_self _ _ _
    · rfl
  · rcases h1 with h1 | h1 <;> rw [h1]
    exact take_set_self _ _ _

theorem pairStep_fields (env : Env F) (bs : Size) (d : Int) (l : List String) (i : Nat)
    (st : FCState F) :
    (pairStep env bs d l i st).npairs = (pairBody env bs l i st).npairs ∧
    (pairStep env bs d l i st).goodImageList = (pairBody env bs l i st).goodImageList ∧
    (pairStep env bs d l i st).imagePoints0 = (pairBody env bs l i st).imagePoints0 ∧
    (pairStep env bs d l i st).imagePoints1 = (pairBody env bs l i st).imagePoints1 ∧
    (pairStep env bs d l i st).imageSize = (pairBody env bs l i st).imageSize ∧
    (pairStep env bs d l i st).nimages = (pairBody env bs l i st).nimages ∧
    (pairStep env bs d l i st).imgL = (pairBody env bs l i st).imgL ∧
    (pairStep env bs d l i st).imgR = (pairBody env bs l i st).imgR := by
  unfold pairStep
  dsimp only
  split_ifs <;>
    simp only [emit_npairs, emit_goodImageList, emit_imagePoints0, emit_imagePoints1,
      emit_imageSize, emit_nimages, emit_imgL, emit_imgR, and_self]

theorem pairStep_threw (env : Env F) (bs : Size) (d : Int) (l : List String) (i : Nat)
    (st : FCState F) :
    mergeImagesThrows (pairStep env bs d l i st).imgL (pairStep env bs d l i st).imgR
      = !pairShown env bs l (runSize env l st.imageSize i) i := by
  obtain ⟨-, -, -, -, -, -, hL, hR⟩ := pairStep_fields env bs d l i st
  rw [hL, hR]
  exact pairBody_threw env bs l i st

theorem pairStep_good (env : Env F) (bs : Size) (d : Int) (l : List String) (i : Nat)
    (st : FCState F) (h : pairGood env bs l (runSize env l st.imageSize i) i = true) :
    (pairStep env bs d l i st).npairs = st.npairs + 1 ∧
    (pairStep env bs d l i st).goodImageList
      = st.goodImageList ++ [leftFile l i, rightFile l i] ∧
    (pairStep env bs d l i st).imagePoints0
      = st.imagePoints0.set st.npairs (refinedCorners env bs (leftFile l i)) ∧
    (pairStep env bs d l i st).imagePoints1
      = st.imagePoints1.set st.npairs (refinedCorners env bs (rightFile l i)) := by
  obtain ⟨h1, h2, h3, h4, -⟩ := pairStep_fields env bs d l i st
  rw [h1, h2, h3, h4]
  exact pairBody_good env bs l i st h

theorem pairStep_bad (env : Env F) (bs : Size) (d : Int) (l : List String) (i : Nat)
    (st : FCState F) (h : pairGood env bs l (runSize env l st.imageSize i) i = false) :
    (pairStep env bs d l i st).npairs = st.npairs ∧
    (pairStep env bs d l i st).goodImageList = st.goodImageList := by
  obtain ⟨h1, h2, -⟩ := pairStep_fields env bs d l i st
  rw [h1, h2]
  exact pairBody_bad env bs l i st h

theorem pairStep_frame (env : Env F) (bs : Size) (d : Int) (l : List String) (i : Nat)
    (st : FCState F) :
    (pairStep env bs d l i st).imageSize = runSize env l st.imageSize i ∧
    (pairStep env bs d l i st).nimages = st.nimages ∧
    (pairStep env bs d l i st).imagePoints0.length = st.imagePoints0.length ∧
    (pairStep env bs d l i st).imagePoints1.length = st.imagePoints1.length ∧
    (pairStep env bs d l i st).imagePoints0.take st.npairs = st.imagePoints0.take st.npairs ∧
    (pairStep env bs d l i st).imagePoints1.take st.npairs
      = st.imagePoints1.take st.npairs := by
  obtain ⟨-, -, h3, h4, h5, h6, -⟩ := pairStep_fields env bs d l i st
  rw [h3, h4, h5, h6]
  exact pairBody_frame env bs l i st

/-- What one pass does to the counters and the corner lists, with `acc` the list that holds
the index of the pair if the pair is good and nothing otherwise. -/
theorem pairStep_spec (env : Env F) (bs : Size) (d : Int) (l : List String) (i : Nat)
    (st : FCState F) (hlt0 : st.npairs < st.imagePoints0.length)
    (hlt1 : st.npairs < st.imagePoints1.length) (acc : List Nat)
    (hacc : acc = if pairGood env bs l (runSize env l st.imageSize i) i = true then [i]
      else []) :
    (pairStep env bs d l i st).npairs = st.npairs + acc.length ∧
    (pairStep env bs d l i st).goodImageList = st.goodImageList ++ acceptedFiles l acc ∧
    (pairStep env bs d l i st).imagePoints0.length = st.imagePoints0.length ∧
    (pairStep env bs d l i st).imagePoints1.length = st.imagePoints1.length ∧
    (pairStep env bs d l i st).imagePoints0.take (pairStep env bs d l i st).npairs
      = st.imagePoints0.take st.npairs
        ++ acc.map (fun j => refinedCorners env bs (leftFile l j)) ∧
    (pairStep env bs d l i st).imagePoints1.take (pairStep env bs d l i st).npairs
      = st.imagePoints1.take st.npairs
        ++ acc.map (fun j => refinedCorners env bs (rightFile l j)) := by
  obtain ⟨-, -, hl0, hl1, ht0, ht1⟩ := pairStep_frame env bs d l i st
  cases hg : pairGood env bs l (runSize env l st.imageSize i) i
  · obtain ⟨hn, hgl⟩ := pairStep_bad env bs d l i st hg
    rw [hg] at hacc
    simp only [Bool.false_eq_true, if_false] at hacc
    subst hacc
    rw [hn]
    simp only [List.length_nil, Nat.add_zero, acceptedFiles, List.flatMap_nil,
      List.append_nil, List.map_nil]
    exact ⟨trivial, hgl, hl0, hl1, ht0, ht1⟩
  · obtain ⟨hn, hgl, hp0, hp1⟩ := pairStep_good env bs d l i st hg
    rw [hg] at hacc
    simp only [if_true] at hacc
    subst hacc
    rw [hn]
    simp only [List.length_singleton, acceptedFiles, List.flatMap_cons, List.flatMap_nil,
      List.append_nil, List.map_cons, List.map_nil]
    refine ⟨trivial, hgl, hl0, hl1, ?_, ?_⟩
    · rw [hp0]; exact take_succ_set _ _ _ hlt0
    · rw [hp1]; exact take_succ_set _ _ _ hlt1

theorem pairLoop_succ_throw (env : Env F) (bs : Size) (d : Int) (l : List String)
    (rem i : Nat) (st : FCState F)
    (hs : pairShown env bs l (runSize env l st.imageSize i) i = false) :
    pairLoop env bs d l (rem + 1) i st = (true, pairStep env bs d l i st) := by
  simp [pairLoop, pairStep_threw, hs]

theorem pairLoop_succ_quit (env : Env F) (bs : Size) (d : Int) (l : List String)
    (rem i : Nat) (st : FCState F)
    (hs : pairShown env bs l (runSize env l st.imageSize i) i = true)
    (hq : isQuitKey (env.waitKey i) = true) :
    pairLoop env bs d l (rem + 1) i st = (false, pairStep env bs d l i st) := by
  simp [pairLoop, pairStep_threw, hs, hq]

theorem pairLoop_succ_cont (env : Env F) (bs : Size) (d : Int) (l : List String)
    (rem i : Nat) (st : FCState F)
    (hs : pairShown env bs l (runSize env l st.imageSize i) i = true)
    (hq : isQuitKey (env.waitKey i) = false) :
    pairLoop env bs d l (rem + 1) i st
      = pairLoop env bs d l rem (i + 1) (pairStep env bs d l i st) := by
  simp [pairLoop, pairStep_threw, hs, hq]

theorem acceptedFrom_succ_stop (env : Env F) (bs : Size) (l : List String)
    (rem i : Nat) (sz : Size)
    (h : pairShown env bs l (runSize env l sz i) i = false ∨
      isQuitKey (env.waitKey i) = true) :
    acceptedFrom env bs l (rem + 1) i sz
      = if pairGood env bs l (runSize env l sz i) i = true then [i] else [] := by
  rcases h with h | h <;> simp [acceptedFrom, h]

theorem acceptedFrom_succ_cont (env : Env F) (bs : Size) (l : List String)
    (rem i : Nat) (sz : Size)
    (hs : pairShown env bs l (runSize env l sz i) i = true)
    (hq : isQuitKey (env.waitKey i) = false) :
    acceptedFrom env bs l (rem + 1) i sz
      = (if pairGood env bs l (runSize env l sz i) i = true then [i] else []) ++
        acceptedFrom env bs l rem (i + 1) (runSize env l sz i) := by
  simp [acceptedFrom, hs, hq]

theorem throwsFrom_succ (env : Env F) (bs : Size) (l : List String) (rem i : Nat)
    (sz : Size) :
    throwsFrom env bs l (rem + 1) i sz
      = if pairShown env bs l (runSize env l sz i) i = false then true
        else if isQuitKey (env.waitKey i) = true then false
        else throwsFrom env bs l rem (i + 1) (runSize env l sz i) := by
  cases hs : pairShown env bs l (runSize env l sz i) i <;>
    cases hq : isQuitKey (env.waitKey i) <;> simp [throwsFrom, hs, hq]

theorem acceptedFiles_append (l : List String) (a b : List Nat) :
    acceptedFiles l (a ++ b) = acceptedFiles l a ++ acceptedFiles l b := by
  unfold acceptedFiles
  rw [List.flatMap_append]

theorem pairLoop_spec (env : Env F) (bs : Size) (d : Int) (l : List String) :
    ∀ (rem i : Nat) (st : FCState F),
      st.npairs + rem ≤ st.imagePoints0.length →
      st.npairs + rem ≤ st.imagePoints1.length →
      (pairLoop env bs d l rem i st).1 = throwsFrom env bs l rem i st.imageSize ∧
      (pairLoop env bs d l rem i st).2.npairs
        = st.npairs + (acceptedFrom env bs l rem i st.imageSize).length ∧
      (pairLoop env bs d l rem i st).2.goodImageList
        = st.goodImageList ++ acceptedFiles l (acceptedFrom env bs l rem i st.imageSize) ∧
      (pairLoop env bs d l rem i st).2.imagePoints0.length = st.imagePoints0.length ∧
      (pairLoop env bs d l rem i st).2.imagePoints1.length = st.imagePoints1.length ∧
      (pairLoop env bs d l rem i st).2.imagePoints0.take
          (pairLoop env bs d l rem i st).2.npairs
        = st.imagePoints0.take st.npairs ++
          (acceptedFrom env bs l rem i st.imageSize).map
            (fun j => refinedCorners env bs (leftFile l j)) ∧
      (pairLoop env bs d l rem i st).2.imagePoints1.take
          (pairLoop env bs d l rem i st).2.npairs
        = st.imagePoints1.take st.npairs ++
          (acceptedFrom env bs l rem i st.imageSize).map
            (fun j => refinedCorners env bs (rightFile l j)) := by
  intro rem
  induction rem with
  | zero =>
    intro i st _ _
    simp [pairLoop, acceptedFrom, throwsFrom, acceptedFiles]
  | succ rem ih =>
    intro i st hb0 hb1
    have hsz := (pairStep_frame env bs d l i st).1
    obtain ⟨hn, hgl, hl0, hl1, hk0, hk1⟩ := pairStep_spec env bs d l i st (by omega)
      (by omega) _ rfl
    have hlen : (if pairGood env bs l (runSize env l st.imageSize i) i = true then [i]
        else ([] : List Nat)).length ≤ 1 := by
      split_ifs <;> simp
    rw [throwsFrom_succ]
    cases hs : pairShown env bs l (runSize env l st.imageSize i) i
    · rw [pairLoop_succ_throw env bs d l rem i st hs,
        acceptedFrom_succ_stop env bs l rem i st.imageSize (Or.inl hs)]
      exact ⟨by simp, hn, hgl, hl0, hl1, hk0, hk1⟩
    · cases hq : isQuitKey (env.waitKey i)
      · obtain ⟨t0, t1, t2, t3, t4, t5, t6⟩ := ih (i + 1) (pairStep env bs d l i st)
          (by rw [hn, hl0]; omega) (by rw [hn, hl1]; omega)
        rw [pairLoop_succ_cont env bs d l rem i st hs hq,
          acceptedFrom_succ_cont env bs l rem i st.imageSize hs hq]
        rw [hsz] at t0 t1 t2 t5 t6
        refine ⟨by simpa using t0, ?_, ?_, by rw [t3, hl0], by rw [t4, hl1], ?_, ?_⟩
        · rw [t1, hn, List.length_append]; omega
        · rw [t2, hgl, acceptedFiles_append, List.append_assoc]
        · rw [t5, hk0, List.map_append, List.append_assoc]
        · rw [t6, hk1, List.map_append, List.append_assoc]
      · rw [pairLoop_succ_quit env bs d l rem i st hs hq,
          acceptedFrom_succ_stop env bs l rem i st.imageSize (Or.inr hq)]
        exact ⟨by simp, hn, hgl, hl0, hl1, hk0, hk1⟩

/-! ### What the collector writes to the trace -/

theorem filter_emit (q : Event F → Bool) (st : FCState F) (e : Event F) (h : q e = false) :
    (st.emit e).trace.filter q = st.trace.filter q := by
  simp [List.filter_append, h]

theorem detectCorners_solve (env : Env F) (bs : Size) (f : String) (img : Mat F) (k : Nat)
    (st : FCState F) :
    (detectCorners env bs f img k st).2.trace.filter Event.isSolveOrWrite
      = st.trace.filter Event.isSolveOrWrite := by
  unfold detectCorners
  cases h : (env.findChessboardCorners img bs).1 <;>
    simp [h, List.filter_append, Event.isSolveOrWrite]

theorem processImage_solve (env : Env F) (bs : Size) (l : List String) (i k : Nat)
    (st : FCState F) :
    (processImage env bs l i k st).2.trace.filter Event.isSolveOrWrite
      = st.trace.filter Event.isSolveOrWrite := by
  unfold processImage
  dsimp only
  generalize l.getD (i * 2 + k) "" = f
  generalize env.imread f = img
  by_cases h1 : img.empty = true
  · simp [h1, List.filter_append, Event.isSolveOrWrite]
  · by_cases h2 : st.imageSize = Size.default
    · simp [h1, h2, detectCorners_solve, List.filter_append, Event.isSolveOrWrite]
    · by_cases h3 : img.size = st.imageSize
      · simp [h1, h2, h3, detectCorners_solve, List.filter_append, Event.isSolveOrWrite]
      · simp [h1, h2, h3, List.filter_append, Event.isSolveOrWrite]

theorem processPair_solve (env : Env F) (bs : Size) (l : List String) (i : Nat)
    (st : FCState F) :
    (processPair env bs l i st).2.trace.filter Event.isSolveOrWrite
      = st.trace.filter Event.isSolveOrWrite := by
  rw [processPair_snd]
  split_ifs <;> simp [processImage_solve]

theorem pairBody_solve (env : Env F) (bs : Size) (l : List String) (i : Nat)
    (st : FCState F) :
    (pairBody env bs l i st).trace.filter Event.isSolveOrWrite
      = st.trace.filter Event.isSolveOrWrite := by
  have h := processPair_solve env bs l i { st with imgL := Mat.default, imgR := Mat.default }
  unfold pairBody
  dsimp only
  split_ifs <;> exact h

theorem pairStep_solve (env : Env F) (bs : Size) (d : Int) (l : List String) (i : Nat)
    (st : FCState F) :
    (pairStep env bs d l i st).trace.filter Event.isSolveOrWrite
      = st.trace.filter Event.isSolveOrWrite := by
  have h := pairBody_solve env bs l i st
  unfold pairStep
  dsimp only
  split_ifs <;>
    simpa [List.filter_append, Event.isSolveOrWrite] using h

theorem pairLoop_solve (env : Env F) (bs : Size) (d : Int) (l : List String) :
    ∀ (rem i : Nat) (st : FCState F),
      (pairLoop env bs d l rem i st).2.trace.filter Event.isSolveOrWrite
        = st.trace.filter Event.isSolveOrWrite := by
  intro rem
  induction rem with
  | zero => intro i st; rfl
  | succ rem ih =>
    intro i st
    cases hs : pairShown env bs l (runSize env l st.imageSize i) i
    · rw [pairLoop_succ_throw env bs d l rem i st hs, pairStep_solve]
    · cases hq : isQuitKey (env.waitKey i)
      · rw [pairLoop_succ_cont env bs d l rem i st hs hq, ih, pairStep_solve]
      · rw [pairLoop_succ_quit env bs d l rem i st hs hq, pairStep_solve]

theorem collectFinish_solve (st : FCState F) :
    (collectFinish st).2.trace.filter Event.isSolveOrWrite
      = st.trace.filter Event.isSolveOrWrite := by
  unfold collectFinish
  dsimp only
  split_ifs <;> simp [List.filter_append, Event.isSolveOrWrite]

theorem findCorners_solve (env : Env F) (bs : Size) (d : Int) (l : List String)
    (st : FCState F) :
    (findCorners env bs d l st).2.trace.filter Event.isSolveOrWrite
      = st.trace.filter Event.isSolveOrWrite := by
  unfold findCorners
  dsimp only
  split_ifs
  · simp [List.filter_append, Event.isSolveOrWrite]
  · rw [pairLoop_solve]
    rfl
  · rw [collectFinish_solve, pairLoop_solve]
    rfl

/-! ### The image size of the run -/

theorem runSize_of_ne_default (env : Env F) (l : List String) (sz : Size) (i : Nat)
    (h : sz ≠ Size.default) : runSize env l sz i = sz := by
  unfold runSize
  simp [h]

theorem pairLoop_imageSize (env : Env F) (bs : Size) (d : Int) (l : List String) :
    ∀ (rem i : Nat) (st : FCState F), st.imageSize ≠ Size.default →
      (pairLoop env bs d l rem i st).2.imageSize = st.imageSize := by
  intro rem
  induction rem with
  | zero => intro i st _; rfl
  | succ rem ih =>
    intro i st h
    have hs : (pairStep env bs d l i st).imageSize = st.imageSize := by
      rw [(pairStep_frame env bs d l i st).1, runSize_of_ne_default env l _ i h]
    cases hsh : pairShown env bs l (runSize env l st.imageSize i) i
    · rw [pairLoop_succ_throw env bs d l rem i st hsh, hs]
    · cases hq : isQuitKey (env.waitKey i)
      · rw [pairLoop_succ_cont env bs d l rem i st hsh hq, ih _ _ (by rw [hs]; exact h), hs]
      · rw [pairLoop_succ_quit env bs d l rem i st hsh hq, hs]

/-! ### The result of `findCorners` -/

theorem vecResize_length {α : Type} (v : List α) (n : Nat) (fill : α) :
    (vecResize v n fill).length = n := by
  unfold vecResize
  simp
  omega

theorem vecResize_of_le {α : Type} (v : List α) (n : Nat) (fill : α) (h : n ≤ v.length) :
    vecResize v n fill = v.take n := by
  unfold vecResize
  simp [Nat.sub_eq_zero_of_le h]

theorem findCorners_of_even (env : Env F) (bs : Size) (d : Int) (l : List String)
    (st : FCState F) (he : l.length % 2 = 0) :
    findCorners env bs d l st
      = if (pairLoop env bs d l (l.length / 2) 0 (collectInit l st)).1 = true then
          (none, (pairLoop env bs d l (l.length / 2) 0 (collectInit l st)).2)
        else
          (some (collectFinish (pairLoop env bs d l (l.length / 2) 0 (collectInit l st)).2).1,
            (collectFinish (pairLoop env bs d l (l.length / 2) 0 (collectInit l st)).2).2) := by
  unfold findCorners
  simp only [he, ne_eq, not_true_eq_false, if_false]
  rfl

theorem findCorners_even (env : Env F) (bs : Size) (d : Int) (l : List String)
    (st : FCState F) (he : l.length % 2 = 0) :
    (findCorners env bs d l st).1
        = (if collectionThrows env bs l st.imageSize = true then none
           else if (acceptedPairs env bs l st.imageSize).length < 2 then some (-1)
           else some 0) ∧
    (findCorners env bs d l st).2.npairs = (acceptedPairs env bs l st.imageSize).length ∧
    ((findCorners env bs d l st).1 ≠ none →
      (findCorners env bs d l st).2.nimages
        = (acceptedPairs env bs l st.imageSize).length) ∧
    (findCorners env bs d l st).2.goodImageList
        = st.goodImageList ++ acceptedFiles l (acceptedPairs env bs l st.imageSize) ∧
    ((findCorners env bs d l st).1 = some 0 →
      (findCorners env bs d l st).2.imagePoints0
          = (acceptedPairs env bs l st.imageSize).map
              (fun j => refinedCorners env bs (leftFile l j)) ∧
      (findCorners env bs d l st).2.imagePoints1
          = (acceptedPairs env bs l st.imageSize).map
              (fun j => refinedCorners env bs (rightFile l j))) := by
  have hspec := pairLoop_spec env bs d l (l.length / 2) 0 (collectInit l st)
    (by simp [collectInit, vecResize_length]) (by simp [collectInit, vecResize_length])
  obtain ⟨hthr, hn, hgl, hl0, hl1, ht0, ht1⟩ := hspec
  have hsz : (collectInit l st).imageSize = st.imageSize := rfl
  have hnp : (collectInit l st).npairs = 0 := rfl
  have hg0 : (collectInit l st).goodImageList = st.goodImageList := rfl
  rw [hsz, hnp] at hn ht0 ht1
  rw [hsz, hg0] at hgl
  rw [hsz] at hthr
  simp only [Nat.zero_add, List.take_zero, List.nil_append] at hn ht0 ht1
  have hacc : acceptedFrom env bs l (l.length / 2) 0 st.imageSize
      = acceptedPairs env bs l st.imageSize := rfl
  have hthrows : throwsFrom env bs l (l.length / 2) 0 st.imageSize
      = collectionThrows env bs l st.imageSize := rfl
  rw [hacc] at hn hgl ht0 ht1
  rw [hthrows] at hthr
  have hle0 : (pairLoop env bs d l (l.length / 2) 0 (collectInit l st)).2.npairs
      ≤ (pairLoop env bs d l (l.length / 2) 0 (collectInit l st)).2.imagePoints0.length := by
    have := congrArg List.length ht0
    simp only [List.length_take, List.length_map] at this
    omega
  have hle1 : (pairLoop env bs d l (l.length / 2) 0 (collectInit l st)).2.npairs
      ≤ (pairLoop env bs d l (l.length / 2) 0 (collectInit l st)).2.imagePoints1.length := by
    have := congrArg List.length ht1
    simp only [List.length_take, List.length_map] at this
    omega
  rw [findCorners_of_even env bs d l st he, hthr]
  generalize (pairLoop env bs d l (l.length / 2) 0 (collectInit l st)).2 = fin at *
  by_cases hc : collectionThrows env bs l st.imageSize = true
  · simp only [hc, if_true]
    refine ⟨trivial, hn, fun h => absurd rfl h, hgl, ?_⟩
    intro h
    exact absurd h (by simp)
  · simp only [hc, if_false, Bool.false_eq_true]
    unfold collectFinish
    dsimp only
    by_cases h2 : fin.npairs < 2
    · have h2' : (acceptedPairs env bs l st.imageSize).length < 2 := by rw [← hn]; exact h2
      simp only [emit_npairs, h2, h2', if_true, emit_nimages, emit_goodImageList]
      refine ⟨trivial, hn, fun _ => hn, hgl, ?_⟩
      intro h; simp at h
    · have h2' : ¬ (acceptedPairs env bs l st.imageSize).length < 2 := by
        rw [← hn]; exact h2
      simp only [emit_npairs, h2, h2', if_false, emit_imagePoints0, emit_imagePoints1,
        emit_goodImageList]
      refine ⟨trivial, hn, fun _ => hn, hgl, ?_⟩
      intro _
      constructor
      · rw [vecResize_of_le _ _ _ hle0]; exact ht0
      · rw [vecResize_of_le _ _ _ hle1]; exact ht1

end CollectorLemmas
end StereoCalib

/-! ## Theorems -/

theorem length_flatMap_map {α β γ : Type} (g : α → β → γ) (js : List β) (is : List α) :
    (is.flatMap (fun i => js.map (g i))).length = is.length * js.length := by
  induction is with
  | nil => simp
  | cons i is ih =>
    rw [List.flatMap_cons, List.length_append, ih]
    simp [Nat.succ_mul, Nat.add_comm]

theorem boardGrid_length {F : Type} [Mul F] [IntCast F] [Zero F] (boardSize : Size)
    (squareSize : F) :
    (boardGrid boardSize squareSize).length
      = boardSize.height.toNat * boardSize.width.toNat := by
  unfold boardGrid
  rw [length_flatMap_map (fun (i j : Nat) => Point3f.mk (((i : Int) : F) * squareSize)
    (((j : Int) : F) * squareSize) 0)]
  simp

theorem boardGrid_z {F : Type} [Mul F] [IntCast F] [Zero F] (boardSize : Size)
    (squareSize : F) : ∀ p ∈ boardGrid boardSize squareSize, p.z = 0 := by
  intro p hp
  unfold boardGrid at hp
  simp only [List.mem_flatMap, List.mem_map] at hp
  obtain ⟨i, _, j, _, rfl⟩ := hp
  rfl

theorem stereo_calcBoardCornerPositions_eq {F : Type} [Mul F] [IntCast F] [Zero F]
    (boardSize : Size) (squareSize : F) (corners : List (List (Point3f F))) :
    StereoCalib.calcBoardCornerPositions boardSize squareSize corners
      = corners.map (· ++ boardGrid boardSize squareSize) := by
  unfold StereoCalib.calcBoardCornerPositions
  rw [foldl_slots_upto (boardGrid boardSize squareSize) _ ?_ corners.length corners
    (Nat.le_refl _)]
  · simp
  · intro cs n hn
    exact foldl_push_rows
      (fun (i j : Nat) => Point3f.mk (((i : Int) : F) * squareSize)
        (((j : Int) : F) * squareSize) 0)
      n (List.range boardSize.width.toNat) (List.range boardSize.height.toNat) cs hn

theorem buildObjectPoints_eq {F : Type} [Mul F] [IntCast F] [Zero F]
    (boardSize : Size) (squareSize : F) (n : Nat) :
    StereoCalib.buildObjectPoints boardSize squareSize n
      = List.replicate n (boardGrid boardSize squareSize) := by
  unfold StereoCalib.buildObjectPoints
  dsimp only
  rw [stereo_calcBoardCornerPositions_eq]
  simp [vecResize]

/-- C1. For a board of `w > 0` by `h > 0` corners, any square size and any number `n` of
accepted pairs, the object points built in `stereoCalib` (resize to `n` empty entries, then
`calcBoardCornerPositions`) are `n` entries of exactly `w * h` points each, every point has
`z = 0`, and all entries are equal. -/
theorem objectPoints_shape {F : Type} [Mul F] [IntCast F] [Zero F]
    (w h : Int) (squareSize : F) (n : Nat) (hw : 0 < w) (hh : 0 < h) :
    (StereoCalib.buildObjectPoints ⟨w, h⟩ squareSize n).length = n ∧
    (∀ e ∈ StereoCalib.buildObjectPoints ⟨w, h⟩ squareSize n,
      (e.length : Int) = w * h ∧ ∀ p ∈ e, p.z = 0) ∧
    (∀ a ∈ StereoCalib.buildObjectPoints ⟨w, h⟩ squareSize n,
      ∀ b ∈ StereoCalib.buildObjectPoints ⟨w, h⟩ squareSize n, a = b) := by
  rw [buildObjectPoints_eq]
  refine ⟨by simp, ?_, ?_⟩
  · intro e he
    rw [List.eq_of_mem_replicate he]
    refine ⟨?_, boardGrid_z _ _⟩
    rw [boardGrid_length]
    push_cast
    rw [Int.toNat_of_nonneg (le_of_lt hw), Int.toNat_of_nonneg (le_of_lt hh)]
    ring
  · intro a ha b hb
    rw [List.eq_of_mem_replicate ha, List.eq_of_mem_replicate hb]

/-- C1, instance: the board of the source (6 by 5 corners, 30 mm squares) and two pairs. -/
theorem objectPoints_shape_witness :
    (0 : Int) < 6 ∧ (0 : Int) < 5 ∧
    (StereoCalib.buildObjectPoints ⟨6, 5⟩ (30 : Int) 2).length = 2 ∧
    (∀ e ∈ StereoCalib.buildObjectPoints ⟨6, 5⟩ (30 : Int) 2,
      (e.length : Int) = 6 * 5 ∧ ∀ p ∈ e, p.z = 0) ∧
    (∀ a ∈ StereoCalib.buildObjectPoints ⟨6, 5⟩ (30 : Int) 2,
      ∀ b ∈ StereoCalib.buildObjectPoints ⟨6, 5⟩ (30 : Int) 2, a = b) :=
  ⟨by decide, by decide, objectPoints_shape 6 5 30 2 (by decide) (by decide)⟩

/-- C2. For an image list of odd length `findCorners` returns -1 having done nothing but
print the error: no image is loaded and the detector is not called (the trace grows by the
one console line only), and the corner lists, the image size and `goodImageList` are
unchanged. -/
theorem findCorners_odd_rejected {F : Type} (env : Env F) (boardSize : Size) (delay_ms : Int)
    (imageList : List String) (st : StereoCalib.FCState F)
    (hodd : imageList.length % 2 = 1) :
    (StereoCalib.findCorners env boardSize delay_ms imageList st).1 = some (-1) ∧
    (StereoCalib.findCorners env boardSize delay_ms imageList st).2.trace
      = st.trace ++ [Event.cout "Error: the image list contains odd number of elements!"] ∧
    (StereoCalib.findCorners env boardSize delay_ms imageList st).2.imagePoints0
      = st.imagePoints0 ∧
    (StereoCalib.findCorners env boardSize delay_ms imageList st).2.imagePoints1
      = st.imagePoints1 ∧
    (StereoCalib.findCorners env boardSize delay_ms imageList st).2.imageSize
      = st.imageSize ∧
    (StereoCalib.findCorners env boardSize delay_ms imageList st).2.goodImageList
      = st.goodImageList := by
  unfold StereoCalib.findCorners
  have h : imageList.length % 2 ≠ 0 := by omega
  rw [if_pos h]
  exact ⟨rfl, rfl, rfl, rfl, rfl, rfl⟩

/-- C2, instance: a list of three names, the first of which would load. -/
theorem findCorners_odd_rejected_witness :
    ["l1", "r1", "l3"].length % 2 = 1 ∧
    (StereoCalib.findCorners Demo.env ⟨6, 5⟩ 300 ["l1", "r1", "l3"] Demo.st0).1
      = some (-1) ∧
    (StereoCalib.findCorners Demo.env ⟨6, 5⟩ 300 ["l1", "r1", "l3"] Demo.st0).2.trace
      = Demo.st0.trace ++
        [Event.cout "Error: the image list contains odd number of elements!"] ∧
    (StereoCalib.findCorners Demo.env ⟨6, 5⟩ 300 ["l1", "r1", "l3"] Demo.st0).2.imagePoints0
      = Demo.st0.imagePoints0 ∧
    (StereoCalib.findCorners Demo.env ⟨6, 5⟩ 300 ["l1", "r1", "l3"] Demo.st0).2.imagePoints1
      = Demo.st0.imagePoints1 ∧
    (StereoCalib.findCorners Demo.env ⟨6, 5⟩ 300 ["l1", "r1", "l3"] Demo.st0).2.imageSize
      = Demo.st0.imageSize ∧
    (StereoCalib.findCorners Demo.env ⟨6, 5⟩ 300 ["l1", "r1", "l3"] Demo.st0).2.goodImageList
      = Demo.st0.goodImageList :=
  ⟨by decide,
    findCorners_odd_rejected Demo.env ⟨6, 5⟩ 300 ["l1", "r1", "l3"] Demo.st0 (by decide)⟩

theorem stereoCalib_of_failure {F : Type} [Mul F] [IntCast F] [Zero F] [One F]
    (c : CalibConsts) (env : Env F) (p : StereoCalib.Params F) (imageList : List String)
    (boardSize : Size) (showRectified : Bool) (run : StereoCalib.Run F)
    (h : (StereoCalib.findCorners env p.boardSize p.delay_ms imageList
      (StereoCalib.initialFCState run)).1 ≠ some 0) :
    StereoCalib.stereoCalib c env p imageList boardSize showRectified run =
      { run with
        goodImageList := (StereoCalib.findCorners env p.boardSize p.delay_ms imageList
          (StereoCalib.initialFCState run)).2.goodImageList
        trace := (StereoCalib.findCorners env p.boardSize p.delay_ms imageList
          (StereoCalib.initialFCState run)).2.trace
        thrown := if (StereoCalib.findCorners env p.boardSize p.delay_ms imageList
          (StereoCalib.initialFCState run)).1 = none then true else run.thrown } := by
  unfold StereoCalib.stereoCalib
  dsimp only
  by_cases hn : (StereoCalib.findCorners env p.boardSize p.delay_ms imageList
      (StereoCalib.initialFCState run)).1 = none
  · rw [if_pos hn, if_pos hn]
  · rw [if_neg hn, if_pos h, if_neg hn]

/-- C3. For an even-length image list and any load and detection outcomes and key presses
under which fewer than two pairs are accepted, `stereoCalib` ends right after
`findCorners`: the artifact files are unchanged and its trace is that of `findCorners`,
which holds no solver call and no file write beyond those already there.  But `findCorners`
returns -1 only when no pass of its loop is left by the exception of the unguarded call of
`mergeImages` (`collectionThrows`): when one is, `findCorners` returns nothing and
`stereoCalib` is left by the same exception. -/
theorem few_pairs_abort_or_throw {F : Type} [Mul F] [IntCast F] [Zero F] [One F]
    (c : CalibConsts) (env : Env F) (p : StereoCalib.Params F) (imageList : List String)
    (boardSize : Size) (showRectified : Bool) (run : StereoCalib.Run F)
    (heven : imageList.length % 2 = 0)
    (hfew : (acceptedPairs env p.boardSize imageList Size.default).length < 2) :
    (StereoCalib.findCorners env p.boardSize p.delay_ms imageList
        (StereoCalib.initialFCState run)).1
      = (if collectionThrows env p.boardSize imageList Size.default = true then none
         else some (-1)) ∧
    (StereoCalib.stereoCalib c env p imageList boardSize showRectified run).thrown
      = (if collectionThrows env p.boardSize imageList Size.default = true then true
         else run.thrown) ∧
    (StereoCalib.stereoCalib c env p imageList boardSize showRectified run).files
      = run.files ∧
    (StereoCalib.stereoCalib c env p imageList boardSize showRectified run).trace
      = (StereoCalib.findCorners env p.boardSize p.delay_ms imageList
          (StereoCalib.initialFCState run)).2.trace ∧
    (StereoCalib.stereoCalib c env p imageList boardSize showRectified run).trace.filter
        Event.isSolveOrWrite
      = run.trace.filter Event.isSolveOrWrite := by
  have hfc := StereoCalib.findCorners_even env p.boardSize p.delay_ms imageList
    (StereoCalib.initialFCState run) heven
  have hsz : (StereoCalib.initialFCState run).imageSize = Size.default := rfl
  have hret : (StereoCalib.findCorners env p.boardSize p.delay_ms imageList
      (StereoCalib.initialFCState run)).1
      = (if collectionThrows env p.boardSize imageList Size.default = true then none
         else some (-1)) := by
    rw [hfc.1, hsz]
    simp [hfew]
  have hne : (StereoCalib.findCorners env p.boardSize p.delay_ms imageList
      (StereoCalib.initialFCState run)).1 ≠ some 0 := by
    rw [hret]
    split_ifs <;> simp
  rw [stereoCalib_of_failure c env p imageList boardSize showRectified run hne]
  refine ⟨hret, ?_, rfl, rfl, ?_⟩
  · show (if _ then true else run.thrown) = _
    rw [hret]
    by_cases hc : collectionThrows env p.boardSize imageList Size.default = true <;>
      simp [hc]
  · exact StereoCalib.findCorners_solve env p.boardSize p.delay_ms imageList
      (StereoCalib.initialFCState run)

/-- C3 at the failing input: the left image of the only pair does not load; no pair is
accepted, and `findCorners` does not return -1: it is left by the exception thrown in
`mergeImages`, and so is `stereoCalib`. -/
theorem few_pairs_abort_or_throw_witness :
    (["nofile", "r1"].length % 2 = 0 ∧
      (acceptedPairs Demo.env Demo.params.boardSize ["nofile", "r1"] Size.default).length
        < 2 ∧
      collectionThrows Demo.env Demo.params.boardSize ["nofile", "r1"] Size.default = true ∧
      (StereoCalib.findCorners Demo.env Demo.params.boardSize Demo.params.delay_ms
        ["nofile", "r1"] (StereoCalib.initialFCState Demo.run0)).1 = none ∧
      (StereoCalib.findCorners Demo.env Demo.params.boardSize Demo.params.delay_ms
        ["nofile", "r1"] (StereoCalib.initialFCState Demo.run0)).2.trace
        = [Event.imread "nofile",
            Event.mergeImages Size.default Mat.default Mat.default]) ∧
    (StereoCalib.findCorners Demo.env Demo.params.boardSize Demo.params.delay_ms
        ["nofile", "r1"] (StereoCalib.initialFCState Demo.run0)).1
      = (if collectionThrows Demo.env Demo.params.boardSize ["nofile", "r1"] Size.default
            = true then none
         else some (-1)) ∧
    (StereoCalib.stereoCalib opencvConsts Demo.env Demo.params ["nofile", "r1"] ⟨6, 5⟩ true
        Demo.run0).thrown
      = (if collectionThrows Demo.env Demo.params.boardSize ["nofile", "r1"] Size.default
            = true then true
         else Demo.run0.thrown) ∧
    (StereoCalib.stereoCalib opencvConsts Demo.env Demo.params ["nofile", "r1"] ⟨6, 5⟩ true
      Demo.run0).files = Demo.run0.files ∧
    (StereoCalib.stereoCalib opencvConsts Demo.env Demo.params ["nofile", "r1"] ⟨6, 5⟩ true
      Demo.run0).trace
      = (StereoCalib.findCorners Demo.env Demo.params.boardSize Demo.params.delay_ms
          ["nofile", "r1"] (StereoCalib.initialFCState Demo.run0)).2.trace ∧
    (StereoCalib.stereoCalib opencvConsts Demo.env Demo.params ["nofile", "r1"] ⟨6, 5⟩ true
      Demo.run0).trace.filter Event.isSolveOrWrite
      = Demo.run0.trace.filter Event.isSolveOrWrite :=
  ⟨by decide,
    few_pairs_abort_or_throw opencvConsts Demo.env Demo.params ["nofile", "r1"] ⟨6, 5⟩ true
      Demo.run0 (by decide) (by decide)⟩

/-- The run of C3 in which nothing throws: of three pairs the operator lets only the first
one through; `findCorners` returns -1 and `stereoCalib` ends without a solver call and
without a file written. -/
theorem few_pairs_after_quit :
    (acceptedPairs Demo.envQuit Demo.params.boardSize Demo.imageList Size.default).length < 2 ∧
    collectionThrows Demo.envQuit Demo.params.boardSize Demo.imageList Size.default = false ∧
    (StereoCalib.findCorners Demo.envQuit Demo.params.boardSize Demo.params.delay_ms
      Demo.imageList (StereoCalib.initialFCState Demo.run0)).1 = some (-1) ∧
    (StereoCalib.stereoCalib opencvConsts Demo.envQuit Demo.params Demo.imageList ⟨6, 5⟩ true
      Demo.run0).thrown = false ∧
    (StereoCalib.stereoCalib opencvConsts Demo.envQuit Demo.params Demo.imageList ⟨6, 5⟩ true
      Demo.run0).files = Demo.run0.files ∧
    (StereoCalib.stereoCalib opencvConsts Demo.envQuit Demo.params Demo.imageList ⟨6, 5⟩ true
      Demo.run0).trace.filter Event.isSolveOrWrite = [] :=
  ⟨by decide, by decide, by decide, by decide, rfl, by decide⟩

theorem pairGood_iff {F : Type} (env : Env F) (boardSize : Size) (imageList : List String)
    (sz : Size) (i : Nat) :
    pairGood env boardSize imageList sz i = true ↔
      (loads env (leftFile imageList i) = true ∧ loads env (rightFile imageList i) = true ∧
        (env.imread (leftFile imageList i)).size = sz ∧
        (env.imread (rightFile imageList i)).size = sz ∧
        detects env boardSize (leftFile imageList i) = true ∧
        detects env boardSize (rightFile imageList i) = true) := by
  unfold pairGood
  simp only [Bool.and_eq_true, decide_eq_true_eq]
  tauto

/-- C4. In one pass of the loop of `findCorners` pair `i` is accepted (`npairs` goes up by
one and its two file names are appended to `goodImageList`) if and only if both images load,
both have the image size of the run, and the detector succeeds on both; otherwise `npairs`
and `goodImageList` stay as they are, in particular when the detector succeeds on one side
only. -/
theorem pair_accepted_iff {F : Type} (env : Env F) (boardSize : Size) (delay_ms : Int)
    (imageList : List String) (i : Nat) (st : StereoCalib.FCState F) :
    (((StereoCalib.pairStep env boardSize delay_ms imageList i st).npairs = st.npairs + 1 ∧
      (StereoCalib.pairStep env boardSize delay_ms imageList i st).goodImageList
        = st.goodImageList ++ [leftFile imageList i, rightFile imageList i]) ↔
      (loads env (leftFile imageList i) = true ∧ loads env (rightFile imageList i) = true ∧
        (env.imread (leftFile imageList i)).size
          = (StereoCalib.pairStep env boardSize delay_ms imageList i st).imageSize ∧
        (env.imread (rightFile imageList i)).size
          = (StereoCalib.pairStep env boardSize delay_ms imageList i st).imageSize ∧
        detects env boardSize (leftFile imageList i) = true ∧
        detects env boardSize (rightFile imageList i) = true)) ∧
    (¬ (loads env (leftFile imageList i) = true ∧ loads env (rightFile imageList i) = true ∧
        (env.imread (leftFile imageList i)).size
          = (StereoCalib.pairStep env boardSize delay_ms imageList i st).imageSize ∧
        (env.imread (rightFile imageList i)).size
          = (StereoCalib.pairStep env boardSize delay_ms imageList i st).imageSize ∧
        detects env boardSize (leftFile imageList i) = true ∧
        detects env boardSize (rightFile imageList i) = true) →
      (StereoCalib.pairStep env boardSize delay_ms imageList i st).npairs = st.npairs ∧
      (StereoCalib.pairStep env boardSize delay_ms imageList i st).goodImageList
        = st.goodImageList) ∧
    (detects env boardSize (leftFile imageList i)
        ≠ detects env boardSize (rightFile imageList i) →
      (StereoCalib.pairStep env boardSize delay_ms imageList i st).npairs = st.npairs ∧
      (StereoCalib.pairStep env boardSize delay_ms imageList i st).goodImageList
        = st.goodImageList) := by
  have hsz := (StereoCalib.pairStep_frame env boardSize delay_ms imageList i st).1
  rw [hsz, ← pairGood_iff]
  cases hg : pairGood env boardSize imageList (runSize env imageList st.imageSize i) i
  · have hb := StereoCalib.pairStep_bad env boardSize delay_ms imageList i st hg
    refine ⟨?_, fun _ => hb, fun _ => hb⟩
    constructor
    · intro h
      rw [hb.1] at h
      omega
    · intro h
      exact absurd h (by decide)
  · have hgood := StereoCalib.pairStep_good env boardSize delay_ms imageList i st hg
    refine ⟨⟨fun _ => rfl, fun _ => ⟨hgood.1, hgood.2.1⟩⟩, fun h => absurd rfl h, ?_⟩
    intro hne
    have := (pairGood_iff env boardSize imageList _ i).mp hg
    rw [this.2.2.2.2.1, this.2.2.2.2.2] at hne
    exact absurd rfl hne

/-- C4, instance: pair 1 of the demo list (right image of another size) is not accepted
after pair 0. -/
theorem pair_accepted_iff_witness :
    ¬ (loads Demo.env (leftFile Demo.imageList 1) = true ∧
        loads Demo.env (rightFile Demo.imageList 1) = true ∧
        (Demo.env.imread (leftFile Demo.imageList 1)).size
          = (StereoCalib.pairStep Demo.env ⟨6, 5⟩ 300 Demo.imageList 1
              (StereoCalib.pairStep Demo.env ⟨6, 5⟩ 300 Demo.imageList 0 Demo.st0)).imageSize ∧
        (Demo.env.imread (rightFile Demo.imageList 1)).size
          = (StereoCalib.pairStep Demo.env ⟨6, 5⟩ 300 Demo.imageList 1
              (StereoCalib.pairStep Demo.env ⟨6, 5⟩ 300 Demo.imageList 0 Demo.st0)).imageSize ∧
        detects Demo.env ⟨6, 5⟩ (leftFile Demo.imageList 1) = true ∧
        detects Demo.env ⟨6, 5⟩ (rightFile Demo.imageList 1) = true) ∧
    (StereoCalib.pairStep Demo.env ⟨6, 5⟩ 300 Demo.imageList 1
        (StereoCalib.pairStep Demo.env ⟨6, 5⟩ 300 Demo.imageList 0 Demo.st0)).npairs
      = (StereoCalib.pairStep Demo.env ⟨6, 5⟩ 300 Demo.imageList 0 Demo.st0).npairs ∧
    (StereoCalib.pairStep Demo.env ⟨6, 5⟩ 300 Demo.imageList 1
        (StereoCalib.pairStep Demo.env ⟨6, 5⟩ 300 Demo.imageList 0 Demo.st0)).goodImageList
      = (StereoCalib.pairStep Demo.env ⟨6, 5⟩ 300 Demo.imageList 0 Demo.st0).goodImageList :=
  ⟨by decide,
    (pair_accepted_iff Demo.env ⟨6, 5⟩ 300 Demo.imageList 1
      (StereoCalib.pairStep Demo.env ⟨6, 5⟩ 300 Demo.imageList 0 Demo.st0)).2.1 (by decide)⟩

theorem findCorners_even_of_success {F : Type} (env : Env F) (boardSize : Size)
    (delay_ms : Int) (imageList : List String) (st : StereoCalib.FCState F)
    (h : (StereoCalib.findCorners env boardSize delay_ms imageList st).1 = some 0) :
    imageList.length % 2 = 0 := by
  by_contra hodd
  unfold StereoCalib.findCorners at h
  rw [if_pos hodd] at h
  have h1 : (some (-1) : Option Int) = some 0 := h
  exact absurd h1 (by decide)

/-- C5. Whenever `findCorners` returns 0, `imagePoints[0]` and `imagePoints[1]` both have
length `nimages`, `nimages` is the number of accepted pairs, and entry `j` of each list is
the refined corner set of the left, respectively right, image of the `j`-th accepted pair
in list order; so the lists hold the corners of accepted pairs and nothing else. -/
theorem findCorners_imagePoints {F : Type} (env : Env F) (boardSize : Size) (delay_ms : Int)
    (imageList : List String) (st : StereoCalib.FCState F)
    (h : (StereoCalib.findCorners env boardSize delay_ms imageList st).1 = some 0) :
    (StereoCalib.findCorners env boardSize delay_ms imageList st).2.nimages
      = (acceptedPairs env boardSize imageList st.imageSize).length ∧
    (StereoCalib.findCorners env boardSize delay_ms imageList st).2.imagePoints0.length
      = (StereoCalib.findCorners env boardSize delay_ms imageList st).2.nimages ∧
    (StereoCalib.findCorners env boardSize delay_ms imageList st).2.imagePoints1.length
      = (StereoCalib.findCorners env boardSize delay_ms imageList st).2.nimages ∧
    (StereoCalib.findCorners env boardSize delay_ms imageList st).2.imagePoints0
      = (acceptedPairs env boardSize imageList st.imageSize).map
          (fun j => refinedCorners env boardSize (leftFile imageList j)) ∧
    (StereoCalib.findCorners env boardSize delay_ms imageList st).2.imagePoints1
      = (acceptedPairs env boardSize imageList st.imageSize).map
          (fun j => refinedCorners env boardSize (rightFile imageList j)) := by
  have heven := findCorners_even_of_success env boardSize delay_ms imageList st h
  obtain ⟨-, -, hn, -, hpts⟩ :=
    StereoCalib.findCorners_even env boardSize delay_ms imageList st heven
  have hn := hn (by rw [h]; exact Option.some_ne_none 0)
  obtain ⟨h0, h1⟩ := hpts h
  refine ⟨hn, ?_, ?_, h0, h1⟩
  · rw [h0, hn, List.length_map]
  · rw [h1, hn, List.length_map]

/-- C5, instance: in the demo list pairs 0 and 2 are accepted, pair 1 is not. -/
theorem findCorners_imagePoints_witness :
    (StereoCalib.findCorners Demo.env ⟨6, 5⟩ 300 Demo.imageList Demo.st0).1 = some 0 ∧
    acceptedPairs Demo.env ⟨6, 5⟩ Demo.imageList Demo.st0.imageSize = [0, 2] ∧
    (StereoCalib.findCorners Demo.env ⟨6, 5⟩ 300 Demo.imageList Demo.st0).2.nimages
      = (acceptedPairs Demo.env ⟨6, 5⟩ Demo.imageList Demo.st0.imageSize).length ∧
    (StereoCalib.findCorners Demo.env ⟨6, 5⟩ 300 Demo.imageList Demo.st0).2.imagePoints0.length
      = (StereoCalib.findCorners Demo.env ⟨6, 5⟩ 300 Demo.imageList Demo.st0).2.nimages ∧
    (StereoCalib.findCorners Demo.env ⟨6, 5⟩ 300 Demo.imageList Demo.st0).2.imagePoints1.length
      = (StereoCalib.findCorners Demo.env ⟨6, 5⟩ 300 Demo.imageList Demo.st0).2.nimages ∧
    (StereoCalib.findCorners Demo.env ⟨6, 5⟩ 300 Demo.imageList Demo.st0).2.imagePoints0
      = (acceptedPairs Demo.env ⟨6, 5⟩ Demo.imageList Demo.st0.imageSize).map
          (fun j => refinedCorners Demo.env ⟨6, 5⟩ (leftFile Demo.imageList j)) ∧
    (StereoCalib.findCorners Demo.env ⟨6, 5⟩ 300 Demo.imageList Demo.st0).2.imagePoints1
      = (acceptedPairs Demo.env ⟨6, 5⟩ Demo.imageList Demo.st0.imageSize).map
          (fun j => refinedCorners Demo.env ⟨6, 5⟩ (rightFile Demo.imageList j)) :=
  ⟨by decide, by decide,
    findCorners_imagePoints Demo.env ⟨6, 5⟩ 300 Demo.imageList Demo.st0 (by decide)⟩

theorem acceptedFrom_bounds {F : Type} (env : Env F) (boardSize : Size)
    (imageList : List String) :
    ∀ (rem i : Nat) (sz : Size), ∀ j ∈ acceptedFrom env boardSize imageList rem i sz,
      i ≤ j ∧ j < i + rem := by
  intro rem
  induction rem with
  | zero => intro i sz j hj; simp [acceptedFrom] at hj
  | succ rem ih =>
    intro i sz j hj
    unfold acceptedFrom at hj
    simp only [List.mem_append] at hj
    rcases hj with hj | hj
    · split_ifs at hj
      · simp only [List.mem_singleton] at hj
        omega
      · simp at hj
    · split_ifs at hj
      · simp at hj
      · have := ih (i + 1) _ j hj
        omega

theorem acceptedFrom_increasing {F : Type} (env : Env F) (boardSize : Size)
    (imageList : List String) :
    ∀ (rem i : Nat) (sz : Size),
      (acceptedFrom env boardSize imageList rem i sz).Pairwise (· < ·) := by
  intro rem
  induction rem with
  | zero => intro i sz; simp [acceptedFrom]
  | succ rem ih =>
    intro i sz
    unfold acceptedFrom
    rw [List.pairwise_append]
    refine ⟨?_, ?_, ?_⟩
    · split_ifs <;> simp
    · split_ifs
      · simp
      · exact ih _ _
    · intro a ha b hb
      split_ifs at ha hb
      · simp at hb
      · simp only [List.mem_singleton] at ha
        have := acceptedFrom_bounds env boardSize imageList rem (i + 1) _ b hb
        omega
      · simp at ha
      · simp at ha

theorem acceptedFiles_length (imageList : List String) (acc : List Nat) :
    (acceptedFiles imageList acc).length = 2 * acc.length := by
  unfold acceptedFiles
  induction acc with
  | nil => simp
  | cons a acc ih =>
    rw [List.flatMap_cons, List.length_append, ih]
    simp
    omega

theorem acceptedFiles_getD (imageList : List String) :
    ∀ (acc : List Nat) (j : Nat), j < acc.length →
      (acceptedFiles imageList acc).getD (2 * j) "" = leftFile imageList (acc.getD j 0) ∧
      (acceptedFiles imageList acc).getD (2 * j + 1) ""
        = rightFile imageList (acc.getD j 0) := by
  intro acc
  induction acc with
  | nil => intro j hj; simp at hj
  | cons a acc ih =>
    intro j hj
    have hcons : acceptedFiles imageList (a :: acc)
        = leftFile imageList a :: rightFile imageList a :: acceptedFiles imageList acc := by
      simp [acceptedFiles]
    rw [hcons]
    cases j with
    | zero => simp
    | succ j =>
      have := ih j (by simpa using hj)
      have e1 : 2 * (j + 1) = (2 * j + 1) + 1 := by ring
      rw [e1]
      simp only [List.getD_cons_succ]
      exact this

/-- C6. Starting from an empty `goodImageList`, after `findCorners` has processed an
even-length image list, `goodImageList` consists of exactly the file names of the accepted
pairs, in list order (the accepted indices increase and lie within the list), left name
before right name; its length is twice the number of accepted pairs, entries `2j` and
`2j+1` are the names of the `j`-th accepted pair, and on success they are the files the
`j`-th corner sets were computed from. -/
theorem goodImageList_accepted {F : Type} (env : Env F) (boardSize : Size) (delay_ms : Int)
    (imageList : List String) (st : StereoCalib.FCState F)
    (hempty : st.goodImageList = []) (heven : imageList.length % 2 = 0) :
    (StereoCalib.findCorners env boardSize delay_ms imageList st).2.goodImageList
      = acceptedFiles imageList (acceptedPairs env boardSize imageList st.imageSize) ∧
    (acceptedPairs env boardSize imageList st.imageSize).Pairwise (· < ·) ∧
    (∀ i ∈ acceptedPairs env boardSize imageList st.imageSize, i * 2 + 1 < imageList.length) ∧
    (StereoCalib.findCorners env boardSize delay_ms imageList st).2.goodImageList.length
      = 2 * (StereoCalib.findCorners env boardSize delay_ms imageList st).2.npairs ∧
    (∀ j, j < (StereoCalib.findCorners env boardSize delay_ms imageList st).2.npairs →
      (StereoCalib.findCorners env boardSize delay_ms imageList st).2.goodImageList.getD
          (2 * j) ""
        = leftFile imageList
            ((acceptedPairs env boardSize imageList st.imageSize).getD j 0) ∧
      (StereoCalib.findCorners env boardSize delay_ms imageList st).2.goodImageList.getD
          (2 * j + 1) ""
        = rightFile imageList
            ((acceptedPairs env boardSize imageList st.imageSize).getD j 0)) ∧
    ((StereoCalib.findCorners env boardSize delay_ms imageList st).1 = some 0 →
      ∀ j, j < (StereoCalib.findCorners env boardSize delay_ms imageList st).2.npairs →
        (StereoCalib.findCorners env boardSize delay_ms imageList st).2.imagePoints0.getD j []
          = refinedCorners env boardSize
              ((StereoCalib.findCorners env boardSize delay_ms imageList
                st).2.goodImageList.getD (2 * j) "") ∧
        (StereoCalib.findCorners env boardSize delay_ms imageList st).2.imagePoints1.getD j []
          = refinedCorners env boardSize
              ((StereoCalib.findCorners env boardSize delay_ms imageList
                st).2.goodImageList.getD (2 * j + 1) "")) := by
  obtain ⟨-, hnp, -, hgl, hpts⟩ :=
    StereoCalib.findCorners_even env boardSize delay_ms imageList st heven
  rw [hempty, List.nil_append] at hgl
  rw [hgl, hnp]
  refine ⟨rfl, acceptedFrom_increasing env boardSize imageList _ _ _, ?_,
    acceptedFiles_length _ _, ?_, ?_⟩
  · intro i hi
    have := acceptedFrom_bounds env boardSize imageList _ _ _ i hi
    omega
  · intro j hj
    exact acceptedFiles_getD imageList _ j hj
  · intro hret j hj
    obtain ⟨h0, h1⟩ := hpts hret
    obtain ⟨g0, g1⟩ := acceptedFiles_getD imageList _ j hj
    rw [h0, h1, g0, g1]
    simp [List.getD_eq_getElem?_getD, List.getElem?_map, hj]

/-- C6, instance: the demo list yields the names of pairs 0 and 2. -/
theorem goodImageList_accepted_witness :
    Demo.st0.goodImageList = [] ∧ Demo.imageList.length % 2 = 0 ∧
    (StereoCalib.findCorners Demo.env ⟨6, 5⟩ 300 Demo.imageList Demo.st0).2.goodImageList
      = ["l1", "r1", "l3", "r3"] ∧
    (StereoCalib.findCorners Demo.env ⟨6, 5⟩ 300 Demo.imageList Demo.st0).2.goodImageList
      = acceptedFiles Demo.imageList
          (acceptedPairs Demo.env ⟨6, 5⟩ Demo.imageList Demo.st0.imageSize) :=
  ⟨by decide, by decide, by decide,
    (goodImageList_accepted Demo.env ⟨6, 5⟩ 300 Demo.imageList Demo.st0
      (by decide) (by decide)).1⟩

theorem pairShown_iff {F : Type} (env : Env F) (boardSize : Size) (imageList : List String)
    (sz : Size) (i : Nat) :
    pairShown env boardSize imageList sz i = true ↔
      (loads env (leftFile imageList i) = true ∧
        (env.imread (leftFile imageList i)).size = sz ∧
        detects env boardSize (leftFile imageList i) = true ∧
        loads env (rightFile imageList i) = true) := by
  unfold pairShown
  simp only [Bool.and_eq_true, decide_eq_true_eq]
  tauto

theorem pairStep_not_good {F : Type} (env : Env F) (boardSize : Size) (delay_ms : Int)
    (imageList : List String) (i : Nat) (st : StereoCalib.FCState F)
    (h : ¬ (loads env (leftFile imageList i) = true ∧
        loads env (rightFile imageList i) = true ∧
        (env.imread (leftFile imageList i)).size
          = (StereoCalib.pairStep env boardSize delay_ms imageList i st).imageSize ∧
        (env.imread (rightFile imageList i)).size
          = (StereoCalib.pairStep env boardSize delay_ms imageList i st).imageSize ∧
        detects env boardSize (leftFile imageList i) = true ∧
        detects env boardSize (rightFile imageList i) = true)) :
    (StereoCalib.pairStep env boardSize delay_ms imageList i st).npairs = st.npairs ∧
    (StereoCalib.pairStep env boardSize delay_ms imageList i st).goodImageList
      = st.goodImageList := by
  have hsz := (StereoCalib.pairStep_frame env boardSize delay_ms imageList i st).1
  rw [hsz, ← pairGood_iff] at h
  exact StereoCalib.pairStep_bad env boardSize delay_ms imageList i st (by simpa using h)

/-- The pass for a pair that `mergeImages` cannot show ends the loop with the exception. -/
theorem pairLoop_of_not_shown {F : Type} (env : Env F) (boardSize : Size) (delay_ms : Int)
    (imageList : List String) (rem i : Nat) (st : StereoCalib.FCState F)
    (h : ¬ (loads env (leftFile imageList i) = true ∧
        (env.imread (leftFile imageList i)).size
          = (StereoCalib.pairStep env boardSize delay_ms imageList i st).imageSize ∧
        detects env boardSize (leftFile imageList i) = true ∧
        loads env (rightFile imageList i) = true)) :
    StereoCalib.pairLoop env boardSize delay_ms imageList (rem + 1) i st
      = (true, StereoCalib.pairStep env boardSize delay_ms imageList i st) := by
  have hsz := (StereoCalib.pairStep_frame env boardSize delay_ms imageList i st).1
  rw [hsz, ← pairShown_iff] at h
  exact StereoCalib.pairLoop_succ_throw env boardSize delay_ms imageList rem i st
    (by simpa using h)

/-- The pass for a pair that `mergeImages` can show is followed by the key test and, unless
the operator quits, by the next pass. -/
theorem pairLoop_of_shown {F : Type} (env : Env F) (boardSize : Size) (delay_ms : Int)
    (imageList : List String) (rem i : Nat) (st : StereoCalib.FCState F)
    (h : loads env (leftFile imageList i) = true ∧
        (env.imread (leftFile imageList i)).size
          = (StereoCalib.pairStep env boardSize delay_ms imageList i st).imageSize ∧
        detects env boardSize (leftFile imageList i) = true ∧
        loads env (rightFile imageList i) = true) :
    StereoCalib.pairLoop env boardSize delay_ms imageList (rem + 1) i st
      = if isQuitKey (env.waitKey i) = true then
          (false, StereoCalib.pairStep env boardSize delay_ms imageList i st)
        else
          StereoCalib.pairLoop env boardSize delay_ms imageList rem (i + 1)
            (StereoCalib.pairStep env boardSize delay_ms imageList i st) := by
  have hsz := (StereoCalib.pairStep_frame env boardSize delay_ms imageList i st).1
  rw [hsz, ← pairShown_iff] at h
  cases hq : isQuitKey (env.waitKey i)
  · rw [StereoCalib.pairLoop_succ_cont env boardSize delay_ms imageList rem i st h hq]
    simp
  · rw [StereoCalib.pairLoop_succ_quit env boardSize delay_ms imageList rem i st h hq]
    simp

/-- C7. In `findCorners` an unassigned `imageSize` (`Size()`) is set to the size of the
first image that loads, which is never `Size()`, and a set `imageSize` never changes for
the rest of the loop; a pair with a loaded image of another size is not accepted.  But the
loop does not always go on to the remaining pairs: a left image of another size leaves the
loop over the two images before the right image is read, the unguarded `mergeImages` of
line 305 gets an empty `imgR` and throws, and the loop over the pairs ends with that
exception.  The loop goes on (unless the operator quits) when the left image has passed and
the right image has loaded, so after a right image of another size.  In the list
`Demo.listLeftSize` pair 1 has a left image of another size: `findCorners` does not
return, and pair 2, which would be accepted, is never read.  In `Demo.imageList` pair 1 has
a right image of another size, and pair 2 is accepted afterwards. -/
theorem imageSize_fixed_left_mismatch_fatal {F : Type} (env : Env F) (boardSize : Size)
    (delay_ms : Int) (imageList : List String) :
    (∀ (i k : Nat) (st : StereoCalib.FCState F),
      (StereoCalib.processImage env boardSize imageList i k st).2.imageSize =
        if st.imageSize = Size.default ∧
            (env.imread (imageList.getD (i * 2 + k) "")).empty = false
        then (env.imread (imageList.getD (i * 2 + k) "")).size else st.imageSize) ∧
    (∀ f : String, (env.imread f).empty = false → (env.imread f).size ≠ Size.default) ∧
    (∀ (rem i : Nat) (st : StereoCalib.FCState F), st.imageSize ≠ Size.default →
      (StereoCalib.pairLoop env boardSize delay_ms imageList rem i st).2.imageSize
        = st.imageSize) ∧
    (∀ (i : Nat) (st : StereoCalib.FCState F),
      ((loads env (leftFile imageList i) = true ∧
          (env.imread (leftFile imageList i)).size
            ≠ (StereoCalib.pairStep env boardSize delay_ms imageList i st).imageSize) ∨
        (loads env (rightFile imageList i) = true ∧
          (env.imread (rightFile imageList i)).size
            ≠ (StereoCalib.pairStep env boardSize delay_ms imageList i st).imageSize)) →
      (StereoCalib.pairStep env boardSize delay_ms imageList i st).npairs = st.npairs ∧
      (StereoCalib.pairStep env boardSize delay_ms imageList i st).goodImageList
        = st.goodImageList) ∧
    (∀ (rem i : Nat) (st : StereoCalib.FCState F),
      loads env (leftFile imageList i) = true →
      (env.imread (leftFile imageList i)).size
        ≠ (StereoCalib.pairStep env boardSize delay_ms imageList i st).imageSize →
      StereoCalib.mergeImagesThrows
          (StereoCalib.pairStep env boardSize delay_ms imageList i st).imgL
          (StereoCalib.pairStep env boardSize delay_ms imageList i st).imgR = true ∧
      StereoCalib.pairLoop env boardSize delay_ms imageList (rem + 1) i st
        = (true, StereoCalib.pairStep env boardSize delay_ms imageList i st)) ∧
    (∀ (rem i : Nat) (st : StereoCalib.FCState F),
      (loads env (leftFile imageList i) = true ∧
        (env.imread (leftFile imageList i)).size
          = (StereoCalib.pairStep env boardSize delay_ms imageList i st).imageSize ∧
        detects env boardSize (leftFile imageList i) = true ∧
        loads env (rightFile imageList i) = true) →
      StereoCalib.pairLoop env boardSize delay_ms imageList (rem + 1) i st =
        if isQuitKey (env.waitKey i) = true then
          (false, StereoCalib.pairStep env boardSize delay_ms imageList i st)
        else
          StereoCalib.pairLoop env boardSize delay_ms imageList rem (i + 1)
            (StereoCalib.pairStep env boardSize delay_ms imageList i st)) ∧
    (loads Demo.env (leftFile Demo.listLeftSize 1) = true ∧
      (Demo.env.imread (leftFile Demo.listLeftSize 1)).size
        ≠ (StereoCalib.findCorners Demo.env ⟨6, 5⟩ 300 Demo.listLeftSize
            Demo.st0).2.imageSize ∧
      pairGood Demo.env ⟨6, 5⟩ Demo.listLeftSize
        (StereoCalib.findCorners Demo.env ⟨6, 5⟩ 300 Demo.listLeftSize Demo.st0).2.imageSize
        2 = true ∧
      (StereoCalib.findCorners Demo.env ⟨6, 5⟩ 300 Demo.listLeftSize Demo.st0).1 = none ∧
      (StereoCalib.findCorners Demo.env ⟨6, 5⟩ 300 Demo.listLeftSize Demo.st0).2.goodImageList
        = ["l1", "r1"] ∧
      Event.imread "l3"
        ∉ (StereoCalib.findCorners Demo.env ⟨6, 5⟩ 300 Demo.listLeftSize Demo.st0).2.trace) ∧
    (loads Demo.env (rightFile Demo.imageList 1) = true ∧
      (Demo.env.imread (rightFile Demo.imageList 1)).size
        ≠ (StereoCalib.findCorners Demo.env ⟨6, 5⟩ 300 Demo.imageList Demo.st0).2.imageSize ∧
      (StereoCalib.findCorners Demo.env ⟨6, 5⟩ 300 Demo.imageList Demo.st0).1 = some 0 ∧
      (StereoCalib.findCorners Demo.env ⟨6, 5⟩ 300 Demo.imageList Demo.st0).2.goodImageList
        = ["l1", "r1", "l3", "r3"]) := by
  refine ⟨?_, ?_, ?_, ?_, ?_, ?_, by decide, by decide⟩
  · intro i k st
    exact StereoCalib.processImage_imageSize env boardSize imageList i k st
  · intro f hf
    exact StereoCalib.size_ne_default_of_not_empty _ hf
  · intro rem i st h
    exact StereoCalib.pairLoop_imageSize env boardSize delay_ms imageList rem i st h
  · intro i st h
    apply pairStep_not_good
    intro hall
    rcases h with h | h
    · exact h.2 hall.2.2.1
    · exact h.2 hall.2.2.2.1
  · intro rem i st _ hne
    have hl := pairLoop_of_not_shown env boardSize delay_ms imageList rem i st
      (fun hall => hne hall.2.1)
    refine ⟨?_, hl⟩
    have hsz := (StereoCalib.pairStep_frame env boardSize delay_ms imageList i st).1
    rw [StereoCalib.pairStep_threw]
    rw [hsz] at hne
    unfold pairShown
    simp [hne]
  · intro rem i st h
    exact pairLoop_of_shown env boardSize delay_ms imageList rem i st h

/-- C7 at the failing input: after pair 0 of `Demo.listLeftSize` the image size is
640 x 480; pair 1 has a 320 x 240 left image, and with it the loop ends by the exception,
two passes short of the end of the list. -/
theorem imageSize_fixed_left_mismatch_fatal_witness :
    (loads Demo.env (leftFile Demo.listLeftSize 1) = true ∧
      (Demo.env.imread (leftFile Demo.listLeftSize 1)).size
        ≠ (StereoCalib.pairStep Demo.env ⟨6, 5⟩ 300 Demo.listLeftSize 1
            (StereoCalib.pairStep Demo.env ⟨6, 5⟩ 300 Demo.listLeftSize 0
              Demo.st0)).imageSize) ∧
    (StereoCalib.mergeImagesThrows
        (StereoCalib.pairStep Demo.env ⟨6, 5⟩ 300 Demo.listLeftSize 1
          (StereoCalib.pairStep Demo.env ⟨6, 5⟩ 300 Demo.listLeftSize 0 Demo.st0)).imgL
        (StereoCalib.pairStep Demo.env ⟨6, 5⟩ 300 Demo.listLeftSize 1
          (StereoCalib.pairStep Demo.env ⟨6, 5⟩ 300 Demo.listLeftSize 0 Demo.st0)).imgR
        = true ∧
      StereoCalib.pairLoop Demo.env ⟨6, 5⟩ 300 Demo.listLeftSize (1 + 1) 1
          (StereoCalib.pairStep Demo.env ⟨6, 5⟩ 300 Demo.listLeftSize 0 Demo.st0)
        = (true, StereoCalib.pairStep Demo.env ⟨6, 5⟩ 300 Demo.listLeftSize 1
            (StereoCalib.pairStep Demo.env ⟨6, 5⟩ 300 Demo.listLeftSize 0 Demo.st0))) ∧
    (StereoCalib.pairStep Demo.env ⟨6, 5⟩ 300 Demo.listLeftSize 1
        (StereoCalib.pairStep Demo.env ⟨6, 5⟩ 300 Demo.listLeftSize 0 Demo.st0)).imgR
      = Mat.default :=
  ⟨by decide,
    (imageSize_fixed_left_mismatch_fatal Demo.env ⟨6, 5⟩ 300 Demo.listLeftSize).2.2.2.2.1 1 1
      (StereoCalib.pairStep Demo.env ⟨6, 5⟩ 300 Demo.listLeftSize 0 Demo.st0)
      (by decide) (by decide),
    by decide⟩

theorem processImage_of_empty {F : Type} (env : Env F) (boardSize : Size)
    (imageList : List String) (i k : Nat) (st : StereoCalib.FCState F)
    (h : (env.imread (imageList.getD (i * 2 + k) "")).empty = true) :
    StereoCalib.processImage env boardSize imageList i k st
      = (true, st.emit (Event.imread (imageList.getD (i * 2 + k) ""))) := by
  unfold StereoCalib.processImage
  dsimp only
  rw [if_pos h]

/-- C8. In `findCorners` a pair of which an image fails to load is not accepted, but it is
neither skipped with a warning nor harmless: the failed `imread` leaves the loop over the
two images at once and prints nothing, and the unguarded `mergeImages` of line 305 then
gets an empty image and throws.  When it is the left image that fails, the pass consists of
that `imread` and the call of `mergeImages` on two empty images; whichever image fails, the
loop over the pairs ends with the exception, and once a pass has thrown `findCorners` does
not return. -/
theorem load_failure_is_fatal {F : Type} (env : Env F) (boardSize : Size)
    (delay_ms : Int) (imageList : List String) :
    (∀ (i k : Nat) (st : StereoCalib.FCState F),
      (env.imread (imageList.getD (i * 2 + k) "")).empty = true →
      StereoCalib.processImage env boardSize imageList i k st
        = (true, st.emit (Event.imread (imageList.getD (i * 2 + k) "")))) ∧
    (∀ (i : Nat) (st : StereoCalib.FCState F),
      (loads env (leftFile imageList i) = false ∨
        loads env (rightFile imageList i) = false) →
      (StereoCalib.pairStep env boardSize delay_ms imageList i st).npairs = st.npairs ∧
      (StereoCalib.pairStep env boardSize delay_ms imageList i st).goodImageList
        = st.goodImageList) ∧
    (∀ (i : Nat) (st : StereoCalib.FCState F), loads env (leftFile imageList i) = false →
      (StereoCalib.pairStep env boardSize delay_ms imageList i st).trace
        = st.trace ++
          [Event.imread (leftFile imageList i),
            Event.mergeImages st.imageSize Mat.default Mat.default]) ∧
    (∀ (rem i : Nat) (st : StereoCalib.FCState F),
      (loads env (leftFile imageList i) = false ∨
        loads env (rightFile imageList i) = false) →
      StereoCalib.mergeImagesThrows
          (StereoCalib.pairStep env boardSize delay_ms imageList i st).imgL
          (StereoCalib.pairStep env boardSize delay_ms imageList i st).imgR = true ∧
      StereoCalib.pairLoop env boardSize delay_ms imageList (rem + 1) i st
        = (true, StereoCalib.pairStep env boardSize delay_ms imageList i st)) ∧
    (∀ (st : StereoCalib.FCState F), imageList.length % 2 = 0 →
      collectionThrows env boardSize imageList st.imageSize = true →
      (StereoCalib.findCorners env boardSize delay_ms imageList st).1 = none) := by
  refine ⟨?_, ?_, ?_, ?_, ?_⟩
  · intro i k st h
    exact processImage_of_empty env boardSize imageList i k st h
  · intro i st h
    apply pairStep_not_good
    intro hall
    rcases h with h | h
    · rw [hall.1] at h; exact absurd h (by decide)
    · rw [hall.2.1] at h; exact absurd h (by decide)
  · intro i st h
    have he : (env.imread (imageList.getD (i * 2 + 0) "")).empty = true := by
      unfold loads leftFile at h
      simpa using h
    unfold StereoCalib.pairStep StereoCalib.pairBody StereoCalib.processPair
    dsimp only
    rw [processImage_of_empty env boardSize imageList i 0 _ he]
    simp [StereoCalib.FCState.emit, leftFile, StereoCalib.mergeImagesThrows,
      StereoCalib.resizeThrows, Mat.default]
  · intro rem i st h
    have hns : pairShown env boardSize imageList
        (runSize env imageList st.imageSize i) i = false := by
      unfold pairShown
      rcases h with h | h <;> simp [h]
    exact ⟨by rw [StereoCalib.pairStep_threw, hns]; rfl,
      StereoCalib.pairLoop_succ_throw env boardSize delay_ms imageList rem i st hns⟩
  · intro st heven hthrow
    rw [(StereoCalib.findCorners_even env boardSize delay_ms imageList st heven).1,
      if_pos hthrow]

/-- C8 at the failing input: pair 1 of `Demo.listRightMissing` has no right image; the
pass ends the loop with the exception, with pair 2 still to come, and neither
`findCorners` nor `stereoCalib` returns. -/
theorem load_failure_is_fatal_witness :
    (loads Demo.env (leftFile Demo.listRightMissing 1) = false ∨
      loads Demo.env (rightFile Demo.listRightMissing 1) = false) ∧
    (StereoCalib.mergeImagesThrows
        (StereoCalib.pairStep Demo.env ⟨6, 5⟩ 300 Demo.listRightMissing 1
          (StereoCalib.pairStep Demo.env ⟨6, 5⟩ 300 Demo.listRightMissing 0 Demo.st0)).imgL
        (StereoCalib.pairStep Demo.env ⟨6, 5⟩ 300 Demo.listRightMissing 1
          (StereoCalib.pairStep Demo.env ⟨6, 5⟩ 300 Demo.listRightMissing 0 Demo.st0)).imgR
        = true ∧
      StereoCalib.pairLoop Demo.env ⟨6, 5⟩ 300 Demo.listRightMissing (1 + 1) 1
          (StereoCalib.pairStep Demo.env ⟨6, 5⟩ 300 Demo.listRightMissing 0 Demo.st0)
        = (true, StereoCalib.pairStep Demo.env ⟨6, 5⟩ 300 Demo.listRightMissing 1
            (StereoCalib.pairStep Demo.env ⟨6, 5⟩ 300 Demo.listRightMissing 0 Demo.st0))) ∧
    (StereoCalib.findCorners Demo.env ⟨6, 5⟩ 300 Demo.listRightMissing Demo.st0).1 = none ∧
    (StereoCalib.findCorners Demo.env ⟨6, 5⟩ 300 Demo.listRightMissing
      Demo.st0).2.trace.filter Event.isCout = [] ∧
    (StereoCalib.findCorners Demo.env ⟨6, 5⟩ 300 Demo.listLeftMissing Demo.st0).1 = none ∧
    (StereoCalib.findCorners Demo.env ⟨6, 5⟩ 300 Demo.listLeftMissing
      Demo.st0).2.trace.filter Event.isCout = [] ∧
    (StereoCalib.stereoCalib opencvConsts Demo.env Demo.params Demo.listRightMissing ⟨6, 5⟩
      true Demo.run0).thrown = true :=
  ⟨by decide,
    (load_failure_is_fatal Demo.env ⟨6, 5⟩ 300 Demo.listRightMissing).2.2.2.1 1 1
      (StereoCalib.pairStep Demo.env ⟨6, 5⟩ 300 Demo.listRightMissing 0 Demo.st0)
      (Or.inr (by decide)),
    by decide, by decide, by decide, by decide, by decide⟩

theorem loadIntrinsics_saveCameraParams {F : Type} [IntCast F] (c : CalibConsts) (env : Env F)
    (outputFileName : String) (flag : Nat) (imageSize : Size) (cameraMatrix distCoeffs : Mat F)
    (rvecs tvecs : List (Mat F)) (reprojErrs : List F) (totalAvgErr : F) (files : FileSys F) :
    StereoCalib.loadIntrinsics
        (CameraCalib.saveCameraParams c env outputFileName flag imageSize cameraMatrix
          distCoeffs rvecs tvecs reprojErrs totalAvgErr files) outputFileName
      = if env.canWrite outputFileName = true then (Mat.default, Mat.default)
        else StereoCalib.loadIntrinsics files outputFileName := by
  unfold CameraCalib.saveCameraParams
  dsimp only
  cases hw : env.canWrite outputFileName
  · simp
  · simp only [if_true]
    unfold StereoCalib.loadIntrinsics openRead FileSys.write CameraCalib.cameraParamsDoc
    by_cases hf : flag = 0
    · simp [hf, fsNode, readMat]
    · simp [hf, fsNode, readMat]

/-- C9, the code at the failing input: the single-camera writer stores a camera matrix and
a distortion vector in `calib_result_l.xml` under the names `camera_Matrix` and
`Distortion_Coefficients`; the stereo loader asks the same file for `cameraMatrix` and
`distCoeffs`, finds neither, and returns two empty matrices instead of the ones written. -/
theorem saved_intrinsics_not_loaded :
    fsNode
        (CameraCalib.cameraParamsDoc opencvConsts 14 Demo.env.timeString ⟨640, 480⟩
          Demo.cameraMatrix Demo.distCoeffs [] 0)
        "camera_Matrix"
      = some (FSValue.mat Demo.cameraMatrix) ∧
    fsNode
        (CameraCalib.cameraParamsDoc opencvConsts 14 Demo.env.timeString ⟨640, 480⟩
          Demo.cameraMatrix Demo.distCoeffs [] 0)
        "cameraMatrix"
      = none ∧
    StereoCalib.loadIntrinsics
        (CameraCalib.saveCameraParams opencvConsts Demo.env "calib_result_l.xml" 14
          ⟨640, 480⟩ Demo.cameraMatrix Demo.distCoeffs [] [] [] 0 (fun _ => none))
        "calib_result_l.xml"
      = (Mat.default, Mat.default) ∧
    StereoCalib.loadIntrinsics
        (CameraCalib.saveCameraParams opencvConsts Demo.env "calib_result_l.xml" 14
          ⟨640, 480⟩ Demo.cameraMatrix Demo.distCoeffs [] [] [] 0 (fun _ => none))
        "calib_result_l.xml"
      ≠ (Demo.cameraMatrix, Demo.distCoeffs) := by
  decide

/-! ### The solver calls of `stereoCalib` -/

theorem solverFlags_append {F : Type} (t u : List (Event F)) :
    solverFlags (t ++ u) = solverFlags t ++ solverFlags u := by
  unfold solverFlags
  rw [List.filterMap_append]

theorem solverFlags_filter {F : Type} (t : List (Event F)) :
    solverFlags (t.filter Event.isSolveOrWrite) = solverFlags t := by
  induction t with
  | nil => rfl
  | cons e t ih =>
    cases e <;> simp [List.filter_cons, Event.isSolveOrWrite, solverFlags] at ih ⊢ <;>
      exact ih

theorem solverFlags_other {F : Type} (e : Event F)
    (h : ∀ o i0 i1 c0 d0 c1 d1 sz fl, e ≠ Event.stereoCalibrate o i0 i1 c0 d0 c1 d1 sz fl) :
    solverFlags [e] = [] := by
  cases e <;> first | rfl | exact absurd rfl (h _ _ _ _ _ _ _ _ _)

theorem solverFlags_emit {F : Type} (run : StereoCalib.Run F) (e : Event F)
    (h : ∀ o i0 i1 c0 d0 c1 d1 sz fl, e ≠ Event.stereoCalibrate o i0 i1 c0 d0 c1 d1 sz fl) :
    solverFlags (run.emit e).trace = solverFlags run.trace := by
  unfold StereoCalib.Run.emit
  simp only [solverFlags_append, solverFlags_other e h, List.append_nil]

theorem findCorners_flags {F : Type} (env : Env F) (boardSize : Size) (delay_ms : Int)
    (imageList : List String) (st : StereoCalib.FCState F) :
    solverFlags (StereoCalib.findCorners env boardSize delay_ms imageList st).2.trace
      = solverFlags st.trace := by
  rw [← solverFlags_filter, StereoCalib.findCorners_solve, solverFlags_filter]

theorem saveStereoCalibResult_flags {F : Type} (env : Env F) (outputFn : String)
    (cameraMatrix0 distCoeffs0 cameraMatrix1 distCoeffs1 R T E Fm : Mat F) (rms : F)
    (run : StereoCalib.Run F) :
    solverFlags (StereoCalib.saveStereoCalibResult env outputFn cameraMatrix0 distCoeffs0
      cameraMatrix1 distCoeffs1 R T E Fm rms run).trace = solverFlags run.trace := by
  unfold StereoCalib.saveStereoCalibResult
  split_ifs
  · dsimp only
    rw [solverFlags_append, solverFlags_other _ (by intros; simp), List.append_nil]
  · exact solverFlags_emit _ _ (by intros; simp)

theorem saveRectificationResult_flags {F : Type} (env : Env F) (outputFn : String)
    (r : Rectification F) (run : StereoCalib.Run F) :
    solverFlags (StereoCalib.saveRectificationResult env outputFn r run).trace
      = solverFlags run.trace := by
  unfold StereoCalib.saveRectificationResult
  split_ifs
  · dsimp only
    rw [solverFlags_append, solverFlags_other _ (by intros; simp), List.append_nil]
  · exact solverFlags_emit _ _ (by intros; simp)

theorem rectifyImage_flags {F : Type} (env : Env F) (map1 map2 : Mat F) (i k : Nat)
    (d : StereoCalib.DisplayState F) :
    solverFlags (StereoCalib.rectifyImage env map1 map2 i k d).run.trace
      = solverFlags d.run.trace := by
  unfold StereoCalib.rectifyImage
  dsimp only
  split_ifs <;> first | rfl | exact solverFlags_emit _ _ (by intros; simp)

theorem displayLoop_flags {F : Type} (env : Env F) (imageSize : Size)
    (mapL mapR : Mat F × Mat F) :
    ∀ (rem i : Nat) (run : StereoCalib.Run F),
      solverFlags (StereoCalib.displayLoop env imageSize mapL mapR rem i run).trace
        = solverFlags run.trace := by
  intro rem
  induction rem with
  | zero => intro i run; rfl
  | succ rem ih =>
    intro i run
    unfold StereoCalib.displayLoop
    dsimp only
    have h2 := rectifyImage_flags env mapR.1 mapR.2 i 1
      (StereoCalib.rectifyImage env mapL.1 mapL.2 i 0 ⟨Mat.default, Mat.default, run⟩)
    have h1 := rectifyImage_flags env mapL.1 mapL.2 i 0 ⟨Mat.default, Mat.default, run⟩
    split_ifs
    · rw [h2, h1]
    · rw [solverFlags_emit _ _ (by intros; simp), solverFlags_emit _ _ (by intros; simp),
        solverFlags_emit _ _ (by intros; simp), h2, h1]
    · rw [ih, solverFlags_emit _ _ (by intros; simp), solverFlags_emit _ _ (by intros; simp),
        solverFlags_emit _ _ (by intros; simp), h2, h1]

theorem rectify_flags {F : Type} (env : Env F)
    (cameraMatrix0 distCoeffs0 cameraMatrix1 distCoeffs1 : Mat F) (imageSize : Size)
    (R T : Mat F) (outputFn : String) (run : StereoCalib.Run F) :
    solverFlags (StereoCalib.rectify env cameraMatrix0 distCoeffs0 cameraMatrix1 distCoeffs1
      imageSize R T outputFn run).trace = solverFlags run.trace := by
  unfold StereoCalib.rectify
  dsimp only
  rw [displayLoop_flags, solverFlags_emit _ _ (by intros; simp),
    solverFlags_emit _ _ (by intros; simp), solverFlags_emit _ _ (by intros; simp),
    saveRectificationResult_flags, solverFlags_emit _ _ (by intros; simp)]

theorem stereoCalib_flags {F : Type} [Mul F] [IntCast F] [Zero F] [One F]
    (c : CalibConsts) (env : Env F) (p : StereoCalib.Params F) (imageList : List String)
    (boardSize : Size) (showRectified : Bool) (run : StereoCalib.Run F) :
    solverFlags (StereoCalib.stereoCalib c env p imageList boardSize showRectified run).trace
      = solverFlags run.trace ++
        (if (StereoCalib.findCorners env p.boardSize p.delay_ms imageList
            (StereoCalib.initialFCState run)).1 = some 0
         then [StereoCalib.stereoFlag c p.useIndividualCalibResult] else []) := by
  have hfc := findCorners_flags env p.boardSize p.delay_ms imageList
    (StereoCalib.initialFCState run)
  have hinit : (StereoCalib.initialFCState run).trace = run.trace := rfl
  rw [hinit] at hfc
  by_cases h : (StereoCalib.findCorners env p.boardSize p.delay_ms imageList
      (StereoCalib.initialFCState run)).1 = some 0
  · rw [if_pos h]
    unfold StereoCalib.stereoCalib
    dsimp only
    rw [if_neg (by rw [h]; exact Option.some_ne_none 0), if_neg (by simpa using h)]
    have hsolve : ∀ (r : StereoCalib.Run F) o i0 i1 c0 d0 c1 d1 sz fl,
        solverFlags (r.emit (Event.stereoCalibrate o i0 i1 c0 d0 c1 d1 sz fl)).trace
          = solverFlags r.trace ++ [fl] := by
      intro r o i0 i1 c0 d0 c1 d1 sz fl
      unfold StereoCalib.Run.emit
      rw [solverFlags_append]
      rfl
    cases hu : p.useIndividualCalibResult <;> cases showRectified <;>
      simp only [if_true, if_false, Bool.false_eq_true, rectify_flags] <;>
      rw [solverFlags_emit _ _ (by intros; simp), solverFlags_emit _ _ (by intros; simp),
        saveStereoCalibResult_flags, solverFlags_emit _ _ (by intros; simp),
        solverFlags_emit _ _ (by intros; simp), solverFlags_emit _ _ (by intros; simp),
        hsolve] <;>
      first
        | rw [solverFlags_emit _ _ (by intros; simp), solverFlags_emit _ _ (by intros; simp),
            solverFlags_emit _ _ (by intros; simp)]
          exact congrArg (· ++ _) hfc
        | rw [solverFlags_emit _ _ (by intros; simp)]
          exact congrArg (· ++ _) hfc
  · rw [if_neg h, stereoCalib_of_failure c env p imageList boardSize showRectified run h]
    simpa using hfc

/-- C10, counterexample: with `useIndividualCalibResult` set, as in the source, the one
solver call of the demo run gets the flag 256 (`CV_CALIB_FIX_INTRINSIC`), in which neither
the fixed-aspect-ratio bit (2) nor the zero-tangential-distortion bit (8) is set. -/
theorem fix_intrinsic_replaces_flags :
    Demo.params.useIndividualCalibResult = true ∧
    solverFlags (StereoCalib.stereoCalib opencvConsts Demo.env Demo.params Demo.imageList
      ⟨6, 5⟩ true Demo.run0).trace = [256] ∧
    256 &&& opencvConsts.CV_CALIB_FIX_ASPECT_RATIO = 0 ∧
    256 &&& opencvConsts.CV_CALIB_ZERO_TANGENT_DIST = 0 := by
  decide

/-- C10, as amended. `stereoCalib` calls the solver once, after a successful collection, with
the flag `CV_CALIB_FIX_INTRINSIC` alone when `useIndividualCalibResult` is set and with
`CV_CALIB_FIX_ASPECT_RATIO + CV_CALIB_ZERO_TANGENT_DIST` otherwise; with OpenCV's values the
fix-intrinsics bit is set exactly when the reuse is enabled, and the fixed-aspect-ratio and
zero-tangential-distortion bits are set exactly when it is disabled. -/
theorem stereo_flag_policy {F : Type} [Mul F] [IntCast F] [Zero F] [One F]
    (c : CalibConsts) (env : Env F) (p : StereoCalib.Params F) (imageList : List String)
    (boardSize : Size) (showRectified : Bool) (run : StereoCalib.Run F) :
    solverFlags (StereoCalib.stereoCalib c env p imageList boardSize showRectified run).trace
      = solverFlags run.trace ++
        (if (StereoCalib.findCorners env p.boardSize p.delay_ms imageList
            (StereoCalib.initialFCState run)).1 = some 0
         then [StereoCalib.stereoFlag c p.useIndividualCalibResult] else []) ∧
    StereoCalib.stereoFlag c true = c.CV_CALIB_FIX_INTRINSIC ∧
    StereoCalib.stereoFlag c false
      = c.CV_CALIB_FIX_ASPECT_RATIO + c.CV_CALIB_ZERO_TANGENT_DIST ∧
    (∀ use : Bool,
      (StereoCalib.stereoFlag opencvConsts use &&& opencvConsts.CV_CALIB_FIX_INTRINSIC ≠ 0
        ↔ use = true) ∧
      (StereoCalib.stereoFlag opencvConsts use &&& opencvConsts.CV_CALIB_FIX_ASPECT_RATIO ≠ 0
        ↔ use = false) ∧
      (StereoCalib.stereoFlag opencvConsts use &&& opencvConsts.CV_CALIB_ZERO_TANGENT_DIST ≠ 0
        ↔ use = false)) := by
  refine ⟨stereoCalib_flags c env p imageList boardSize showRectified run, rfl, rfl, ?_⟩
  intro use
  cases use <;> decide

/-! ### The stereo artifact and the end of `stereoCalib` -/

theorem stereoCalib_saves_solution {F : Type} [Mul F] [IntCast F] [Zero F] [One F]
    (c : CalibConsts) (env : Env F) (p : StereoCalib.Params F) (imageList : List String)
    (boardSize : Size) (run : StereoCalib.Run F) (sol : StereoSolution F)
    (hsol : ∀ o i0 i1 a b cc d sz fl, env.stereoCalibrate o i0 i1 a b cc d sz fl = sol)
    (hret : (StereoCalib.findCorners env p.boardSize p.delay_ms imageList
      (StereoCalib.initialFCState run)).1 = some 0)
    (hw : env.canWrite p.outputFn = true) :
    (StereoCalib.stereoCalib c env p imageList boardSize false run).files p.outputFn
      = some (StereoCalib.stereoCalibDoc env.timeString sol.cameraMatrix0 sol.distCoeffs0
          sol.cameraMatrix1 sol.distCoeffs1 sol.R sol.T sol.E sol.Fm sol.rms) := by
  unfold StereoCalib.stereoCalib
  dsimp only
  rw [if_neg (by rw [hret]; exact Option.some_ne_none 0), if_neg (by simpa using hret)]
  simp [hsol, StereoCalib.saveStereoCalibResult, hw, StereoCalib.Run.emit, FileSys.write]

/-- C11, the code at the failing input: the stereo solver returns a left camera matrix with
non-finite entries, which the range check rejects; `stereoCalib` never applies that check
and writes the solution to `stereo_params.xml` all the same. -/
theorem nonfinite_solution_saved :
    Demo.envBad.checkRange Demo.badSolution.cameraMatrix0 = false ∧
    (StereoCalib.findCorners Demo.envBad Demo.params.boardSize Demo.params.delay_ms
      Demo.imageList (StereoCalib.initialFCState Demo.run0)).1 = some 0 ∧
    (StereoCalib.stereoCalib opencvConsts Demo.envBad Demo.params Demo.imageList ⟨6, 5⟩ false
        Demo.run0).files "stereo_params.xml"
      = some (StereoCalib.stereoCalibDoc Demo.envBad.timeString
          Demo.badSolution.cameraMatrix0 Demo.badSolution.distCoeffs0
          Demo.badSolution.cameraMatrix1 Demo.badSolution.distCoeffs1 Demo.badSolution.R
          Demo.badSolution.T Demo.badSolution.E Demo.badSolution.Fm Demo.badSolution.rms) ∧
    fsNode
        (((StereoCalib.stereoCalib opencvConsts Demo.envBad Demo.params Demo.imageList ⟨6, 5⟩
          false Demo.run0).files "stereo_params.xml").getD [])
        "cameraMatrix1"
      = some (FSValue.mat Demo.badSolution.cameraMatrix0) := by
  decide

/-- C16. When the artifact file holds the items `old` (as after `saveStereoCalibResult`) and
can be opened, `saveRectificationResult` leaves these items unchanged and in place and puts
its own after them: as named fields, exactly `R1`, `R2`, `P1`, `P2`, `Q`, in this order; no
other file changes. -/
theorem rectification_appended {F : Type} (env : Env F) (outputFn : String)
    (r : Rectification F) (run : StereoCalib.Run F) (old : List (FSEntry F))
    (hw : env.canWrite outputFn = true) (hold : run.files outputFn = some old) :
    (StereoCalib.saveRectificationResult env outputFn r run).files outputFn
      = some (old ++ StereoCalib.rectificationDoc r) ∧
    (old ++ StereoCalib.rectificationDoc r).take old.length = old ∧
    fsFields (old ++ StereoCalib.rectificationDoc r)
      = fsFields old ++
        [("R1", FSValue.mat r.R1), ("R2", FSValue.mat r.R2), ("P1", FSValue.mat r.P1),
          ("P2", FSValue.mat r.P2), ("Q", FSValue.mat r.Q)] ∧
    (∀ f, f ≠ outputFn →
      (StereoCalib.saveRectificationResult env outputFn r run).files f = run.files f) := by
  unfold StereoCalib.saveRectificationResult
  rw [if_pos hw]
  refine ⟨?_, ?_, ?_, ?_⟩
  · simp [FileSys.write, hold]
  · simp
  · unfold fsFields
    rw [List.filterMap_append]
    rfl
  · intro f hf
    simp [FileSys.write, hf]

/-- C16, instance: the artifact of the demo written by `saveStereoCalibResult`. -/
theorem rectification_appended_witness :
    Demo.env.canWrite "stereo_params.xml" = true ∧
    (StereoCalib.saveStereoCalibResult Demo.env "stereo_params.xml" Demo.cameraMatrix
        Demo.distCoeffs Demo.cameraMatrix Demo.distCoeffs Mat.default Mat.default Mat.default
        Mat.default 0 Demo.run0).files "stereo_params.xml"
      = some (StereoCalib.stereoCalibDoc Demo.env.timeString Demo.cameraMatrix
          Demo.distCoeffs Demo.cameraMatrix Demo.distCoeffs Mat.default Mat.default
          Mat.default Mat.default 0) ∧
    (StereoCalib.saveRectificationResult Demo.env "stereo_params.xml"
        ⟨Demo.cameraMatrix, Mat.default, Mat.default, Mat.default, Mat.default⟩
        (StereoCalib.saveStereoCalibResult Demo.env "stereo_params.xml" Demo.cameraMatrix
          Demo.distCoeffs Demo.cameraMatrix Demo.distCoeffs Mat.default Mat.default
          Mat.default Mat.default 0 Demo.run0)).files "stereo_params.xml"
      = some (StereoCalib.stereoCalibDoc Demo.env.timeString Demo.cameraMatrix
          Demo.distCoeffs Demo.cameraMatrix Demo.distCoeffs Mat.default Mat.default
          Mat.default Mat.default 0 ++
        StereoCalib.rectificationDoc
          ⟨Demo.cameraMatrix, Mat.default, Mat.default, Mat.default, Mat.default⟩) :=
  ⟨by decide, by decide,
    (rectification_appended Demo.env "stereo_params.xml"
      ⟨Demo.cameraMatrix, Mat.default, Mat.default, Mat.default, Mat.default⟩
      (StereoCalib.saveStereoCalibResult Demo.env "stereo_params.xml" Demo.cameraMatrix
        Demo.distCoeffs Demo.cameraMatrix Demo.distCoeffs Mat.default Mat.default
        Mat.default Mat.default 0 Demo.run0)
      (StereoCalib.stereoCalibDoc Demo.env.timeString Demo.cameraMatrix
        Demo.distCoeffs Demo.cameraMatrix Demo.distCoeffs Mat.default Mat.default
        Mat.default Mat.default 0)
      (by decide) (by decide)).1⟩

/-- C20, counterexample: the named fields of the stereo artifact of the demo are the ten
listed here; there is no field for the frame count, the image size, the board geometry or
the flag bitmask (the names under which `saveCameraParams` stores them are absent). -/
theorem stereo_artifact_lacks_fields :
    (fsFields (StereoCalib.stereoCalibDoc Demo.env.timeString Demo.cameraMatrix
      Demo.distCoeffs Demo.cameraMatrix Demo.distCoeffs Mat.default Mat.default Mat.default
      Mat.default (0 : Int))).map Prod.fst
      = ["calibration_Time", "cameraMatrix1", "distCoeffs1", "cameraMatrix2", "distCoeffs2",
          "R", "T", "E", "F", "RMS"] ∧
    (∀ name ∈ ["numberOfGoodFrames", "image_Width", "image_Height", "board_Width",
        "board_Height", "square_Size", "flagValue"],
      fsNode (StereoCalib.stereoCalibDoc Demo.env.timeString Demo.cameraMatrix
        Demo.distCoeffs Demo.cameraMatrix Demo.distCoeffs Mat.default Mat.default Mat.default
        Mat.default (0 : Int)) name = none) := by
  decide

/-- C20, as amended. The artifact written by `saveStereoCalibResult` has exactly these named
fields, in this order: the calibration time, both camera matrices and both distortion
vectors, the rotation, translation, essential and fundamental matrices, and the RMS error
returned by the solver; it is stored under `outputFn` when that file can be opened. -/
theorem stereo_artifact_fields {F : Type} (env : Env F) (outputFn : String)
    (cameraMatrix0 distCoeffs0 cameraMatrix1 distCoeffs1 R T E Fm : Mat F) (rms : F)
    (run : StereoCalib.Run F) :
    fsFields (StereoCalib.stereoCalibDoc env.timeString cameraMatrix0 distCoeffs0
        cameraMatrix1 distCoeffs1 R T E Fm rms)
      = [("calibration_Time", FSValue.str env.timeString),
          ("cameraMatrix1", FSValue.mat cameraMatrix0),
          ("distCoeffs1", FSValue.mat distCoeffs0),
          ("cameraMatrix2", FSValue.mat cameraMatrix1),
          ("distCoeffs2", FSValue.mat distCoeffs1),
          ("R", FSValue.mat R), ("T", FSValue.mat T), ("E", FSValue.mat E),
          ("F", FSValue.mat Fm), ("RMS", FSValue.real rms)] ∧
    (StereoCalib.saveStereoCalibResult env outputFn cameraMatrix0 distCoeffs0 cameraMatrix1
        distCoeffs1 R T E Fm rms run).files outputFn
      = (if env.canWrite outputFn = true then
          some (StereoCalib.stereoCalibDoc env.timeString cameraMatrix0 distCoeffs0
            cameraMatrix1 distCoeffs1 R T E Fm rms)
        else run.files outputFn) := by
  refine ⟨rfl, ?_⟩
  unfold StereoCalib.saveStereoCalibResult
  split_ifs
  · simp [FileSys.write]
  · rfl

/-! ### The stereo command line and exit code -/

theorem stereo_main_exit {F : Type} [Mul F] [IntCast F] [Zero F] [One F] (c : CalibConsts)
    (env : Env F) (p : StereoCalib.Params F) (showRectified : Bool) (argv : List String)
    (run : StereoCalib.Run F)
    (hub : (StereoCalib.argParsing argv p.boardSize showRectified "").ub = false)
    (hok : (StereoCalib.readStringList env
      (StereoCalib.argParsing argv p.boardSize showRectified "").imageListFn).1 = true)
    (hne : (StereoCalib.readStringList env
      (StereoCalib.argParsing argv p.boardSize showRectified "").imageListFn).2.1.isEmpty
        = false)
    (hrun : (StereoCalib.main c env p showRectified argv run).2.ub = false)
    (hthrown : (StereoCalib.main c env p showRectified argv run).2.thrown = false) :
    (StereoCalib.main c env p showRectified argv run).1 = some 0 := by
  unfold StereoCalib.main at hrun hthrown ⊢
  dsimp only at hrun hthrown ⊢
  simp only [hub, hok, hne, Bool.false_eq_true, if_false, Bool.not_true, Bool.or_self]
    at hrun hthrown ⊢
  rw [hrun, hthrown]
  rfl

/-- C17, the code at two failing inputs: started without arguments, the program reads the
list `stereo_calib.xml` of three names, prints the error for a list of odd length and exits
with code 0; started on `list.xml` with an operator who stops at the first pair, it has one
accepted pair, prints the error for too few pairs and again exits with code 0. In both runs
no file is written. -/
theorem abort_exits_zero :
    ((StereoCalib.main opencvConsts Demo.env Demo.params true ["./stereo_calib"]
        Demo.run0).1 = some 0 ∧
      (StereoCalib.main opencvConsts Demo.env Demo.params true ["./stereo_calib"]
        Demo.run0).2.trace
        = [Event.cout "Error: the image list contains odd number of elements!"] ∧
      (StereoCalib.main opencvConsts Demo.env Demo.params true ["./stereo_calib"]
        Demo.run0).2.files "stereo_params.xml" = none) ∧
    ((StereoCalib.main opencvConsts Demo.envQuit Demo.params true
        ["./stereo_calib", "dummy", "list.xml"] Demo.run0).1 = some 0 ∧
      (acceptedPairs Demo.envQuit ⟨6, 5⟩ Demo.imageList Size.default).length = 1 ∧
      (StereoCalib.main opencvConsts Demo.envQuit Demo.params true
        ["./stereo_calib", "dummy", "list.xml"] Demo.run0).2.trace.filter Event.isCout
        = [Event.cout "1 pairs have been successfully detected.",
            Event.cout "Error: too little pairs to run the calibration. Exiting."] ∧
      (StereoCalib.main opencvConsts Demo.envQuit Demo.params true
        ["./stereo_calib", "dummy", "list.xml"] Demo.run0).2.files "stereo_params.xml"
        = none) := by
  decide

/-- C19, the code at the failing input: on the documented command line
`./stereo_calib -w 9 -h 7 list.xml` the width is read, but `-h` is skipped by the
`argv[++i]` of line 107, so that `7` becomes the image list name and the height stays 5;
at `list.xml` the same `argv[++i]` reads `argv[argc]`, a null pointer, as a string. -/
theorem documented_command_line_fails :
    StereoCalib.argParsing ["./stereo_calib", "-w", "9", "-h", "7", "list.xml"] ⟨6, 5⟩ true ""
      = { boardSize := ⟨9, 5⟩, showRectified := true, imageListFn := "7", out := [],
          returned := false, ub := true } ∧
    (StereoCalib.argStep ["./stereo_calib", "-w", "9", "-h", "7", "list.xml"] 3
        { boardSize := ⟨9, 5⟩, showRectified := true, imageListFn := "", out := [],
          returned := false, ub := false }).2.imageListFn = "7" ∧
    (StereoCalib.argStep ["./stereo_calib", "-w", "9", "-h", "7", "list.xml"] 5
        { boardSize := ⟨9, 5⟩, showRectified := true, imageListFn := "7", out := [],
          returned := false, ub := false }).2.ub = true := by
  decide

/-! ### The quality figures -/

theorem reproj_foldl_totalPoints {F : Type} [Add F] [Mul F] [Div F] [IntCast F] (env : Env F)
    (objectPoints : List (List (Point3f F))) (imagePoints : List (List (Point2f F)))
    (rvecs tvecs : List (Mat F)) (cameraMatrix distCoeffs : Mat F) :
    ∀ (is : List Nat) (acc : CameraCalib.ReprojAcc F),
      (is.foldl (CameraCalib.reprojStep env objectPoints imagePoints rvecs tvecs cameraMatrix
        distCoeffs) acc).totalPoints = acc.totalPoints + is.length * objectPoints.length := by
  intro is
  induction is with
  | nil => intro acc; simp
  | cons i is ih =>
    intro acc
    rw [List.foldl_cons, ih]
    simp only [CameraCalib.reprojStep, List.length_cons]
    ring

theorem reprojLoop_totalPoints {F : Type} [Add F] [Mul F] [Div F] [IntCast F] [Zero F]
    (env : Env F) (objectPoints : List (List (Point3f F)))
    (imagePoints : List (List (Point2f F))) (rvecs tvecs : List (Mat F))
    (cameraMatrix distCoeffs : Mat F) (perViewErrors : List F) :
    (CameraCalib.reprojLoop env objectPoints imagePoints rvecs tvecs cameraMatrix distCoeffs
      perViewErrors).totalPoints = objectPoints.length * objectPoints.length := by
  unfold CameraCalib.reprojLoop
  rw [reproj_foldl_totalPoints]
  simp

/-- C13, the code at the failing input: four frames of sixteen points each, every frame
with the L2 error 8.  Line 314 takes `n` from `objectPoints.size()`, the number of frames,
so the code divides the summed squares 256 by 4 * 4 = 16 and each frame's 64 by 4, and
returns 4 with per-view errors 4; the RMS over all 64 points is 2, with per-view errors
2. -/
theorem reprojection_divides_by_frames :
    CameraCalib.computeReprojectionErrors Demo.env Demo.objectPoints4 Demo.imagePoints4 [] []
        Demo.cameraMatrix Demo.distCoeffs []
      = (4, [4, 4, 4, 4]) ∧
    reprojectionRmsSpec Demo.env Demo.objectPoints4 Demo.imagePoints4 [] []
        Demo.cameraMatrix Demo.distCoeffs
      = (2, [2, 2, 2, 2]) ∧
    (CameraCalib.reprojLoop Demo.env Demo.objectPoints4 Demo.imagePoints4 [] []
        Demo.cameraMatrix Demo.distCoeffs []).totalPoints = 16 ∧
    (Demo.objectPoints4.map List.length).sum = 64 := by
  decide

theorem foldl_add_eq_sum {F : Type} [AddMonoid F] (g : Nat → F) :
    ∀ (js : List Nat) (a : F), js.foldl (fun e j => e + g j) a = a + (js.map g).sum := by
  intro js
  induction js with
  | nil => intro a; simp
  | cons j js ih =>
    intro a
    rw [List.foldl_cons, ih, List.map_cons, List.sum_cons, add_assoc]

theorem errij_eq_term {F : Type} [LinearOrderedCommRing F] (env : Env F)
    (imagePoints0 imagePoints1 : List (List (Point2f F)))
    (cameraMatrix0 distCoeffs0 cameraMatrix1 distCoeffs1 Fm : Mat F) (i j : Nat) :
    StereoCalib.errij
        ((env.undistortPoints (imagePoints0.getD i []) cameraMatrix0 distCoeffs0).2.getD j
          ⟨0, 0⟩)
        ((env.undistortPoints (imagePoints1.getD i []) cameraMatrix1 distCoeffs1).2.getD j
          ⟨0, 0⟩)
        ((env.computeCorrespondEpilines
          (env.undistortPoints (imagePoints0.getD i []) cameraMatrix0 distCoeffs0).1 1
          Fm).getD j ⟨0, 0, 0⟩)
        ((env.computeCorrespondEpilines
          (env.undistortPoints (imagePoints1.getD i []) cameraMatrix1 distCoeffs1).1 2
          Fm).getD j ⟨0, 0, 0⟩)
      = epipolarTerm env imagePoints0 imagePoints1 cameraMatrix0 distCoeffs0 cameraMatrix1
          distCoeffs1 Fm i j := by
  unfold StereoCalib.errij epipolarTerm
  dsimp only
  rw [mul_comm _ (_ : Vec3f F).v0, mul_comm _ (_ : Vec3f F).v1,
    mul_comm _ (_ : Vec3f F).v0, mul_comm _ (_ : Vec3f F).v1]

theorem epiStep_eq {F : Type} [LinearOrderedCommRing F] (env : Env F)
    (imagePoints0 imagePoints1 : List (List (Point2f F)))
    (cameraMatrix0 distCoeffs0 cameraMatrix1 distCoeffs1 Fm : Mat F)
    (acc : StereoCalib.EpiAcc F) (i : Nat) :
    StereoCalib.epiStep env imagePoints0 imagePoints1 cameraMatrix0 distCoeffs0 cameraMatrix1
        distCoeffs1 Fm acc i
      = { err := acc.err + ((List.range (pairPoints imagePoints0 i)).map
            (epipolarTerm env imagePoints0 imagePoints1 cameraMatrix0 distCoeffs0
              cameraMatrix1 distCoeffs1 Fm i)).sum,
          npoints := acc.npoints + pairPoints imagePoints0 i } := by
  unfold StereoCalib.epiStep
  dsimp only
  rw [foldl_add_eq_sum]
  simp only [errij_eq_term]
  rfl

theorem foldl_epiStep {F : Type} [LinearOrderedCommRing F] (env : Env F)
    (imagePoints0 imagePoints1 : List (List (Point2f F)))
    (cameraMatrix0 distCoeffs0 cameraMatrix1 distCoeffs1 Fm : Mat F) :
    ∀ (is : List Nat) (acc : StereoCalib.EpiAcc F),
      is.foldl (StereoCalib.epiStep env imagePoints0 imagePoints1 cameraMatrix0 distCoeffs0
          cameraMatrix1 distCoeffs1 Fm) acc
        = { err := acc.err + (is.map (fun i =>
              ((List.range (pairPoints imagePoints0 i)).map
                (epipolarTerm env imagePoints0 imagePoints1 cameraMatrix0 distCoeffs0
                  cameraMatrix1 distCoeffs1 Fm i)).sum)).sum,
            npoints := acc.npoints + (is.map (pairPoints imagePoints0)).sum } := by
  intro is
  induction is with
  | nil => intro acc; simp
  | cons i is ih =>
    intro acc
    rw [List.foldl_cons, ih, epiStep_eq]
    simp only [List.map_cons, List.sum_cons, add_assoc]

/-- C14. In exact arithmetic the value reported by `computeReprojectionError` is the sum,
over all pairs `i < nimages` and all points `j` of pair `i`, of
`|a1*x0 + b1*y0 + c1| + |a0*x1 + b0*y1 + c0|`, divided by the total number of points, where
`(x0, y0)`, `(x1, y1)` are the `j`-th left and right points of the pair, `(a1, b1, c1)` is
the epipolar line of the `j`-th right point and `(a0, b0, c0)` that of the `j`-th left
point. -/
theorem epipolar_error_formula {F : Type} [LinearOrderedCommRing F] [Div F] (env : Env F)
    (imagePoints0 imagePoints1 : List (List (Point2f F))) (nimages : Nat)
    (cameraMatrix0 distCoeffs0 cameraMatrix1 distCoeffs1 Fm : Mat F) :
    StereoCalib.computeReprojectionError env imagePoints0 imagePoints1 nimages cameraMatrix0
        distCoeffs0 cameraMatrix1 distCoeffs1 Fm
      = epipolarErrorSpec env imagePoints0 imagePoints1 nimages cameraMatrix0 distCoeffs0
          cameraMatrix1 distCoeffs1 Fm := by
  unfold StereoCalib.computeReprojectionError epipolarErrorSpec
  dsimp only
  rw [foldl_epiStep]
  simp only [zero_add, Nat.zero_add]

/-! ### The single-camera pipeline: the collection loop -/

theorem mono_emit_trace {F : Type} (st : CameraCalib.State F) (e : Event F) :
    (st.emit e).trace = st.trace ++ [e] := rfl

theorem getImage_empty_of_end {F : Type} (env : Env F) (imageList : List String)
    (currentIndex : Nat) (h : imageList.length ≤ currentIndex) :
    (CameraCalib.getImage env imageList currentIndex).1.empty = true := by
  unfold CameraCalib.getImage
  rw [if_neg (by omega)]
  rfl

theorem collectStep_imageList {F : Type} (env : Env F) (st : CameraCalib.State F) :
    (CameraCalib.collectStep env st).2.imageList = st.imageList := by
  unfold CameraCalib.collectStep
  by_cases h1 : (CameraCalib.getImage env st.imageList st.currentIndex).1.empty = true
  · simp [h1, CameraCalib.State.emit]
  · cases h2 : (env.findChessboardCornersFast
        (CameraCalib.getImage env st.imageList st.currentIndex).1 CameraCalib.boardSize).1 <;>
      simp [h1, h2, CameraCalib.State.emit]

theorem collectStep_break_of_end {F : Type} (env : Env F) (st : CameraCalib.State F)
    (h : st.imageList.length ≤ st.currentIndex) :
    (CameraCalib.collectStep env st).1 = true := by
  unfold CameraCalib.collectStep
  simp [getImage_empty_of_end env st.imageList st.currentIndex h]

theorem collectStep_currentIndex {F : Type} (env : Env F) (st : CameraCalib.State F)
    (h : (CameraCalib.collectStep env st).1 = false) :
    (CameraCalib.collectStep env st).2.currentIndex = st.currentIndex + 1 := by
  unfold CameraCalib.collectStep at h ⊢
  by_cases h1 : (CameraCalib.getImage env st.imageList st.currentIndex).1.empty = true
  · simp [h1] at h
  · cases h2 : (env.findChessboardCornersFast
        (CameraCalib.getImage env st.imageList st.currentIndex).1 CameraCalib.boardSize).1 <;>
      simp [h1, h2, CameraCalib.State.emit]

theorem collectStep_counts {F : Type} (env : Env F) (st : CameraCalib.State F)
    (h : st.goodFrameCnt = st.imagePoints.length) :
    (CameraCalib.collectStep env st).2.goodFrameCnt
        = (CameraCalib.collectStep env st).2.imagePoints.length ∧
      (CameraCalib.collectStep env st).2.goodFrameCnt ≤ st.goodFrameCnt + 1 := by
  unfold CameraCalib.collectStep
  by_cases h1 : (CameraCalib.getImage env st.imageList st.currentIndex).1.empty = true
  · simp [h1, CameraCalib.State.emit, h]
  · cases h2 : (env.findChessboardCornersFast
        (CameraCalib.getImage env st.imageList st.currentIndex).1 CameraCalib.boardSize).1 <;>
      simp [h1, h2, CameraCalib.State.emit, h]

theorem collectLoop_done {F : Type} (env : Env F) (fuel : Nat) (st : CameraCalib.State F)
    (h : CameraCalib.frameNumber ≤ st.goodFrameCnt) :
    CameraCalib.collectLoop env fuel st = st := by
  cases fuel with
  | zero => rfl
  | succ n =>
    unfold CameraCalib.collectLoop
    rw [if_neg (by omega)]

theorem collectLoop_counts {F : Type} (env : Env F) :
    ∀ (fuel : Nat) (st : CameraCalib.State F),
      st.goodFrameCnt = st.imagePoints.length → st.goodFrameCnt ≤ CameraCalib.frameNumber →
      (CameraCalib.collectLoop env fuel st).goodFrameCnt
          = (CameraCalib.collectLoop env fuel st).imagePoints.length ∧
        (CameraCalib.collectLoop env fuel st).goodFrameCnt ≤ CameraCalib.frameNumber := by
  intro fuel
  induction fuel with
  | zero => intro st h1 h2; exact ⟨h1, h2⟩
  | succ n ih =>
    intro st h1 h2
    unfold CameraCalib.collectLoop
    by_cases hg : st.goodFrameCnt < CameraCalib.frameNumber
    · rw [if_pos hg]
      dsimp only
      have hs := collectStep_counts env st h1
      by_cases hb : (CameraCalib.collectStep env st).1 = true
      · rw [if_pos hb]
        exact ⟨hs.1, by omega⟩
      · rw [if_neg hb]
        exact ih _ hs.1 (by omega)
    · rw [if_neg hg]
      exact ⟨h1, h2⟩

/-- The fuel `imageList.size() + 1` given to `collectLoop` by `mainCollect` is enough: once
the fuel exceeds the number of names left by one, more fuel changes nothing. -/
theorem collectLoop_fuel {F : Type} (env : Env F) :
    ∀ (n : Nat) (st : CameraCalib.State F), 1 ≤ n →
      st.imageList.length < st.currentIndex + n →
      CameraCalib.collectLoop env (n + 1) st = CameraCalib.collectLoop env n st := by
  intro n
  induction n with
  | zero => intro st h; omega
  | succ n ih =>
    intro st _ hlen
    rw [CameraCalib.collectLoop, CameraCalib.collectLoop]
    by_cases hg : st.goodFrameCnt < CameraCalib.frameNumber
    · rw [if_pos hg, if_pos hg]
      dsimp only
      cases hb : (CameraCalib.collectStep env st).1 with
      | true => simp
      | false =>
        simp only [Bool.false_eq_true, if_false]
        have hn : 1 ≤ n := by
          rcases Nat.eq_zero_or_pos n with h0 | h0
          · subst h0
            have := collectStep_break_of_end env st (by omega)
            rw [hb] at this
            exact absurd this (by simp)
          · exact h0
        apply ih _ hn
        rw [collectStep_imageList, collectStep_currentIndex env st hb]
        omega
    · rw [if_neg hg, if_neg hg]

/-! ### The single-camera pipeline: what the trace and the counters keep -/

theorem ui_none {F α : Type} (f : Event F → Option α)
    (hf : ∀ e : Event F, e.isUi = true → f e = none) :
    (∀ s, f (Event.cout s) = none) ∧ (∀ s x, f (Event.coutReal s x) = none) ∧
    (∀ s, f (Event.imread s) = none) ∧ (∀ m, f (Event.findChessboardCorners m) = none) ∧
    (∀ m, f (Event.cornerSubPix m) = none) ∧ (∀ m, f (Event.drawChessboardCorners m) = none) ∧
    (∀ s, f (Event.imshow s) = none) ∧ (∀ d, f (Event.waitKey d) = none) ∧
    (∀ s, f (Event.putText s) = none) ∧ (∀ s, f (Event.namedWindow s) = none) ∧
    (∀ s, f (Event.destroyWindow s) = none) ∧
    (∀ a b c d, f (Event.initUndistortRectifyMap a b c d) = none) :=
  ⟨fun _ => hf _ rfl, fun _ _ => hf _ rfl, fun _ => hf _ rfl, fun _ => hf _ rfl,
   fun _ => hf _ rfl, fun _ => hf _ rfl, fun _ => hf _ rfl, fun _ => hf _ rfl,
   fun _ => hf _ rfl, fun _ => hf _ rfl, fun _ => hf _ rfl, fun _ _ _ _ => hf _ rfl⟩

theorem filterMap_cout {F α : Type} (f : Event F → Option α)
    (hf : ∀ e : Event F, e.isUi = true → f e = none) (l : List String) :
    (l.map Event.cout).filterMap f = [] := by
  induction l with
  | nil => rfl
  | cons a l ih => simp [List.filterMap_cons, (ui_none f hf).1, ih]

theorem argStep_keeps {F α : Type} (f : Event F → Option α)
    (hf : ∀ e : Event F, e.isUi = true → f e = none) (env : Env F) (argv : List String)
    (i : Nat) (st : CameraCalib.State F) :
    (CameraCalib.argStep env argv i st).2.trace.filterMap f = st.trace.filterMap f ∧
      (CameraCalib.argStep env argv i st).2.imagePoints = st.imagePoints ∧
      (CameraCalib.argStep env argv i st).2.goodFrameCnt = st.goodFrameCnt := by
  have hc := (ui_none f hf).1
  unfold CameraCalib.argStep
  dsimp only
  split_ifs <;> (repeat' split) <;> simp_all [List.filterMap_append]

theorem argLoop_keeps {F α : Type} (f : Event F → Option α)
    (hf : ∀ e : Event F, e.isUi = true → f e = none) (env : Env F) (argv : List String) :
    ∀ (fuel i : Nat) (st : CameraCalib.State F),
      (CameraCalib.argLoop env argv fuel i st).trace.filterMap f = st.trace.filterMap f ∧
        (CameraCalib.argLoop env argv fuel i st).imagePoints = st.imagePoints ∧
        (CameraCalib.argLoop env argv fuel i st).goodFrameCnt = st.goodFrameCnt := by
  intro fuel
  induction fuel with
  | zero => intro i st; exact ⟨rfl, rfl, rfl⟩
  | succ n ih =>
    intro i st
    unfold CameraCalib.argLoop
    have hs := argStep_keeps f hf env argv i st
    by_cases hi : i < argv.length
    · rw [if_pos hi]
      dsimp only
      by_cases hu : (CameraCalib.argStep env argv i st).2.ub = true
      · rw [if_pos hu]
        exact hs
      · rw [if_neg hu]
        have h := ih ((CameraCalib.argStep env argv i st).1 + 1)
          (CameraCalib.argStep env argv i st).2
        exact ⟨h.1.trans hs.1, h.2.1.trans hs.2.1, h.2.2.trans hs.2.2⟩
    · rw [if_neg hi]
      exact ⟨rfl, rfl, rfl⟩

theorem createImageList_keeps {F α : Type} (f : Event F → Option α)
    (hf : ∀ e : Event F, e.isUi = true → f e = none) (env : Env F)
    (st : CameraCalib.State F) :
    (CameraCalib.createImageList env st).trace.filterMap f = st.trace.filterMap f ∧
      (CameraCalib.createImageList env st).imagePoints = st.imagePoints ∧
      (CameraCalib.createImageList env st).goodFrameCnt = st.goodFrameCnt := by
  have hc := (ui_none f hf).1
  unfold CameraCalib.createImageList
  dsimp only
  split_ifs <;> simp [CameraCalib.State.emit, List.filterMap_append, hc]

theorem mainSetup_keeps {F α : Type} (f : Event F → Option α)
    (hf : ∀ e : Event F, e.isUi = true → f e = none) (c : CalibConsts) (env : Env F)
    (argv : List String) (files : FileSys F) :
    (CameraCalib.mainSetup c env argv files).trace.filterMap f = [] ∧
      (CameraCalib.mainSetup c env argv files).imagePoints = [] ∧
      (CameraCalib.mainSetup c env argv files).goodFrameCnt = 0 := by
  obtain ⟨hc, -, -, -, -, -, -, -, -, hw, -⟩ := ui_none f hf
  unfold CameraCalib.mainSetup
  dsimp only
  generalize hst0 : ({ CameraCalib.initialState files with
    trace := (CameraCalib.initialState files).trace ++
      [ Event.cout "Usage:",
        Event.cout "\t-i: xml/yaml file containing image list;",
        Event.cout "\t    (if omitted, program will prompt to input from keyboard)",
        Event.cout
          "\t-o: output filename to save calibration result, default is 'result_TIME.xml'." ] }
    : CameraCalib.State F) = st0
  have h0 : st0.trace.filterMap f = [] ∧ st0.imagePoints = [] ∧ st0.goodFrameCnt = 0 := by
    subst hst0
    simp [CameraCalib.initialState, hc]
  have h1 := argLoop_keeps f hf env argv argv.length 1 st0
  generalize CameraCalib.argLoop env argv argv.length 1 st0 = st1 at h1 ⊢
  have h1k : st1.trace.filterMap f = [] ∧ st1.imagePoints = [] ∧ st1.goodFrameCnt = 0 :=
    ⟨h1.1.trans h0.1, h1.2.1.trans h0.2.1, h1.2.2.trans h0.2.2⟩
  by_cases hu1 : st1.ub = true
  · rw [if_pos hu1]
    exact h1k
  · rw [if_neg hu1]
    have h2 : ∀ st2 : CameraCalib.State F,
        st2 = (if st1.imageList.length = 0 then CameraCalib.createImageList env st1 else st1) →
        st2.trace.filterMap f = [] ∧ st2.imagePoints = [] ∧ st2.goodFrameCnt = 0 := by
      intro st2 h
      subst h
      split_ifs
      · have h := createImageList_keeps f hf env st1
        exact ⟨h.1.trans h1k.1, h.2.1.trans h1k.2.1, h.2.2.trans h1k.2.2⟩
      · exact h1k
    have h2k := h2 _ rfl
    generalize (if st1.imageList.length = 0 then CameraCalib.createImageList env st1 else st1)
      = st2 at h2k ⊢
    by_cases hu2 : st2.ub = true
    · rw [if_pos hu2]
      exact h2k
    · rw [if_neg hu2]
      split_ifs <;> simp [CameraCalib.State.emit, List.filterMap_append, hw, h2k]

theorem getImage_event {F α : Type} (f : Event F → Option α)
    (hf : ∀ e : Event F, e.isUi = true → f e = none) (env : Env F) (imageList : List String)
    (currentIndex : Nat) : f (CameraCalib.getImage env imageList currentIndex).2 = none := by
  unfold CameraCalib.getImage
  split_ifs
  · exact hf _ rfl
  · exact hf _ rfl

theorem collectStep_trace {F α : Type} (f : Event F → Option α)
    (hf : ∀ e : Event F, e.isUi = true → f e = none) (env : Env F)
    (st : CameraCalib.State F) :
    (CameraCalib.collectStep env st).2.trace.filterMap f = st.trace.filterMap f := by
  obtain ⟨hc, -, -, h4, h5, h6, h7, h8, h9, -⟩ := ui_none f hf
  have hg := getImage_event f hf env st.imageList st.currentIndex
  unfold CameraCalib.collectStep
  by_cases h1 : (CameraCalib.getImage env st.imageList st.currentIndex).1.empty = true
  · simp [h1, CameraCalib.State.emit, List.filterMap_append, hg]
  · cases h2 : (env.findChessboardCornersFast
        (CameraCalib.getImage env st.imageList st.currentIndex).1 CameraCalib.boardSize).1 <;>
      simp [h1, h2, CameraCalib.State.emit, List.filterMap_append, hg, hc, h4, h5, h6, h7, h8,
        h9]

theorem collectLoop_trace {F α : Type} (f : Event F → Option α)
    (hf : ∀ e : Event F, e.isUi = true → f e = none) (env : Env F) :
    ∀ (fuel : Nat) (st : CameraCalib.State F),
      (CameraCalib.collectLoop env fuel st).trace.filterMap f = st.trace.filterMap f := by
  intro fuel
  induction fuel with
  | zero => intro st; rfl
  | succ n ih =>
    intro st
    unfold CameraCalib.collectLoop
    have hs := collectStep_trace f hf env st
    dsimp only
    split_ifs
    · exact hs
    · exact (ih _).trans hs
    · rfl

theorem mainCollect_trace {F α : Type} (f : Event F → Option α)
    (hf : ∀ e : Event F, e.isUi = true → f e = none) (c : CalibConsts) (env : Env F)
    (argv : List String) (files : FileSys F) :
    (CameraCalib.mainCollect c env argv files).trace.filterMap f = [] := by
  have h := (mainSetup_keeps f hf c env argv files).1
  unfold CameraCalib.mainCollect
  dsimp only
  split_ifs
  · exact h
  · exact (collectLoop_trace f hf env _ _).trans h

theorem mainCollect_counts {F : Type} (c : CalibConsts) (env : Env F) (argv : List String)
    (files : FileSys F) :
    (CameraCalib.mainCollect c env argv files).goodFrameCnt
        = (CameraCalib.mainCollect c env argv files).imagePoints.length ∧
      (CameraCalib.mainCollect c env argv files).goodFrameCnt ≤ CameraCalib.frameNumber := by
  have h := mainSetup_keeps (fun _ => (none : Option Unit)) (fun _ _ => rfl) c env argv files
  have h1 : (CameraCalib.mainSetup c env argv files).goodFrameCnt
      = (CameraCalib.mainSetup c env argv files).imagePoints.length := by
    rw [h.2.1, h.2.2]; rfl
  have h2 : (CameraCalib.mainSetup c env argv files).goodFrameCnt ≤ CameraCalib.frameNumber := by
    rw [h.2.2]; exact Nat.zero_le _
  unfold CameraCalib.mainCollect
  dsimp only
  split_ifs
  · exact ⟨h1, h2⟩
  · exact collectLoop_counts env _ _ h1 h2

theorem mono_displayLoop_trace {F α : Type} (f : Event F → Option α)
    (hf : ∀ e : Event F, e.isUi = true → f e = none) (env : Env F) (imageList : List String)
    (map1 map2 : Mat F) :
    ∀ (rem i keys : Nat) (tr : List (Event F)),
      (CameraCalib.displayLoop env imageList map1 map2 rem i keys tr).filterMap f
        = tr.filterMap f := by
  obtain ⟨-, -, h3, -, -, -, h7, h8, -⟩ := ui_none f hf
  intro rem
  induction rem with
  | zero => intro i keys tr; rfl
  | succ n ih =>
    intro i keys tr
    unfold CameraCalib.displayLoop
    dsimp only
    split_ifs
    · rw [ih]; simp [List.filterMap_append, h3]
    · simp [List.filterMap_append, h3, h7, h8]
    · rw [ih]; simp [List.filterMap_append, h3, h7, h8]

theorem displayUndistortedImage_trace {F α : Type} (f : Event F → Option α)
    (hf : ∀ e : Event F, e.isUi = true → f e = none) (env : Env F) (imageList : List String)
    (cameraMatrix distCoeffs : Mat F) (tr : List (Event F)) :
    (CameraCalib.displayUndistortedImage env imageList cameraMatrix distCoeffs tr).filterMap f
      = tr.filterMap f := by
  unfold CameraCalib.displayUndistortedImage
  dsimp only
  rw [mono_displayLoop_trace f hf]
  simp [List.filterMap_append, (ui_none f hf).2.2.2.2.2.2.2.2.2.2.2]

theorem mono_main_ub {F : Type} [Add F] [Mul F] [Div F] [IntCast F] [Zero F] [One F]
    (c : CalibConsts) (env : Env F) (argv : List String) (files : FileSys F)
    (h : (CameraCalib.mainCollect c env argv files).ub = true) :
    CameraCalib.main c env argv files = (none, CameraCalib.mainCollect c env argv files) := by
  unfold CameraCalib.main
  dsimp only
  rw [if_pos h]

theorem mono_main_trace {F α : Type} [Add F] [Mul F] [Div F] [IntCast F] [Zero F] [One F]
    (f : Event F → Option α) (hf : ∀ e : Event F, e.isUi = true → f e = none)
    (c : CalibConsts) (env : Env F) (argv : List String) (files : FileSys F)
    (h : (CameraCalib.mainCollect c env argv files).ub = false) :
    (CameraCalib.main c env argv files).2.trace.filterMap f
      = (CameraCalib.mainCalibration c env
            (CameraCalib.mainCollect c env argv files)).2.filterMap f ++
        (if (CameraCalib.mainCalibration c env
            (CameraCalib.mainCollect c env argv files)).1.ok = true
         then [Event.saveCameraParams
            (CameraCalib.mainCollect c env argv files).outputFileName].filterMap f
         else []) := by
  obtain ⟨-, h2, -, -, -, -, -, -, -, -, h11, -⟩ := ui_none f hf
  have hcol := mainCollect_trace f hf c env argv files
  unfold CameraCalib.main CameraCalib.mainCalibration
  dsimp only
  rw [if_neg (by simp [h])]
  dsimp only
  rw [displayUndistortedImage_trace f hf]
  generalize CameraCalib.mainCollect c env argv files = st at h hcol ⊢
  generalize CameraCalib.runCalibration c env st.flag CameraCalib.imageSize st.imagePoints
    (CameraCalib.replicateBoard st.goodFrameCnt st.objectPoints) [] = r
  cases hok : r.1.ok
  · simp [CameraCalib.State.emit, List.filterMap_append, hcol, h2, h11]
  · simp only [CameraCalib.State.emit, List.filterMap_append, hcol, if_true, List.nil_append,
      List.append_assoc]
    simp [List.filterMap_cons, h2, h11]

theorem saveCalls_ui {F : Type} (e : Event F) (h : e.isUi = true) :
    (match e with
      | Event.saveCameraParams f => some f
      | _ => none) = none := by
  cases e <;> first | rfl | simp [Event.isUi] at h

theorem calibFlags_ui {F : Type} (e : Event F) (h : e.isUi = true) :
    (match e with
      | Event.calibrateCamera _ _ _ flags => some flags
      | _ => none) = none := by
  cases e <;> first | rfl | simp [Event.isUi] at h

theorem mono_main_files {F : Type} [Add F] [Mul F] [Div F] [IntCast F] [Zero F] [One F]
    (c : CalibConsts) (env : Env F) (argv : List String) (files : FileSys F)
    (hub : (CameraCalib.mainCollect c env argv files).ub = false)
    (hok : (CameraCalib.mainCalibration c env
      (CameraCalib.mainCollect c env argv files)).1.ok = true) :
    (CameraCalib.main c env argv files).2.files
      = CameraCalib.saveCameraParams c env
          (CameraCalib.mainCollect c env argv files).outputFileName
          (CameraCalib.mainCollect c env argv files).flag CameraCalib.imageSize
          (CameraCalib.mainCalibration c env
            (CameraCalib.mainCollect c env argv files)).1.cameraMatrix
          (CameraCalib.mainCalibration c env
            (CameraCalib.mainCollect c env argv files)).1.distCoeffs
          (CameraCalib.mainCalibration c env
            (CameraCalib.mainCollect c env argv files)).1.rvecs
          (CameraCalib.mainCalibration c env
            (CameraCalib.mainCollect c env argv files)).1.tvecs
          (CameraCalib.mainCalibration c env
            (CameraCalib.mainCollect c env argv files)).1.reprojErrs
          (CameraCalib.mainCalibration c env
            (CameraCalib.mainCollect c env argv files)).1.totalAvgErr
          (CameraCalib.mainCollect c env argv files).files := by
  unfold CameraCalib.main CameraCalib.mainCalibration at *
  dsimp only at hok ⊢
  rw [if_neg (by simp [hub])]
  dsimp only
  rw [if_pos hok]
  rfl

/-- C12. In the single-camera pipeline `runCalibration` returns true exactly when the range
check passes on both the camera matrix and the distortion coefficients it hands back, which
are those of the solver; and `main` calls `saveCameraParams`, once and with the global
output file name, exactly when the run reaches the calibration and `runCalibration` has
returned true, and never otherwise. -/
theorem save_iff_range_check {F : Type} [Add F] [Mul F] [Div F] [IntCast F] [Zero F] [One F]
    (c : CalibConsts) (env : Env F) (argv : List String) (files : FileSys F) (flag : Nat)
    (imageSize : Size) (imagePoints : List (List (Point2f F)))
    (objectPoints : List (List (Point3f F))) (reprojErrs : List F) :
    ((CameraCalib.runCalibration c env flag imageSize imagePoints objectPoints reprojErrs).1.ok
        = true ↔
      env.checkRange (CameraCalib.runCalibration c env flag imageSize imagePoints objectPoints
          reprojErrs).1.cameraMatrix = true ∧
        env.checkRange (CameraCalib.runCalibration c env flag imageSize imagePoints
          objectPoints reprojErrs).1.distCoeffs = true) ∧
    (∃ cameraMatrix0 distCoeffs0 : Mat F,
      (CameraCalib.runCalibration c env flag imageSize imagePoints objectPoints
          reprojErrs).1.cameraMatrix
        = (env.calibrateCamera objectPoints imagePoints imageSize cameraMatrix0 distCoeffs0
            (CameraCalib.solverFlag c flag)).cameraMatrix ∧
      (CameraCalib.runCalibration c env flag imageSize imagePoints objectPoints
          reprojErrs).1.distCoeffs
        = (env.calibrateCamera objectPoints imagePoints imageSize cameraMatrix0 distCoeffs0
            (CameraCalib.solverFlag c flag)).distCoeffs) ∧
    saveCalls (CameraCalib.main c env argv files).2.trace =
      (if (CameraCalib.mainCollect c env argv files).ub = false ∧
          (CameraCalib.mainCalibration c env
            (CameraCalib.mainCollect c env argv files)).1.ok = true
        then [(CameraCalib.mainCollect c env argv files).outputFileName] else []) := by
  refine ⟨?_, ?_, ?_⟩
  · unfold CameraCalib.runCalibration
    dsimp only
    rw [Bool.and_eq_true]
  · unfold CameraCalib.runCalibration
    exact ⟨_, _, rfl, rfl⟩
  · unfold saveCalls
    cases hub : (CameraCalib.mainCollect c env argv files).ub with
    | true =>
      rw [mono_main_ub c env argv files hub]
      simp only [Bool.true_eq_false, false_and, if_false]
      exact mainCollect_trace _ saveCalls_ui c env argv files
    | false =>
      rw [mono_main_trace _ saveCalls_ui c env argv files hub]
      cases hok : (CameraCalib.mainCalibration c env
          (CameraCalib.mainCollect c env argv files)).1.ok
      · simp [CameraCalib.mainCalibration, CameraCalib.runCalibration]
      · simp [CameraCalib.mainCalibration, CameraCalib.runCalibration]

/-- C12 at concrete runs: with a solver whose camera matrix holds a non-finite entry nothing
is saved. -/
theorem save_iff_range_check_witness :
    saveCalls (CameraCalib.main opencvConsts Demo.envBadMono Demo.monoArgs
      (fun _ => none)).2.trace = [] :=
  (save_iff_range_check opencvConsts Demo.envBadMono Demo.monoArgs (fun _ => none) 0
    ⟨0, 0⟩ [] [] []).2.2.trans (by decide)

/-- C15, the code at a concrete run: `camera_calib -i list.xml` hands the flags 6158 (the
global `flag`, 14, with `CV_CALIB_FIX_K4` and `CV_CALIB_FIX_K5`) to the solver and writes
14 under `flagValue`. -/
theorem flagValue_differs_from_solver_flags :
    calibFlags (CameraCalib.main opencvConsts Demo.env Demo.monoArgs (fun _ => none)).2.trace
      = [6158] ∧
    ((CameraCalib.main opencvConsts Demo.env Demo.monoArgs (fun _ => none)).2.files
        "calib_result_1101.xml").bind (fun doc => fsNode doc "flagValue")
      = some (FSValue.int 14) := by
  decide

/-- C15, amended. In a run of the single-camera `main` that reaches the calibration, the
solver is called once, with the global `flag` joined with `CV_CALIB_FIX_K4` and
`CV_CALIB_FIX_K5`; when the calibration succeeds and the output file can be written, the
value under `flagValue` is the global `flag` itself. -/
theorem flagValue_is_global_flag {F : Type} [Add F] [Mul F] [Div F] [IntCast F] [Zero F]
    [One F] (c : CalibConsts) (env : Env F) (argv : List String) (files : FileSys F)
    (hub : (CameraCalib.mainCollect c env argv files).ub = false)
    (hok : (CameraCalib.mainCalibration c env
      (CameraCalib.mainCollect c env argv files)).1.ok = true)
    (hw : env.canWrite (CameraCalib.mainCollect c env argv files).outputFileName = true) :
    calibFlags (CameraCalib.main c env argv files).2.trace
      = [(CameraCalib.mainCollect c env argv files).flag ||| c.CV_CALIB_FIX_K4 |||
          c.CV_CALIB_FIX_K5] ∧
    ((CameraCalib.main c env argv files).2.files
        (CameraCalib.mainCollect c env argv files).outputFileName).bind
        (fun doc => fsNode doc "flagValue")
      = some (FSValue.int (CameraCalib.mainCollect c env argv files).flag) := by
  constructor
  · unfold calibFlags
    rw [mono_main_trace _ calibFlags_ui c env argv files hub]
    simp [CameraCalib.mainCalibration, CameraCalib.runCalibration, CameraCalib.solverFlag]
  · rw [mono_main_files c env argv files hub hok]
    unfold CameraCalib.saveCameraParams
    rw [if_pos hw]
    unfold FileSys.write CameraCalib.cameraParamsDoc fsNode
    rw [if_pos rfl]
    split_ifs <;> simp

/-- C15, amended, at the run `camera_calib -i list.xml`. -/
theorem flagValue_is_global_flag_witness :
    (CameraCalib.mainCollect opencvConsts Demo.env Demo.monoArgs (fun _ => none)).flag = 14 ∧
    calibFlags (CameraCalib.main opencvConsts Demo.env Demo.monoArgs (fun _ => none)).2.trace
      = [(CameraCalib.mainCollect opencvConsts Demo.env Demo.monoArgs (fun _ => none)).flag
          ||| opencvConsts.CV_CALIB_FIX_K4 ||| opencvConsts.CV_CALIB_FIX_K5] ∧
    ((CameraCalib.main opencvConsts Demo.env Demo.monoArgs (fun _ => none)).2.files
        (CameraCalib.mainCollect opencvConsts Demo.env Demo.monoArgs
          (fun _ => none)).outputFileName).bind
        (fun doc => fsNode doc "flagValue")
      = some (FSValue.int
          (CameraCalib.mainCollect opencvConsts Demo.env Demo.monoArgs (fun _ => none)).flag) :=
  ⟨by decide,
    flagValue_is_global_flag opencvConsts Demo.env Demo.monoArgs (fun _ => none) (by decide)
      (by decide) (by decide)⟩

/-- C18. In the single-camera collection loop `goodFrameCnt` equals the number of stored
corner sets and is at most `frameNumber` on entry to the loop, and every pass made with
`goodFrameCnt < frameNumber` keeps both; once `goodFrameCnt` has reached `frameNumber` the
loop makes no further pass, so the state, and with it the trace of loaded images, stays as
it is; hence at the end of the collection at most `frameNumber` corner sets are stored. -/
theorem collection_invariant {F : Type} (c : CalibConsts) (env : Env F) (argv : List String)
    (files : FileSys F) :
    ((CameraCalib.mainSetup c env argv files).goodFrameCnt
        = (CameraCalib.mainSetup c env argv files).imagePoints.length ∧
      (CameraCalib.mainSetup c env argv files).goodFrameCnt ≤ CameraCalib.frameNumber) ∧
    (∀ st : CameraCalib.State F, st.goodFrameCnt = st.imagePoints.length →
      st.goodFrameCnt < CameraCalib.frameNumber →
      (CameraCalib.collectStep env st).2.goodFrameCnt
          = (CameraCalib.collectStep env st).2.imagePoints.length ∧
        (CameraCalib.collectStep env st).2.goodFrameCnt ≤ CameraCalib.frameNumber) ∧
    (∀ (fuel : Nat) (st : CameraCalib.State F), CameraCalib.frameNumber ≤ st.goodFrameCnt →
      CameraCalib.collectLoop env fuel st = st) ∧
    ((CameraCalib.mainCollect c env argv files).goodFrameCnt
        = (CameraCalib.mainCollect c env argv files).imagePoints.length ∧
      (CameraCalib.mainCollect c env argv files).imagePoints.length
        ≤ CameraCalib.frameNumber) := by
  have h := mainSetup_keeps (fun _ => (none : Option Unit)) (fun _ _ => rfl) c env argv files
  refine ⟨⟨?_, ?_⟩, ?_, ?_, ?_⟩
  · rw [h.2.1, h.2.2]; rfl
  · rw [h.2.2]; exact Nat.zero_le _
  · intro st h1 h2
    have hs := collectStep_counts env st h1
    exact ⟨hs.1, by omega⟩
  · intro fuel st hst
    exact collectLoop_done env fuel st hst
  · have hm := mainCollect_counts c env argv files
    exact ⟨hm.1, by rw [← hm.1]; exact hm.2⟩

set_option maxRecDepth 100000 in
/-- C18 at a run over twenty images that all show the board: fifteen corner sets are stored
and fifteen images have been loaded; a state with fifteen frames is left as it is. -/
theorem collection_invariant_witness :
    (CameraCalib.mainCollect opencvConsts Demo.envMany Demo.monoArgs
      (fun _ => none)).imagePoints.length = 15 ∧
    (CameraCalib.mainCollect opencvConsts Demo.envMany Demo.monoArgs
      (fun _ => none)).currentIndex = 15 ∧
    CameraCalib.collectLoop Demo.envMany 21
        (CameraCalib.mainCollect opencvConsts Demo.envMany Demo.monoArgs (fun _ => none))
      = CameraCalib.mainCollect opencvConsts Demo.envMany Demo.monoArgs (fun _ => none) ∧
    (CameraCalib.mainCollect opencvConsts Demo.envMany Demo.monoArgs
      (fun _ => none)).imagePoints.length ≤ CameraCalib.frameNumber :=
  ⟨by decide, by decide,
    (collection_invariant opencvConsts Demo.envMany Demo.monoArgs (fun _ => none)).2.2.1 21 _
      (by decide),
    (collection_invariant opencvConsts Demo.envMany Demo.monoArgs (fun _ => none)).2.2.2.2⟩

/-! ### The display canvas -/

theorem MAX_eq_max (a b : Int) : MAX a b = max a b := by
  unfold MAX
  split_ifs with h
  · exact (max_eq_right (le_of_lt h)).symm
  · exact (max_eq_left (not_lt.mp h)).symm

theorem cvRound_intCast {F : Type} [LinearOrderedField F] [FloorRing F] (n : Int) :
    cvRound ((n : Int) : F) = n := by
  unfold cvRound
  simp

theorem cvRound_le {F : Type} [LinearOrderedField F] [FloorRing F] (x : F) (n : Int)
    (h : x ≤ ((n : Int) : F)) : cvRound x ≤ n := by
  have hf : Int.floor x ≤ n := by
    have := Int.floor_mono h
    rwa [Int.floor_intCast] at this
  have hfx : ((Int.floor x : Int) : F) ≤ x := Int.floor_le x
  unfold cvRound
  dsimp only
  by_cases hlt : x - ((Int.floor x : Int) : F) < 1 / 2
  · rw [if_pos hlt]
    exact hf
  · have hlt2 : Int.floor x < n := by
      by_contra hge
      have heq : Int.floor x = n := le_antisymm hf (not_lt.mp hge)
      apply hlt
      rw [heq]
      have h0 : x - ((n : Int) : F) ≤ 0 := sub_nonpos.mpr h
      have h1 : (0 : F) < 1 / 2 := by norm_num
      exact lt_of_le_of_lt h0 h1
    rw [if_neg hlt]
    split_ifs <;> omega

theorem scale_longer {F : Type} [LinearOrderedField F] [FloorRing F] (a : Int) (ha : 0 < a) :
    cvRound (((a : Int) : F) * (600 / ((a : Int) : F))) = 600 := by
  have hne : ((a : Int) : F) ≠ 0 := by
    have : (0 : F) < ((a : Int) : F) := by exact_mod_cast ha
    exact ne_of_gt this
  have h : ((a : Int) : F) * (600 / ((a : Int) : F)) = (((600 : Int) : Int) : F) := by
    field_simp
  rw [h, cvRound_intCast]

theorem scale_shorter {F : Type} [LinearOrderedField F] [FloorRing F] (a b : Int) (ha : 0 < a)
    (hb : b ≤ a) : cvRound (((b : Int) : F) * (600 / ((a : Int) : F))) ≤ 600 := by
  apply cvRound_le
  have hpos : (0 : F) < ((a : Int) : F) := by exact_mod_cast ha
  have hba : ((b : Int) : F) ≤ ((a : Int) : F) := by exact_mod_cast hb
  rw [mul_div_assoc', div_le_iff₀ hpos]
  push_cast
  nlinarith

/-- C23. For an image size `W x H` with `W, H > 0`, in exact arithmetic, `mergeImages`
creates a canvas of `h` rows and `2 * w` columns with `w = cvRound(W * 600 / max(W, H))` and
`h = cvRound(H * 600 / max(W, H))`; the larger of `w` and `h` is 600; the left image is
resized into columns `[0, w)` and the right image into columns `[w, 2w)`, both over all `h`
rows; every pixel of the canvas lies in exactly one of the two regions, and the regions lie
within the canvas. -/
theorem mergeImages_layout {F : Type} [LinearOrderedField F] [FloorRing F] (W H : Int)
    (hW : 0 < W) (hH : 0 < H) :
    (StereoCalib.mergeImages F ⟨W, H⟩).rows
      = cvRound (((H : Int) : F) * 600 / (((max W H : Int) : Int) : F)) ∧
    (StereoCalib.mergeImages F ⟨W, H⟩).cols
      = 2 * cvRound (((W : Int) : F) * 600 / (((max W H : Int) : Int) : F)) ∧
    max (cvRound (((W : Int) : F) * 600 / (((max W H : Int) : Int) : F)))
        (cvRound (((H : Int) : F) * 600 / (((max W H : Int) : Int) : F))) = 600 ∧
    (StereoCalib.mergeImages F ⟨W, H⟩).canvasL
      = ⟨0, 0, cvRound (((W : Int) : F) * 600 / (((max W H : Int) : Int) : F)),
          (StereoCalib.mergeImages F ⟨W, H⟩).rows⟩ ∧
    (StereoCalib.mergeImages F ⟨W, H⟩).canvasR
      = ⟨cvRound (((W : Int) : F) * 600 / (((max W H : Int) : Int) : F)), 0,
          cvRound (((W : Int) : F) * 600 / (((max W H : Int) : Int) : F)),
          (StereoCalib.mergeImages F ⟨W, H⟩).rows⟩ ∧
    (∀ px py : Int,
      (0 ≤ px ∧ px < (StereoCalib.mergeImages F ⟨W, H⟩).cols ∧
        0 ≤ py ∧ py < (StereoCalib.mergeImages F ⟨W, H⟩).rows) ↔
      ((StereoCalib.mergeImages F ⟨W, H⟩).canvasL.contains px py ∨
        (StereoCalib.mergeImages F ⟨W, H⟩).canvasR.contains px py)) ∧
    (∀ px py : Int,
      ¬ ((StereoCalib.mergeImages F ⟨W, H⟩).canvasL.contains px py ∧
        (StereoCalib.mergeImages F ⟨W, H⟩).canvasR.contains px py)) := by
  have hmul : ∀ a : Int, ((a : Int) : F) * 600 / (((max W H : Int) : Int) : F)
      = ((a : Int) : F) * (600 / (((max W H : Int) : Int) : F)) := by
    intro a
    rw [mul_div_assoc]
  have hmax : max (cvRound (((W : Int) : F) * (600 / (((max W H : Int) : Int) : F))))
      (cvRound (((H : Int) : F) * (600 / (((max W H : Int) : Int) : F)))) = 600 := by
    rcases le_total W H with hle | hle
    · rw [max_eq_right hle, scale_longer H hH]
      exact max_eq_right (scale_shorter H W hH hle)
    · rw [max_eq_left hle, scale_longer W hW]
      exact max_eq_left (scale_shorter W H hW hle)
  simp only [hmul]
  unfold StereoCalib.mergeImages
  simp only [MAX_eq_max, Rect.contains]
  refine ⟨trivial, by ring, hmax, trivial, trivial, ?_, ?_⟩
  · intro px py
    generalize cvRound (((W : Int) : F) * (600 / (((max W H : Int) : Int) : F))) = w
    generalize cvRound (((H : Int) : F) * (600 / (((max W H : Int) : Int) : F))) = h
    constructor
    · intro hin
      omega
    · intro hin
      omega
  · intro px py
    generalize cvRound (((W : Int) : F) * (600 / (((max W H : Int) : Int) : F))) = w
    generalize cvRound (((H : Int) : F) * (600 / (((max W H : Int) : Int) : F))) = h
    omega

/-- C23 at the image size 640 x 480 over the rationals: a canvas of 450 rows and 1200
columns, the left image in columns 0 to 599 and the right one in columns 600 to 1199. -/
theorem mergeImages_layout_witness :
    (0 : Int) < 640 ∧ (0 : Int) < 480 ∧
    StereoCalib.mergeImages ℚ ⟨640, 480⟩
      = ⟨450, 1200, ⟨0, 0, 600, 450⟩, ⟨600, 0, 600, 450⟩⟩ ∧
    (∀ px py : Int,
      (0 ≤ px ∧ px < (StereoCalib.mergeImages ℚ ⟨640, 480⟩).cols ∧
        0 ≤ py ∧ py < (StereoCalib.mergeImages ℚ ⟨640, 480⟩).rows) ↔
      ((StereoCalib.mergeImages ℚ ⟨640, 480⟩).canvasL.contains px py ∨
        (StereoCalib.mergeImages ℚ ⟨640, 480⟩).canvasR.contains px py)) := by
  refine ⟨by decide, by decide, ?_,
    (mergeImages_layout 640 480 (by decide) (by decide)).2.2.2.2.2.1⟩
  have h1 : (((640 : Int) : Int) : ℚ) * (600 / (((MAX 640 480 : Int) : Int) : ℚ))
      = (((600 : Int) : Int) : ℚ) := by
    norm_num [MAX]
  have h2 : (((480 : Int) : Int) : ℚ) * (600 / (((MAX 640 480 : Int) : Int) : ℚ))
      = (((450 : Int) : Int) : ℚ) := by
    norm_num [MAX]
  unfold StereoCalib.mergeImages
  simp only [h1, h2, cvRound_intCast]
  rfl

/-! ### The chessboard generator -/

theorem foldl_set_cond {α : Type} (p : Nat → Prop) [DecidablePred p] (v : α) :
    ∀ (n : Nat) (row : List α),
      ((List.range n).foldl (fun (r : List α) (j : Nat) => if p j then r.set j v else r)
          row).length = row.length ∧
      ∀ (j : Nat) (d : α),
        ((List.range n).foldl (fun (r : List α) (j : Nat) => if p j then r.set j v else r)
            row).getD j d
          = if j < n ∧ p j ∧ j < row.length then v else row.getD j d := by
  intro n
  induction n with
  | zero => intro row; simp
  | succ n ih =>
    intro row
    obtain ⟨hlen, hget⟩ := ih row
    rw [List.range_succ, List.foldl_append]
    simp only [List.foldl_cons, List.foldl_nil]
    generalize (List.range n).foldl (fun (r : List α) (j : Nat) =>
      if p j then r.set j v else r) row = res at hlen hget
    by_cases hp : p n
    · rw [if_pos hp]
      refine ⟨by simp [hlen], ?_⟩
      intro j d
      by_cases hj : j = n
      · subst hj
        by_cases hjl : j < row.length
        · rw [getD_set_self _ _ _ _ (by omega), if_pos ⟨by omega, hp, hjl⟩]
        · rw [if_neg (by tauto)]
          rw [List.getD_eq_default _ _ (by simp; omega),
            List.getD_eq_default _ _ (by omega)]
      · have hset : (res.set n v).getD j d = res.getD j d := by
          simp only [List.getD_eq_getElem?_getD]
          rw [List.getElem?_set_ne (Ne.symm hj)]
        rw [hset, hget]
        by_cases hc : j < n ∧ p j ∧ j < row.length
        · rw [if_pos hc, if_pos ⟨by omega, hc.2⟩]
        · rw [if_neg hc, if_neg (by intro h; exact hc ⟨by omega, h.2⟩)]
    · rw [if_neg hp]
      refine ⟨hlen, ?_⟩
      intro j d
      rw [hget]
      by_cases hc : j < n ∧ p j ∧ j < row.length
      · rw [if_pos hc, if_pos ⟨by omega, hc.2⟩]
      · rw [if_neg hc, if_neg]
        intro h
        apply hc
        refine ⟨?_, h.2⟩
        rcases Nat.lt_succ_iff_lt_or_eq.mp h.1 with h1 | h1
        · exact h1
        · rw [h1] at h
          exact absurd h.2.1 hp

theorem foldl_set_rows {α : Type} (f : Nat → α → α) (d : α) :
    ∀ (n : Nat) (a0 : List α),
      ((List.range n).foldl (fun (a : List α) (i : Nat) => a.set i (f i (a.getD i d)))
          a0).length = a0.length ∧
      ∀ i : Nat,
        ((List.range n).foldl (fun (a : List α) (i : Nat) => a.set i (f i (a.getD i d)))
            a0).getD i d
          = if i < n ∧ i < a0.length then f i (a0.getD i d) else a0.getD i d := by
  intro n
  induction n with
  | zero => intro a0; simp
  | succ n ih =>
    intro a0
    obtain ⟨hlen, hget⟩ := ih a0
    rw [List.range_succ, List.foldl_append]
    simp only [List.foldl_cons, List.foldl_nil]
    generalize (List.range n).foldl (fun (a : List α) (i : Nat) =>
      a.set i (f i (a.getD i d))) a0 = res at hlen hget
    refine ⟨by simp [hlen], ?_⟩
    intro i
    by_cases hi : i = n
    · subst hi
      by_cases hil : i < a0.length
      · rw [getD_set_self _ _ _ _ (by omega), hget, if_neg (by omega),
          if_pos ⟨by omega, hil⟩]
      · rw [if_neg (by omega), List.getD_eq_default _ _ (by simp; omega),
          List.getD_eq_default _ _ (by omega)]
    · have hset : (res.set n (f n (res.getD n d))).getD i d = res.getD i d := by
        simp only [List.getD_eq_getElem?_getD]
        rw [List.getElem?_set_ne (Ne.symm hi)]
      rw [hset, hget]
      by_cases hc : i < n ∧ i < a0.length
      · rw [if_pos hc, if_pos ⟨by omega, hc.2⟩]
      · rw [if_neg hc, if_neg (by omega)]

theorem square_size_eq : CreateChessboard.square_size = 90 := by decide

theorem a4_width_eq : CreateChessboard.a4_width = 630 := by decide

theorem a4_height_eq : CreateChessboard.a4_height = 891 := by decide

theorem paintRow_spec (i : Nat) (data : List Nat) :
    (CreateChessboard.paintRow i data).length = data.length ∧
    ∀ j : Nat, (CreateChessboard.paintRow i data).getD j 0
      = if j < 630 ∧ (i / 90 + j / 90) % 2 ≠ 0 ∧ j < data.length then 255
        else data.getD j 0 := by
  unfold CreateChessboard.paintRow
  rw [square_size_eq, a4_width_eq]
  have h := foldl_set_cond (fun j => (i / 90 + j / 90) % 2 ≠ 0) (255 : Nat) 630 data
  exact ⟨h.1, fun j => h.2 j 0⟩

theorem a4_rows :
    CreateChessboard.a4.length = 891 ∧
    ∀ i : Nat, i < 891 →
      CreateChessboard.a4.getD i []
        = CreateChessboard.paintRow i (List.replicate 630 0) := by
  unfold CreateChessboard.a4
  rw [a4_width_eq, a4_height_eq]
  dsimp only
  have h := foldl_set_rows (fun i data => CreateChessboard.paintRow i data) ([] : List Nat) 891
    (List.replicate 891 (List.replicate 630 0))
  refine ⟨by rw [h.1, List.length_replicate], ?_⟩
  intro i hi
  rw [h.2 i, if_pos ⟨hi, by rw [List.length_replicate]; exact hi⟩]
  congr 1
  rw [List.getD_eq_getElem _ _ (by rw [List.length_replicate]; exact hi)]
  exact List.getElem_replicate _ _

theorem a4_pixel (i j : Nat) (hi : i < 891) (hj : j < 630) :
    pixelAt CreateChessboard.a4 i j = if (i / 90 + j / 90) % 2 ≠ 0 then 255 else 0 := by
  unfold pixelAt
  rw [a4_rows.2 i hi, (paintRow_spec i _).2 j]
  have h0 : (List.replicate 630 (0 : Nat)).getD j 0 = 0 := by
    rw [List.getD_eq_getElem _ _ (by rw [List.length_replicate]; exact hj)]
    exact List.getElem_replicate _ _
  rw [h0]
  by_cases hc : (i / 90 + j / 90) % 2 ≠ 0
  · rw [if_pos hc, if_pos ⟨hj, hc, by rw [List.length_replicate]; exact hj⟩]
  · rw [if_neg hc, if_neg (by tauto)]

set_option maxRecDepth 100000 in
theorem count_vertical :
    ((List.range 629).filter (fun j => decide ((j + 1) % 90 = 0))).length = 6 := by
  decide

set_option maxRecDepth 100000 in
theorem count_horizontal :
    ((List.range 890).filter (fun i => decide ((i + 1) % 90 = 0))).length = 9 := by
  decide

theorem a4_vertical (i : Nat) (hi : i < 891) :
    verticalBoundaries CreateChessboard.a4 630 i = 6 := by
  unfold verticalBoundaries
  have hr : (630 : Nat) - 1 = 629 := rfl
  rw [hr, ← count_vertical]
  refine congrArg List.length (List.filter_congr ?_)
  intro j hj
  have hj1 : j < 629 := List.mem_range.mp hj
  rw [a4_pixel i j hi (by omega), a4_pixel i (j + 1) hi (by omega)]
  rw [Bool.eq_iff_iff]
  simp only [bne_iff_ne, decide_eq_true_eq]
  split_ifs <;> simp <;> omega

theorem a4_horizontal (j : Nat) (hj : j < 630) :
    horizontalBoundaries CreateChessboard.a4 891 j = 9 := by
  unfold horizontalBoundaries
  have hr : (891 : Nat) - 1 = 890 := rfl
  rw [hr, ← count_horizontal]
  refine congrArg List.length (List.filter_congr ?_)
  intro i hi
  have hi1 : i < 890 := List.mem_range.mp hi
  rw [a4_pixel i j (by omega) hj, a4_pixel (i + 1) j (by omega) hj]
  rw [Bool.eq_iff_iff]
  simp only [bne_iff_ne, decide_eq_true_eq]
  split_ifs <;> simp <;> omega

/-- C24. The chessboard generator makes an image of 891 rows and 630 columns with
`square_size = 630 / 7 = 90`; pixel `(i, j)` is white (255) if and only if
`i / square_size + j / square_size` is odd, and black (0) otherwise.  A row is exactly
`board_width + 1 = 7` squares wide and the colour changes at exactly `board_width = 6` places
along every row; along every column it changes at exactly `board_height = 9` places.  This
image is what `main` writes to `chessboard.jpg`. -/
theorem chessboard_pattern :
    CreateChessboard.square_size = 90 ∧
    CreateChessboard.a4_height = 891 ∧ CreateChessboard.a4_width = 630 ∧
    CreateChessboard.a4.length = CreateChessboard.a4_height ∧
    (∀ i : Nat, i < CreateChessboard.a4_height →
      (CreateChessboard.a4.getD i []).length = CreateChessboard.a4_width) ∧
    (∀ i j : Nat, i < CreateChessboard.a4_height → j < CreateChessboard.a4_width →
      (pixelAt CreateChessboard.a4 i j = 255 ↔
        (i / CreateChessboard.square_size + j / CreateChessboard.square_size) % 2 = 1) ∧
      (pixelAt CreateChessboard.a4 i j = 255 ∨ pixelAt CreateChessboard.a4 i j = 0)) ∧
    CreateChessboard.a4_width
      = (CreateChessboard.board_width + 1) * CreateChessboard.square_size ∧
    (∀ i : Nat, i < CreateChessboard.a4_height →
      verticalBoundaries CreateChessboard.a4 CreateChessboard.a4_width i
        = CreateChessboard.board_width) ∧
    (∀ j : Nat, j < CreateChessboard.a4_width →
      horizontalBoundaries CreateChessboard.a4 CreateChessboard.a4_height j
        = CreateChessboard.board_height) ∧
    CreateChessboard.main.written = CreateChessboard.a4 ∧
    CreateChessboard.main.writtenFile = "chessboard.jpg" := by
  rw [square_size_eq, a4_height_eq, a4_width_eq]
  refine ⟨rfl, rfl, rfl, a4_rows.1, ?_, ?_, by decide, ?_, ?_,
    by simp only [CreateChessboard.main], by simp only [CreateChessboard.main]⟩
  · intro i hi
    rw [a4_rows.2 i hi, (paintRow_spec i _).1, List.length_replicate]
  · intro i j hi hj
    rw [a4_pixel i j hi hj]
    by_cases h : (i / 90 + j / 90) % 2 ≠ 0
    · rw [if_pos h]
      exact ⟨⟨fun _ => by omega, fun _ => rfl⟩, Or.inl rfl⟩
    · rw [if_neg h]
      refine ⟨⟨fun h0 => absurd h0 (by decide), fun h1 => ?_⟩, Or.inr rfl⟩
      omega
  · intro i hi
    exact a4_vertical i hi
  · intro j hj
    exact a4_horizontal j hj

/-- C24 at the pixels of row 0 on either side of the first vertical boundary: column 89 is
black and column 90 is white. -/
theorem chessboard_pattern_witness :
    (0 < CreateChessboard.a4_height ∧ 89 < CreateChessboard.a4_width ∧
      90 < CreateChessboard.a4_width) ∧
    pixelAt CreateChessboard.a4 0 89 = 0 ∧ pixelAt CreateChessboard.a4 0 90 = 255 ∧
    verticalBoundaries CreateChessboard.a4 CreateChessboard.a4_width 0
      = CreateChessboard.board_width := by
  have h := chessboard_pattern.2.2.2.2.2
  have h89 := h.1 0 89 (by decide) (by decide)
  have h90 := h.1 0 90 (by decide) (by decide)
  refine ⟨by decide, ?_, h90.1.mpr (by decide), h.2.2.1 0 (by decide)⟩
  rcases h89.2 with h255 | h0
  · exact absurd (h89.1.mp h255) (by decide)
  · exact h0

/-! ### The order of the board points and the two constructions of the object points -/

theorem foldl_append_slot {α β : Type} (g : β → α) (js : List β) :
    ∀ cs : List α, js.foldl (fun cs j => cs ++ [g j]) cs = cs ++ js.map g := by
  induction js with
  | nil => intro cs; simp
  | cons j js ih =>
    intro cs
    rw [List.foldl_cons, ih]
    simp

theorem foldl_append_rows {α β γ : Type} (g : β → γ → α) (js : List γ) (is : List β) :
    ∀ cs : List α,
      is.foldl (fun cs i => js.foldl (fun cs j => cs ++ [g i j]) cs) cs
        = cs ++ is.flatMap (fun i => js.map (g i)) := by
  induction is with
  | nil => intro cs; simp
  | cons i is ih =>
    intro cs
    rw [List.foldl_cons, foldl_append_slot (g i) js cs, ih]
    simp

theorem mono_calcBoardCornerPositions_eq {F : Type} [Mul F] [IntCast F] [Zero F]
    (boardSize : Size) (squareSize : F) (corners : List (Point3f F)) :
    CameraCalib.calcBoardCornerPositions boardSize squareSize corners
      = boardGrid boardSize squareSize := by
  unfold CameraCalib.calcBoardCornerPositions boardGrid
  dsimp only
  rw [foldl_append_rows (fun (i j : Nat) => Point3f.mk (((i : Int) : F) * squareSize)
    (((j : Int) : F) * squareSize) 0)]
  simp

theorem flatMap_range_getD {α : Type} (g : Nat → Nat → α) (w : Nat) (d : α) :
    ∀ (h k : Nat), k < h * w →
      ((List.range h).flatMap (fun i => (List.range w).map (g i))).getD k d
        = g (k / w) (k % w) := by
  intro h
  induction h with
  | zero => intro k hk; simp at hk
  | succ h ih =>
    intro k hk
    have hlen : ((List.range h).flatMap (fun i => (List.range w).map (g i))).length
        = h * w := by
      rw [length_flatMap_map g (List.range w) (List.range h)]
      simp
    rw [List.range_succ, List.flatMap_append]
    by_cases hlt : k < h * w
    · rw [List.getD_append _ _ _ _ (by rw [hlen]; exact hlt)]
      exact ih k hlt
    · have hge : h * w ≤ k := not_lt.mp hlt
      rw [List.getD_append_right _ _ _ _ (by rw [hlen]; exact hge), hlen]
      have hr : k - h * w < w := by
        rw [Nat.succ_mul] at hk
        omega
      have hwpos : 0 < w := by omega
      have hk' : k = (k - h * w) + h * w := by omega
      have hdiv : k / w = h := by
        rw [hk', Nat.add_mul_div_right _ _ hwpos, Nat.div_eq_of_lt hr, Nat.zero_add]
      have hmod : k % w = k - h * w := by
        rw [hk', Nat.add_mul_mod_self_right, Nat.mod_eq_of_lt hr]
        omega
      rw [hdiv, hmod]
      simp only [List.flatMap_cons, List.flatMap_nil, List.append_nil]
      rw [List.getD_eq_getElem _ _ (by simpa using hr)]
      simp

theorem boardGrid_getD {F : Type} [Mul F] [IntCast F] [Zero F] (w h : Int) (squareSize : F)
    (hw : 0 < w) (k : Nat) (hk : (k : Int) < w * h) :
    (boardGrid ⟨w, h⟩ squareSize).getD k ⟨0, 0, 0⟩
      = ⟨((((k : Int) / w : Int) : Int) : F) * squareSize,
          ((((k : Int) % w : Int) : Int) : F) * squareSize, 0⟩ := by
  have hwn : ((w.toNat : Nat) : Int) = w := Int.toNat_of_nonneg (le_of_lt hw)
  have hhpos : 0 < h := by
    by_contra hneg
    have h1 : w * h ≤ 0 := mul_nonpos_of_nonneg_of_nonpos (le_of_lt hw) (not_lt.mp hneg)
    have h2 : (0 : Int) ≤ (k : Int) := Int.natCast_nonneg k
    omega
  have hhn : ((h.toNat : Nat) : Int) = h := Int.toNat_of_nonneg (le_of_lt hhpos)
  have hkn : k < h.toNat * w.toNat := by
    have : ((k : Nat) : Int) < ((h.toNat * w.toNat : Nat) : Int) := by
      push_cast
      rw [hwn, hhn, mul_comm]
      exact hk
    exact_mod_cast this
  unfold boardGrid
  dsimp only
  rw [flatMap_range_getD (fun (i j : Nat) => Point3f.mk (((i : Int) : F) * squareSize)
    (((j : Int) : F) * squareSize) 0) w.toNat ⟨0, 0, 0⟩ h.toNat k hkn]
  rw [Int.natCast_div, Int.natCast_mod, hwn]

/-- C22. For a board of `w > 0` by `h > 0` corners and any square size `s`, both
`calcBoardCornerPositions` produce the `w * h` world points in row-major order: for every
`k < w * h` the `k`-th point is `((k div w) * s, (k mod w) * s, 0)`.  This holds for the
single-camera function whatever its output vector held before, and for every entry of the
stereo function's output when the entries start empty, as in `stereoCalib`. -/
theorem board_points_row_major {F : Type} [Mul F] [IntCast F] [Zero F] (w h : Int)
    (squareSize : F) (hw : 0 < w) (hh : 0 < h) (corners : List (Point3f F)) (n : Nat) :
    (((CameraCalib.calcBoardCornerPositions ⟨w, h⟩ squareSize corners).length : Nat) : Int)
      = w * h ∧
    (∀ k : Nat, (k : Int) < w * h →
      (CameraCalib.calcBoardCornerPositions ⟨w, h⟩ squareSize corners).getD k ⟨0, 0, 0⟩
        = ⟨((((k : Int) / w : Int) : Int) : F) * squareSize,
            ((((k : Int) % w : Int) : Int) : F) * squareSize, 0⟩) ∧
    (StereoCalib.calcBoardCornerPositions ⟨w, h⟩ squareSize (List.replicate n [])).length
      = n ∧
    (∀ e ∈ StereoCalib.calcBoardCornerPositions ⟨w, h⟩ squareSize (List.replicate n []),
      ((e.length : Nat) : Int) = w * h ∧
      ∀ k : Nat, (k : Int) < w * h →
        e.getD k ⟨0, 0, 0⟩
          = ⟨((((k : Int) / w : Int) : Int) : F) * squareSize,
              ((((k : Int) % w : Int) : Int) : F) * squareSize, 0⟩) := by
  have hlen : (((boardGrid ⟨w, h⟩ squareSize).length : Nat) : Int) = w * h := by
    rw [boardGrid_length]
    push_cast
    rw [Int.toNat_of_nonneg (le_of_lt hw), Int.toNat_of_nonneg (le_of_lt hh)]
    ring
  rw [mono_calcBoardCornerPositions_eq, stereo_calcBoardCornerPositions_eq]
  refine ⟨hlen, fun k hk => boardGrid_getD w h squareSize hw k hk, by simp, ?_⟩
  intro e he
  simp only [List.map_replicate, List.nil_append] at he
  rw [List.eq_of_mem_replicate he]
  exact ⟨hlen, fun k hk => boardGrid_getD w h squareSize hw k hk⟩

/-- C22 at the board of the source (6 by 5 corners, 30 mm squares): point 7 is the second
point of the second row, `(30, 30, 0)`. -/
theorem board_points_row_major_witness :
    (0 : Int) < 6 ∧ (0 : Int) < 5 ∧ ((7 : Nat) : Int) < 6 * 5 ∧
    (CameraCalib.calcBoardCornerPositions ⟨6, 5⟩ (30 : Int) []).getD 7 ⟨0, 0, 0⟩
      = ⟨((((7 : Nat) : Int) / 6 : Int) : Int) * 30, ((((7 : Nat) : Int) % 6 : Int) : Int) * 30,
          0⟩ ∧
    (CameraCalib.calcBoardCornerPositions ⟨6, 5⟩ (30 : Int) []).getD 7 ⟨0, 0, 0⟩
      = ⟨30, 30, 0⟩ :=
  ⟨by decide, by decide, by decide,
    (board_points_row_major 6 5 (30 : Int) (by decide) (by decide) [] 2).2.1 7 (by decide),
    by decide⟩

theorem foldl_push_const {α : Type} (t : α) :
    ∀ (n : Nat) (l : List α),
      (List.range n).foldl (fun ops _ => ops ++ [t]) l = l ++ List.replicate n t := by
  intro n
  induction n with
  | zero => intro l; simp
  | succ n ih =>
    intro l
    rw [List.range_succ, List.foldl_append, ih]
    simp only [List.foldl_cons, List.foldl_nil, List.append_assoc]
    rw [List.replicate_succ']

/-- C27. For every board size, square size and frame count `n`, the object points built the
stereo way (`n` empty entries filled by the stereo `calcBoardCornerPositions`) equal those
built the single-camera way (one list computed by the single-camera
`calcBoardCornerPositions`, pushed `n` times onto an empty vector), in particular for the
board of `camera_calib.cpp`; the single-camera function's result does not depend on what its
output vector held before, whereas the stereo function appends the board points to whatever
each entry holds. -/
theorem object_points_constructions_agree {F : Type} [Mul F] [IntCast F] [Zero F]
    (boardSize : Size) (squareSize : F) (n : Nat) (temp corners : List (Point3f F))
    (entries : List (List (Point3f F))) :
    StereoCalib.buildObjectPoints boardSize squareSize n
      = (List.range n).foldl
          (fun ops _ => ops ++ [CameraCalib.calcBoardCornerPositions boardSize squareSize temp])
          [] ∧
    StereoCalib.buildObjectPoints boardSize squareSize n
      = List.replicate n (CameraCalib.calcBoardCornerPositions boardSize squareSize temp) ∧
    StereoCalib.buildObjectPoints CameraCalib.boardSize (CameraCalib.squareSize : F) n
      = CameraCalib.replicateBoard n [] ∧
    CameraCalib.calcBoardCornerPositions boardSize squareSize corners
      = CameraCalib.calcBoardCornerPositions boardSize squareSize temp ∧
    StereoCalib.calcBoardCornerPositions boardSize squareSize entries
      = entries.map
          (fun e => e ++ CameraCalib.calcBoardCornerPositions boardSize squareSize temp) := by
  refine ⟨?_, ?_, ?_, ?_, ?_⟩
  · rw [foldl_push_const, buildObjectPoints_eq, mono_calcBoardCornerPositions_eq,
      List.nil_append]
  · rw [buildObjectPoints_eq, mono_calcBoardCornerPositions_eq]
  · unfold CameraCalib.replicateBoard
    dsimp only
    rw [foldl_push_const, buildObjectPoints_eq, mono_calcBoardCornerPositions_eq,
      List.nil_append]
  · rw [mono_calcBoardCornerPositions_eq, mono_calcBoardCornerPositions_eq]
  · rw [stereo_calcBoardCornerPositions_eq, mono_calcBoardCornerPositions_eq]

/-! ### The point lists handed to the stereo solver -/

theorem solverCalls_append {F : Type} (t u : List (Event F)) :
    solverCalls (t ++ u) = solverCalls t ++ solverCalls u := by
  unfold solverCalls
  rw [List.filterMap_append]

theorem solverCalls_filter {F : Type} (t : List (Event F)) :
    solverCalls (t.filter Event.isSolveOrWrite) = solverCalls t := by
  induction t with
  | nil => rfl
  | cons e t ih =>
    cases e <;> simp [List.filter_cons, Event.isSolveOrWrite, solverCalls] at ih ⊢ <;>
      exact ih

theorem solverCalls_other {F : Type} (e : Event F)
    (h : ∀ o i0 i1 c0 d0 c1 d1 sz fl, e ≠ Event.stereoCalibrate o i0 i1 c0 d0 c1 d1 sz fl) :
    solverCalls [e] = [] := by
  cases e <;> first | rfl | exact absurd rfl (h _ _ _ _ _ _ _ _ _)

theorem solverCalls_emit {F : Type} (run : StereoCalib.Run F) (e : Event F)
    (h : ∀ o i0 i1 c0 d0 c1 d1 sz fl, e ≠ Event.stereoCalibrate o i0 i1 c0 d0 c1 d1 sz fl) :
    solverCalls (run.emit e).trace = solverCalls run.trace := by
  unfold StereoCalib.Run.emit
  simp only [solverCalls_append, solverCalls_other e h, List.append_nil]

theorem findCorners_calls {F : Type} (env : Env F) (boardSize : Size) (delay_ms : Int)
    (imageList : List String) (st : StereoCalib.FCState F) :
    solverCalls (StereoCalib.findCorners env boardSize delay_ms imageList st).2.trace
      = solverCalls st.trace := by
  rw [← solverCalls_filter, StereoCalib.findCorners_solve, solverCalls_filter]

theorem saveStereoCalibResult_calls {F : Type} (env : Env F) (outputFn : String)
    (cameraMatrix0 distCoeffs0 cameraMatrix1 distCoeffs1 R T E Fm : Mat F) (rms : F)
    (run : StereoCalib.Run F) :
    solverCalls (StereoCalib.saveStereoCalibResult env outputFn cameraMatrix0 distCoeffs0
      cameraMatrix1 distCoeffs1 R T E Fm rms run).trace = solverCalls run.trace := by
  unfold StereoCalib.saveStereoCalibResult
  split_ifs
  · dsimp only
    rw [solverCalls_append, solverCalls_other _ (by intros; simp), List.append_nil]
  · exact solverCalls_emit _ _ (by intros; simp)

theorem saveRectificationResult_calls {F : Type} (env : Env F) (outputFn : String)
    (r : Rectification F) (run : StereoCalib.Run F) :
    solverCalls (StereoCalib.saveRectificationResult env outputFn r run).trace
      = solverCalls run.trace := by
  unfold StereoCalib.saveRectificationResult
  split_ifs
  · dsimp only
    rw [solverCalls_append, solverCalls_other _ (by intros; simp), List.append_nil]
  · exact solverCalls_emit _ _ (by intros; simp)

theorem rectifyImage_calls {F : Type} (env : Env F) (map1 map2 : Mat F) (i k : Nat)
    (d : StereoCalib.DisplayState F) :
    solverCalls (StereoCalib.rectifyImage env map1 map2 i k d).run.trace
      = solverCalls d.run.trace := by
  unfold StereoCalib.rectifyImage
  dsimp only
  split_ifs <;> first | rfl | exact solverCalls_emit _ _ (by intros; simp)

theorem displayLoop_calls {F : Type} (env : Env F) (imageSize : Size)
    (mapL mapR : Mat F × Mat F) :
    ∀ (rem i : Nat) (run : StereoCalib.Run F),
      solverCalls (StereoCalib.displayLoop env imageSize mapL mapR rem i run).trace
        = solverCalls run.trace := by
  intro rem
  induction rem with
  | zero => intro i run; rfl
  | succ rem ih =>
    intro i run
    unfold StereoCalib.displayLoop
    dsimp only
    have h2 := rectifyImage_calls env mapR.1 mapR.2 i 1
      (StereoCalib.rectifyImage env mapL.1 mapL.2 i 0 ⟨Mat.default, Mat.default, run⟩)
    have h1 := rectifyImage_calls env mapL.1 mapL.2 i 0 ⟨Mat.default, Mat.default, run⟩
    split_ifs
    · rw [h2, h1]
    · rw [solverCalls_emit _ _ (by intros; simp), solverCalls_emit _ _ (by intros; simp),
        solverCalls_emit _ _ (by intros; simp), h2, h1]
    · rw [ih, solverCalls_emit _ _ (by intros; simp), solverCalls_emit _ _ (by intros; simp),
        solverCalls_emit _ _ (by intros; simp), h2, h1]

theorem rectify_calls {F : Type} (env : Env F)
    (cameraMatrix0 distCoeffs0 cameraMatrix1 distCoeffs1 : Mat F) (imageSize : Size)
    (R T : Mat F) (outputFn : String) (run : StereoCalib.Run F) :
    solverCalls (StereoCalib.rectify env cameraMatrix0 distCoeffs0 cameraMatrix1 distCoeffs1
      imageSize R T outputFn run).trace = solverCalls run.trace := by
  unfold StereoCalib.rectify
  dsimp only
  rw [displayLoop_calls, solverCalls_emit _ _ (by intros; simp),
    solverCalls_emit _ _ (by intros; simp), solverCalls_emit _ _ (by intros; simp),
    saveRectificationResult_calls, solverCalls_emit _ _ (by intros; simp)]

theorem stereoCalib_calls {F : Type} [Mul F] [IntCast F] [Zero F] [One F]
    (c : CalibConsts) (env : Env F) (p : StereoCalib.Params F) (imageList : List String)
    (boardSize : Size) (showRectified : Bool) (run : StereoCalib.Run F) :
    solverCalls (StereoCalib.stereoCalib c env p imageList boardSize showRectified run).trace
      = solverCalls run.trace ++
        (if (StereoCalib.findCorners env p.boardSize p.delay_ms imageList
            (StereoCalib.initialFCState run)).1 = some 0
         then [(StereoCalib.buildObjectPoints boardSize p.squareSize
            (StereoCalib.findCorners env p.boardSize p.delay_ms imageList
              (StereoCalib.initialFCState run)).2.nimages,
            (StereoCalib.findCorners env p.boardSize p.delay_ms imageList
              (StereoCalib.initialFCState run)).2.imagePoints0,
            (StereoCalib.findCorners env p.boardSize p.delay_ms imageList
              (StereoCalib.initialFCState run)).2.imagePoints1)]
         else []) := by
  have hfc := findCorners_calls env p.boardSize p.delay_ms imageList
    (StereoCalib.initialFCState run)
  have hinit : (StereoCalib.initialFCState run).trace = run.trace := rfl
  rw [hinit] at hfc
  by_cases h : (StereoCalib.findCorners env p.boardSize p.delay_ms imageList
      (StereoCalib.initialFCState run)).1 = some 0
  · rw [if_pos h]
    unfold StereoCalib.stereoCalib
    dsimp only
    rw [if_neg (by rw [h]; exact Option.some_ne_none 0), if_neg (by simpa using h)]
    have hsolve : ∀ (r : StereoCalib.Run F) o i0 i1 c0 d0 c1 d1 sz fl,
        solverCalls (r.emit (Event.stereoCalibrate o i0 i1 c0 d0 c1 d1 sz fl)).trace
          = solverCalls r.trace ++ [(o, i0, i1)] := by
      intro r o i0 i1 c0 d0 c1 d1 sz fl
      unfold StereoCalib.Run.emit
      rw [solverCalls_append]
      rfl
    cases hu : p.useIndividualCalibResult <;> cases showRectified <;>
      simp only [if_true, if_false, Bool.false_eq_true, rectify_calls] <;>
      rw [solverCalls_emit _ _ (by intros; simp), solverCalls_emit _ _ (by intros; simp),
        saveStereoCalibResult_calls, solverCalls_emit _ _ (by intros; simp),
        solverCalls_emit _ _ (by intros; simp), solverCalls_emit _ _ (by intros; simp),
        hsolve] <;>
      first
        | rw [solverCalls_emit _ _ (by intros; simp), solverCalls_emit _ _ (by intros; simp),
            solverCalls_emit _ _ (by intros; simp)]
          exact congrArg (· ++ _) hfc
        | rw [solverCalls_emit _ _ (by intros; simp)]
          exact congrArg (· ++ _) hfc
  · rw [if_neg h, stereoCalib_of_failure c env p imageList boardSize showRectified run h]
    simpa using hfc

theorem acceptedFrom_detects {F : Type} (env : Env F) (boardSize : Size)
    (imageList : List String) :
    ∀ (rem i : Nat) (sz : Size), ∀ j ∈ acceptedFrom env boardSize imageList rem i sz,
      detects env boardSize (leftFile imageList j) = true ∧
        detects env boardSize (rightFile imageList j) = true := by
  intro rem
  induction rem with
  | zero => intro i sz j hj; simp [acceptedFrom] at hj
  | succ rem ih =>
    intro i sz j hj
    unfold acceptedFrom at hj
    simp only [List.mem_append] at hj
    rcases hj with hj | hj
    · split_ifs at hj with hg
      · simp only [List.mem_singleton] at hj
        subst hj
        have := (pairGood_iff env boardSize imageList _ j).mp hg
        exact ⟨this.2.2.2.2.1, this.2.2.2.2.2⟩
      · simp at hj
    · split_ifs at hj
      · simp at hj
      · exact ih (i + 1) _ j hj

theorem refinedCorners_length {F : Type} (env : Env F) (boardSize : Size) (f : String)
    (hdet : ∀ img : Mat F, (env.findChessboardCorners img boardSize).1 = true →
      (((env.findChessboardCorners img boardSize).2.length : Nat) : Int)
        = boardSize.width * boardSize.height)
    (hsub : ∀ (g : Mat F) (cs : List (Point2f F)), (env.cornerSubPix g cs).length = cs.length)
    (hf : detects env boardSize f = true) :
    (((refinedCorners env boardSize f).length : Nat) : Int)
      = boardSize.width * boardSize.height := by
  unfold refinedCorners
  rw [hsub]
  exact hdet _ hf

/-- C21. Let the detector return exactly `width * height` corners whenever it reports
success, on a board whose width and height are not both negative, and let the sub-pixel
refinement keep the number of corners it is given.  Then `stereoCalib` invokes the stereo
solver at most once, exactly when `findCorners` has returned 0, and at that call
`objectPoints`, `imagePoints[0]` and `imagePoints[1]` have one and the same length `n >= 2`,
and for every `j < n` their `j`-th entries all hold `width * height` points. -/
theorem solver_inputs_matched {F : Type} [Mul F] [IntCast F] [Zero F] [One F]
    (c : CalibConsts) (env : Env F) (p : StereoCalib.Params F) (imageList : List String)
    (showRectified : Bool) (run : StereoCalib.Run F)
    (hboard : 0 ≤ p.boardSize.width ∨ 0 ≤ p.boardSize.height)
    (hdet : ∀ img : Mat F, (env.findChessboardCorners img p.boardSize).1 = true →
      (((env.findChessboardCorners img p.boardSize).2.length : Nat) : Int)
        = p.boardSize.width * p.boardSize.height)
    (hsub : ∀ (g : Mat F) (cs : List (Point2f F)),
      (env.cornerSubPix g cs).length = cs.length) :
    ∃ calls : List (List (List (Point3f F)) × List (List (Point2f F)) ×
        List (List (Point2f F))),
      solverCalls (StereoCalib.stereoCalib c env p imageList p.boardSize showRectified
          run).trace = solverCalls run.trace ++ calls ∧
      calls.length ≤ 1 ∧
      (calls.length = 1 ↔
        (StereoCalib.findCorners env p.boardSize p.delay_ms imageList
          (StereoCalib.initialFCState run)).1 = some 0) ∧
      ∀ call ∈ calls,
        2 ≤ call.1.length ∧ call.2.1.length = call.1.length ∧
        call.2.2.length = call.1.length ∧
        ∀ j : Nat, j < call.1.length →
          ((((call.1.getD j []).length : Nat) : Int)
              = p.boardSize.width * p.boardSize.height ∧
            (((call.2.1.getD j []).length : Nat) : Int)
              = p.boardSize.width * p.boardSize.height ∧
            (((call.2.2.getD j []).length : Nat) : Int)
              = p.boardSize.width * p.boardSize.height) := by
  refine ⟨_, stereoCalib_calls c env p imageList p.boardSize showRectified run, ?_, ?_, ?_⟩
  · split_ifs <;> simp
  · split_ifs with h <;> simp [h]
  · intro call hcall
    split_ifs at hcall with hret
    swap
    · simp at hcall
    simp only [List.mem_singleton] at hcall
    have heven := findCorners_even_of_success env p.boardSize p.delay_ms imageList
      (StereoCalib.initialFCState run) hret
    obtain ⟨hr, -, hn, -, hpts⟩ := StereoCalib.findCorners_even env p.boardSize p.delay_ms
      imageList (StereoCalib.initialFCState run) heven
    have hn := hn (by rw [hret]; exact Option.some_ne_none 0)
    obtain ⟨h0, h1⟩ := hpts hret
    have htwo : 2 ≤ (acceptedPairs env p.boardSize imageList
        (StereoCalib.initialFCState run).imageSize).length := by
      by_contra hlt
      rw [hr] at hret
      by_cases hc : collectionThrows env p.boardSize imageList
          (StereoCalib.initialFCState run).imageSize = true
      · rw [if_pos hc] at hret
        exact absurd hret (by simp)
      · rw [if_neg hc, if_pos (by omega)] at hret
        exact absurd hret (by decide)
    subst hcall
    dsimp only
    rw [buildObjectPoints_eq, h0, h1, hn]
    have hacc : ∀ j ∈ acceptedPairs env p.boardSize imageList
        (StereoCalib.initialFCState run).imageSize,
        detects env p.boardSize (leftFile imageList j) = true ∧
          detects env p.boardSize (rightFile imageList j) = true :=
      fun j hj => acceptedFrom_detects env p.boardSize imageList _ _ _ j hj
    generalize acceptedPairs env p.boardSize imageList
      (StereoCalib.initialFCState run).imageSize = acc at htwo hacc
    refine ⟨by simpa using htwo, by simp, by simp, ?_⟩
    intro j hj
    have hj' : j < acc.length := by simpa using hj
    have hmem : acc[j] ∈ acc := List.getElem_mem _
    have hnn : 0 ≤ p.boardSize.width * p.boardSize.height := by
      rw [← refinedCorners_length env _ _ hdet hsub (hacc _ hmem).1]
      exact Int.natCast_nonneg _
    refine ⟨?_, ?_, ?_⟩
    · rw [List.getD_eq_getElem _ _ (by simpa using hj'), List.getElem_replicate,
        boardGrid_length]
      push_cast
      generalize p.boardSize.width = w at hboard hnn
      generalize p.boardSize.height = h at hboard hnn
      by_cases hw : 0 ≤ w
      · by_cases hh : 0 ≤ h
        · rw [Int.toNat_of_nonneg hw, Int.toNat_of_nonneg hh]
          ring
        · have hw0 : w = 0 := by
            by_contra hne
            have hpos : 0 < w := lt_of_le_of_ne hw (Ne.symm hne)
            have := mul_neg_of_pos_of_neg hpos (not_le.mp hh)
            omega
          rw [hw0]
          simp
      · have hh : 0 ≤ h := by
          rcases hboard with h1 | h1
          · exact absurd h1 hw
          · exact h1
        have hh0 : h = 0 := by
          by_contra hne
          have hpos : 0 < h := lt_of_le_of_ne hh (Ne.symm hne)
          have := mul_neg_of_neg_of_pos (not_le.mp hw) hpos
          omega
        rw [hh0]
        simp
    · rw [List.getD_eq_getElem _ _ (by simpa using hj'), List.getElem_map]
      exact refinedCorners_length env _ _ hdet hsub (hacc _ hmem).1
    · rw [List.getD_eq_getElem _ _ (by simpa using hj'), List.getElem_map]
      exact refinedCorners_length env _ _ hdet hsub (hacc _ hmem).2

/-- C21 at the demo list with a detector that returns 30 corners on the 6 by 5 board: the
one solver call gets three lists of two entries with 30 points each. -/
theorem solver_inputs_matched_witness :
    ((0 : Int) ≤ Demo.params.boardSize.width ∨ (0 : Int) ≤ Demo.params.boardSize.height) ∧
    (solverCalls (StereoCalib.stereoCalib opencvConsts Demo.envBoard Demo.params
        Demo.imageList Demo.params.boardSize true Demo.run0).trace).map
        (fun call => (call.1.map List.length, call.2.1.map List.length,
          call.2.2.map List.length))
      = [([30, 30], [30, 30], [30, 30])] ∧
    ∃ calls : List (List (List (Point3f Int)) × List (List (Point2f Int)) ×
        List (List (Point2f Int))),
      solverCalls (StereoCalib.stereoCalib opencvConsts Demo.envBoard Demo.params
          Demo.imageList Demo.params.boardSize true Demo.run0).trace
        = solverCalls Demo.run0.trace ++ calls ∧
      calls.length ≤ 1 ∧
      (calls.length = 1 ↔
        (StereoCalib.findCorners Demo.envBoard Demo.params.boardSize Demo.params.delay_ms
          Demo.imageList (StereoCalib.initialFCState Demo.run0)).1 = some 0) ∧
      ∀ call ∈ calls,
        2 ≤ call.1.length ∧ call.2.1.length = call.1.length ∧
        call.2.2.length = call.1.length ∧
        ∀ j : Nat, j < call.1.length →
          ((((call.1.getD j []).length : Nat) : Int)
              = Demo.params.boardSize.width * Demo.params.boardSize.height ∧
            (((call.2.1.getD j []).length : Nat) : Int)
              = Demo.params.boardSize.width * Demo.params.boardSize.height ∧
            (((call.2.2.getD j []).length : Nat) : Int)
              = Demo.params.boardSize.width * Demo.params.boardSize.height) :=
  ⟨by decide, by decide,
    solver_inputs_matched opencvConsts Demo.envBoard Demo.params Demo.imageList true Demo.run0
      (by decide) (fun _ _ => rfl) (fun _ _ => rfl)⟩

/-! ### The display loop of `rectify` -/

theorem rectifyImage_in_range {F : Type} (env : Env F) (map1 map2 : Mat F) (i k : Nat)
    (d : StereoCalib.DisplayState F) (hub : d.run.ub = false)
    (hin : i * 2 + k < d.run.goodImageList.length) :
    (StereoCalib.rectifyImage env map1 map2 i k d).run.ub = false ∧
      (StereoCalib.rectifyImage env map1 map2 i k d).run.goodImageList
        = d.run.goodImageList := by
  unfold StereoCalib.rectifyImage
  rw [if_neg (by simp [hub]), if_neg (by omega)]
  dsimp only
  split_ifs <;> exact ⟨hub, rfl⟩

theorem rectifyImage_out_of_range {F : Type} (env : Env F) (map1 map2 : Mat F) (i k : Nat)
    (d : StereoCalib.DisplayState F)
    (hout : d.run.ub = true ∨ d.run.goodImageList.length ≤ i * 2 + k) :
    (StereoCalib.rectifyImage env map1 map2 i k d).run.ub = true := by
  unfold StereoCalib.rectifyImage
  by_cases hub : d.run.ub = true
  · rw [if_pos hub]
    exact hub
  · rw [if_neg hub]
    rcases hout with h | h
    · exact absurd h hub
    · rw [if_pos h]

theorem displayLoop_overrun {F : Type} (env : Env F) (imageSize : Size)
    (mapL mapR : Mat F × Mat F) :
    ∀ (m rem i : Nat) (run : StereoCalib.Run F), run.ub = false →
      run.goodImageList.length = 2 * (i + m) → m < rem →
      (∀ t : Nat, i ≤ t → t < i + m → isQuitKey (env.waitKeyDisplay t) = false) →
      (StereoCalib.displayLoop env imageSize mapL mapR rem i run).ub = true := by
  intro m
  induction m with
  | zero =>
    intro rem i run hub hlen hrem _
    obtain ⟨r, rfl⟩ : ∃ r, rem = r + 1 := ⟨rem - 1, by omega⟩
    unfold StereoCalib.displayLoop
    dsimp only
    have h0 := rectifyImage_out_of_range env mapL.1 mapL.2 i 0
      ⟨Mat.default, Mat.default, run⟩ (Or.inr (by show run.goodImageList.length ≤ _; omega))
    have h1 := rectifyImage_out_of_range env mapR.1 mapR.2 i 1
      (StereoCalib.rectifyImage env mapL.1 mapL.2 i 0 ⟨Mat.default, Mat.default, run⟩)
      (Or.inl h0)
    rw [if_pos h1]
    exact h1
  | succ m ih =>
    intro rem i run hub hlen hrem hkeys
    obtain ⟨r, rfl⟩ : ∃ r, rem = r + 1 := ⟨rem - 1, by omega⟩
    unfold StereoCalib.displayLoop
    dsimp only
    have h0 := rectifyImage_in_range env mapL.1 mapL.2 i 0
      ⟨Mat.default, Mat.default, run⟩ hub (by show _ < run.goodImageList.length; omega)
    have h1 := rectifyImage_in_range env mapR.1 mapR.2 i 1
      (StereoCalib.rectifyImage env mapL.1 mapL.2 i 0 ⟨Mat.default, Mat.default, run⟩)
      h0.1 (by rw [h0.2]; show _ < run.goodImageList.length; omega)
    rw [if_neg (by simp [h1.1]), if_neg (by simp [hkeys i (le_refl i) (by omega)])]
    apply ih
    · exact h1.1
    · show (StereoCalib.rectifyImage env mapR.1 mapR.2 i 1
        (StereoCalib.rectifyImage env mapL.1 mapL.2 i 0
          ⟨Mat.default, Mat.default, run⟩)).run.goodImageList.length = _
      rw [h1.2, h0.2]
      show run.goodImageList.length = _
      omega
    · omega
    · intro t ht1 ht2
      exact hkeys t (by omega) (by omega)

theorem saveRectificationResult_keeps {F : Type} (env : Env F) (outputFn : String)
    (r : Rectification F) (run : StereoCalib.Run F) :
    (StereoCalib.saveRectificationResult env outputFn r run).ub = run.ub ∧
      (StereoCalib.saveRectificationResult env outputFn r run).goodImageList
        = run.goodImageList := by
  unfold StereoCalib.saveRectificationResult
  split_ifs <;> exact ⟨rfl, rfl⟩

/-- C25, the code on every list it can meet: when `goodImageList` holds the names of
`n >= 1` pairs and the operator does not press `q`, `Q` or ESC at any of the first `n`
rectified pairs, the display loop of `rectify`, whose bound is `goodImageList.size()` and not
half of it, goes on to pass `n` and reads `goodImageList[2 * n]`, past the end of the
vector. -/
theorem rectify_reads_past_end {F : Type} (env : Env F)
    (cameraMatrix0 distCoeffs0 cameraMatrix1 distCoeffs1 : Mat F) (imageSize : Size)
    (R T : Mat F) (outputFn : String) (run : StereoCalib.Run F) (n : Nat)
    (hub : run.ub = false) (hn : 1 ≤ n) (hlen : run.goodImageList.length = 2 * n)
    (hkeys : ∀ t : Nat, t < n → isQuitKey (env.waitKeyDisplay t) = false) :
    (StereoCalib.rectify env cameraMatrix0 distCoeffs0 cameraMatrix1 distCoeffs1 imageSize
      R T outputFn run).ub = true := by
  unfold StereoCalib.rectify
  dsimp only
  have hk := saveRectificationResult_keeps env outputFn
    (env.stereoRectify cameraMatrix0 distCoeffs0 cameraMatrix1 distCoeffs1 imageSize R T)
    (run.emit (Event.cout ("Saving rectification result to " ++ outputFn ++ "...")))
  apply displayLoop_overrun env imageSize _ _ n
  · show (StereoCalib.saveRectificationResult env outputFn _ _).ub = false
    rw [hk.1]
    exact hub
  · show (StereoCalib.saveRectificationResult env outputFn _ _).goodImageList.length = _
    rw [hk.2]
    show run.goodImageList.length = _
    omega
  · show n < (StereoCalib.saveRectificationResult env outputFn _ _).goodImageList.length
    rw [hk.2]
    show n < run.goodImageList.length
    omega
  · intro t _ ht
    exact hkeys t (by omega)

/-- C25 at the failing input: two accepted pairs and an operator who presses the space bar
at every rectified pair; also the whole of `stereoCalib` on the demo list. -/
theorem rectify_reads_past_end_witness :
    (Demo.runGood.ub = false ∧ Demo.runGood.goodImageList.length = 2 * 2) ∧
    (StereoCalib.rectify Demo.envKeep Demo.cameraMatrix Demo.distCoeffs Demo.cameraMatrix
      Demo.distCoeffs ⟨640, 480⟩ Mat.default Mat.default "stereo_params.xml"
      Demo.runGood).ub = true ∧
    (StereoCalib.stereoCalib opencvConsts Demo.envKeep Demo.params Demo.imageList ⟨6, 5⟩ true
      Demo.run0).ub = true ∧
    (StereoCalib.stereoCalib opencvConsts Demo.envKeep Demo.params Demo.imageList ⟨6, 5⟩ true
      Demo.run0).goodImageList = ["l1", "r1", "l3", "r3"] :=
  ⟨by decide,
    rectify_reads_past_end Demo.envKeep Demo.cameraMatrix Demo.distCoeffs Demo.cameraMatrix
      Demo.distCoeffs ⟨640, 480⟩ Mat.default Mat.default "stereo_params.xml" Demo.runGood 2
      (by decide) (by decide) (by decide) (fun _ _ => rfl),
    by decide, by decide⟩

/-! ### Calls made on nothing -/

/-- C26, the code at the failing inputs: when the first image of the list does not load,
`mergeImages` is called with `imageSize = Size()`, for which `MAX(width, height)` is 0, and
with two empty images; in the list `Demo.listLeftSize` the pair whose left image has another
size reaches `mergeImages` with that left image and an empty right image.  Each of these
calls is the last thing the run does. -/
theorem mergeImages_gets_empty_images :
    (StereoCalib.pairStep Demo.env ⟨6, 5⟩ 300 ["nofile", "r1"] 0 Demo.st0).trace
      = [Event.imread "nofile", Event.mergeImages Size.default Mat.default Mat.default] ∧
    MAX Size.default.width Size.default.height = 0 ∧
    (Mat.default : Mat Int).empty = true ∧
    mergeCalls (StereoCalib.findCorners Demo.env ⟨6, 5⟩ 300 Demo.listLeftSize
        Demo.st0).2.trace
      = [(⟨640, 480⟩, Demo.imgA, Demo.imgA), (⟨640, 480⟩, Demo.imgB, Mat.default)] ∧
    (StereoCalib.findCorners Demo.env ⟨6, 5⟩ 300 Demo.listLeftSize Demo.st0).2.trace.getLast?
      = some (Event.mergeImages ⟨640, 480⟩ Demo.imgB Mat.default) := by
  decide

/-- C28, the code at the failing input: `camera_calib` started without arguments, the
operator naming three images none of which loads.  The collection ends with no accepted
frame, and `main` goes on to call `calibrateCamera` with empty `objectPoints` and
`imagePoints`; in `computeReprojectionErrors` the loop makes no pass, so `totalPoints` is 0
at the division `totalErr/totalPoints`; the run ends with exit code 0. -/
theorem calibration_without_frames :
    (CameraCalib.mainCollect opencvConsts Demo.env ["camera_calib"]
      (fun _ => none)).imageList = ["l01.jpg", "l02.jpg", "l03.jpg"] ∧
    (CameraCalib.mainCollect opencvConsts Demo.env ["camera_calib"]
      (fun _ => none)).goodFrameCnt = 0 ∧
    calibFrames (CameraCalib.main opencvConsts Demo.env ["camera_calib"]
      (fun _ => none)).2.trace = [(0, 0)] ∧
    CameraCalib.replicateBoard 0 ([] : List (List (Point3f Int))) = [] ∧
    (CameraCalib.reprojLoop Demo.env [] [] [] [] Demo.cameraMatrix Demo.distCoeffs
      []).totalPoints = 0 ∧
    (CameraCalib.main opencvConsts Demo.env ["camera_calib"] (fun _ => none)).1 = some 0 := by
  decide
